import Mathlib

/-!
# The per-core dataplane loop of the TAS fast path (`tas/fast/fastemu.c`)

A shallow embedding of the buffer cache, the TX staging flush, the ARX cache
flush and the polls of `fastemu.c`, followed by the properties proved of them.

Modelling conventions.

* Pointers (`struct network_buf_handle *`, flow states, queue entries, RX
  slots) are opaque naturals; a C array is a total map from indices to values
  and a pointer into an array is an offset.
* `struct dataplane_context` is declared in `internal.h`, which is not part of
  this file: its counters are naturals.  Locals whose C type is visible in
  `fastemu.c` are truncated to that width (`u8`, `u16`, `u32`).
* `BATCH_SIZE`, `TXBUF_SIZE`, `BUFCACHE_SIZE` and `FLEXNIC_PL_APPCTX_NUM` come
  from headers outside this file and are parameters (`Config`).
* The functions `fastemu.c` calls but does not define are parameters (`Env`).
  A collaborator that receives the context pointer may change the external
  state and the TX/ARX staging fields (`Shared`); the buffer cache and the
  round-robin cursor are only written by the functions of this file.
* Every call to a collaborator is appended to `trace`, oldest first.
* `STATS_ADD`, `STATS_ATOMIC_ADD` and `rte_prefetch0` have no effect on the
  state modelled here and are left out.
* A failed `assert` and `abort()` stop the process: the result is
  `Except.error` with the context reached; a normal return is `Except.ok`.
-/

set_option maxRecDepth 100000

namespace Fastemu

/-- A `struct network_buf_handle *`. -/
abbrev Handle := Nat

/-- A flow-state pointer (`void *` entry of `fss`). -/
abbrev FlowState := Nat

/-- A parsed `struct tcp_opts`. -/
abbrev TcpOpts := Nat

/-- A `struct flextcp_pl_arx` record. -/
abbrev ArxRec := Nat

/-- An application queue entry pointer (entry of `aqes`). -/
abbrev Aqe := Nat

/-- A reserved application RX slot (`struct flextcp_pl_arx *`). -/
abbrev Slot := Nat

/-- Conversion to `uint8_t`. -/
def u8 (x : Int) : Nat := (x % 256).toNat

/-- Conversion to `uint16_t`. -/
def u16 (x : Int) : Nat := (x % 65536).toNat

/-- Conversion to `unsigned` / `uint32_t`. -/
def u32 (x : Int) : Nat := (x % 4294967296).toNat

/-- The compile-time sizes used by `fastemu.c`. -/
structure Config where
  BATCH_SIZE : Nat
  TXBUF_SIZE : Nat
  BUFCACHE_SIZE : Nat
  FLEXNIC_PL_APPCTX_NUM : Nat

/-- A call issued by `fastemu.c` to one of its collaborators, with the
arguments and the result that matter to the caller. -/
inductive Event where
  | network_poll (n : Nat) (ret : Int)
  | network_send (n : Nat) (ret : Int)
  | network_buf_alloc (n : Nat) (res : Nat)
  | network_buf_reset (h : Handle)
  | network_free (h : Handle)
  | fast_flows_packet_fss (n : Nat)
  | fast_flows_packet_parse (n : Nat)
  | fast_flows_packet (bh : Handle) (fs : FlowState) (ret : Int)
  | fast_kernel_packet (bh : Handle)
  | fast_actx_rxq_alloc (actx : Nat) (ret : Int) (slot : Slot)
  | arx_store (slot : Slot) (rec : ArxRec)
  | actx_kick (actx : Nat)
  | fast_appctx_poll_pf (actx : Nat)
  | fast_appctx_poll_fetch (actx : Nat) (ret : Int)
  | fast_appctx_poll_bump (aqe : Aqe) (h : Handle) (ret : Int)
  | fast_actx_rxq_probe (actx : Nat)
  | fast_kernel_poll (h : Handle) (ret : Int)
  | qman_poll (max : Nat) (ret : Int)
  | fast_flows_qman (q : Nat) (h : Handle) (ret : Int)
  | rte_ring_dequeue_burst (n : Nat) (ret : Int)
  | fast_flows_qman_fwd (fs : FlowState)
  deriving DecidableEq

/-- What a collaborator holding the context pointer can change: the TX staging
area, the ARX cache and the external state `world` (NIC channel, queue
manager, forwarding ring, flow states, application and slow-path queues). -/
structure Shared (W : Type) where
  tx_handles : Nat → Handle
  tx_num : Nat
  arx_cache : Nat → ArxRec
  arx_ctx : Nat → Nat
  arx_num : Nat
  world : W

/-- The fields of `struct dataplane_context` used by `fastemu.c`, and the
trace of collaborator calls. -/
structure dataplane_context (W : Type) where
  id : Nat
  poll_next_ctx : Nat
  bufcache_handles : Nat → Handle
  bufcache_num : Nat
  bufcache_head : Nat
  sh : Shared W
  trace : List Event

/-- The collaborators of `fastemu.c`.  A function that takes `&ctx->net`,
`&ctx->qman`, the ring or a bare pointer acts on the external state only; a
function that takes `ctx` acts on `Shared`, except `fast_actx_rxq_alloc`, which
reserves a slot in an application RX ring while the ARX cache is flushed and
acts on the external state.  The application context
`fp_state->appctx[ctx->id][j]` is named by `j`.  Output arrays are returned
whole. -/
structure Env (W : Type) where
  network_poll : W → Nat → Int × (Nat → Handle) × W
  network_send : W → Nat → (Nat → Handle) → Int × W
  network_buf_alloc : W → Nat → List Handle × W
  network_buf_reset : W → Handle → W
  network_free : W → Handle → W
  fast_flows_packet_fss : Shared W → (Nat → Handle) → Nat → (Nat → Option FlowState) × Shared W
  fast_flows_packet_parse : Shared W → (Nat → Handle) → (Nat → Option FlowState) → Nat →
    (Nat → Option FlowState) × (Nat → TcpOpts) × Shared W
  fast_flows_packet : Shared W → Handle → FlowState → TcpOpts → Nat → Int × Shared W
  fast_kernel_packet : Shared W → Handle → Shared W
  fast_actx_rxq_alloc : W → Nat → Int × Slot × W
  arx_store : W → Slot → ArxRec → W
  actx_kick : W → Nat → Nat → W
  fast_appctx_poll_pf : Shared W → Nat → Shared W
  fast_appctx_poll_fetch : Shared W → Nat → Int × Aqe × Shared W
  fast_appctx_poll_bump : Shared W → Aqe → Handle → Nat → Int × Shared W
  fast_actx_rxq_probe : Shared W → Nat → Shared W
  fast_kernel_poll : Shared W → Handle → Nat → Int × Shared W
  qman_poll : W → Nat → Int × (Nat → Nat) × (Nat → Nat) × W
  fast_flows_qman_pf : Shared W → (Nat → Nat) → Int → Shared W
  fast_flows_qman_pfbufs : Shared W → (Nat → Nat) → Int → Shared W
  fast_flows_qman : Shared W → Nat → Handle → Nat → Int × Shared W
  rte_ring_dequeue_burst : W → Nat → Int × (Nat → FlowState) × W
  fast_flows_qman_fwd : Shared W → FlowState → Shared W

/-- The array `a` after `hs` has been written to it from index `off` on. -/
def writeAt (a : Nat → Handle) (off : Nat) (hs : List Handle) : Nat → Handle :=
  fun j => if off ≤ j ∧ j < off + hs.length then hs.getD (j - off) (a j) else a j

/-- One call `network_buf_alloc(&ctx->net, n, ctx->bufcache_handles + off)`:
the allocator writes the handles it hands out from `off` on and returns their
number, which the caller keeps in the `uint16_t res`. -/
def bufcache_fill {W : Type} (env : Env W) (ctx : dataplane_context W) (n off : Nat) :
    Nat × dataplane_context W :=
  let r := env.network_buf_alloc ctx.sh.world n
  (u16 r.1.length,
   { ctx with
     bufcache_handles := writeAt ctx.bufcache_handles off r.1
     sh := { ctx.sh with world := r.2 }
     trace := ctx.trace ++ [Event.network_buf_alloc n r.1.length] })

/-- The loop of lines 582-587 of `bufcache_prealloc`, from `i` for `k` rounds:
each refilled slot is read and written back. -/
def bufcache_retag (BUFCACHE_SIZE head : Nat) : Nat → Nat → (Nat → Handle) → (Nat → Handle)
  | 0, _, a => a
  | k + 1, i, a =>
    let g := u16 ((head + i) &&& (BUFCACHE_SIZE - 1) : Nat)
    bufcache_retag BUFCACHE_SIZE head k (u16 (i + 1 : Nat)) (Function.update a g (a g))

/-- The refill branch of `bufcache_prealloc` (lines 569-589). -/
def bufcache_refill {W : Type} (env : Env W) (cfg : Config) (ctx : dataplane_context W) :
    dataplane_context W :=
  let grow := u16 ((cfg.BUFCACHE_SIZE : Int) - ctx.bufcache_num)
  let head := u16 ((ctx.bufcache_head + ctx.bufcache_num) &&& (cfg.BUFCACHE_SIZE - 1) : Nat)
  let r : Nat × dataplane_context W :=
    if head + grow ≤ cfg.BUFCACHE_SIZE then
      bufcache_fill env ctx grow head
    else
      let g := u16 ((cfg.BUFCACHE_SIZE : Int) - head)
      let r1 := bufcache_fill env ctx g head
      if r1.1 = g then
        let r2 := bufcache_fill env r1.2 (u32 ((grow : Int) - g)) 0
        (u16 (r1.1 + r2.1 : Nat), r2.2)
      else r1
  { r.2 with
    bufcache_handles := bufcache_retag cfg.BUFCACHE_SIZE head r.1 0 r.2.bufcache_handles
    bufcache_num := r.2.bufcache_num + r.1 }

/-- The function `bufcache_prealloc(ctx, num, &handles)`: the returned triple
is the `uint8_t` count, the offset of `*handles` in `bufcache_handles`, and the
context. -/
def bufcache_prealloc {W : Type} (env : Env W) (cfg : Config) (ctx : dataplane_context W)
    (num : Nat) : Nat × Nat × dataplane_context W :=
  let ctx1 := if ctx.bufcache_num < num then bufcache_refill env cfg ctx else ctx
  let avail : Int :=
    if ctx1.bufcache_head + ctx1.bufcache_num ≤ cfg.BUFCACHE_SIZE then (ctx1.bufcache_num : Int)
    else (cfg.BUFCACHE_SIZE : Int) - ctx1.bufcache_head
  let num1 := u16 (if (num : Int) < avail then (num : Int) else avail)
  (u8 num1, ctx1.bufcache_head, ctx1)

/-- The function `bufcache_alloc(ctx, num)`; the process stops when the
assertion `num <= ctx->bufcache_num` fails. -/
def bufcache_alloc {W : Type} (cfg : Config) (ctx : dataplane_context W) (num : Nat) :
    Except (dataplane_context W) (dataplane_context W) :=
  if num ≤ ctx.bufcache_num then
    Except.ok { ctx with
      bufcache_head := (ctx.bufcache_head + num) &&& (cfg.BUFCACHE_SIZE - 1)
      bufcache_num := ctx.bufcache_num - num }
  else Except.error ctx

/-- The function `bufcache_free(ctx, handle)`. -/
def bufcache_free {W : Type} (env : Env W) (cfg : Config) (ctx : dataplane_context W)
    (handle : Handle) : dataplane_context W :=
  let num := u32 ctx.bufcache_num
  if num < cfg.BUFCACHE_SIZE then
    let head := u32 ((u32 (ctx.bufcache_head + num : Nat)) &&& (cfg.BUFCACHE_SIZE - 1) : Nat)
    { ctx with
      bufcache_handles := Function.update ctx.bufcache_handles head handle
      bufcache_num := num + 1
      sh := { ctx.sh with world := env.network_buf_reset ctx.sh.world handle }
      trace := ctx.trace ++ [Event.network_buf_reset handle] }
  else
    { ctx with
      sh := { ctx.sh with world := env.network_free ctx.sh.world handle }
      trace := ctx.trace ++ [Event.network_free handle] }

/-- The loop of lines 644-646 of `tx_flush`, from `i` for `k` rounds:
`tx_handles[i - ret] = tx_handles[i]`. -/
def tx_shift (ret : Nat) : Nat → Nat → (Nat → Handle) → (Nat → Handle)
  | 0, _, a => a
  | k + 1, i, a => tx_shift ret k (i + 1) (Function.update a (i - ret) (a i))

/-- The function `tx_flush(ctx)`.  The NIC answer `ret` is an `int`; the new
`tx_num` is `tx_num - ret`, a natural for every answer `ret <= tx_num`.  An
answer above `tx_num` is outside what the model covers: the subtraction of line
647 then wraps in the field, while the model leaves no frame staged. -/
def tx_flush {W : Type} (env : Env W) (ctx : dataplane_context W) : dataplane_context W :=
  if ctx.sh.tx_num = 0 then ctx
  else
    let r := env.network_send ctx.sh.world ctx.sh.tx_num ctx.sh.tx_handles
    let ret := r.1
    let ctx1 : dataplane_context W :=
      { ctx with
        sh := { ctx.sh with world := r.2 }
        trace := ctx.trace ++ [Event.network_send ctx.sh.tx_num ret] }
    if ret = (ctx.sh.tx_num : Int) then
      { ctx1 with sh := { ctx1.sh with tx_num := 0 } }
    else if ret > 0 then
      { ctx1 with
        sh := { ctx1.sh with
          tx_handles := tx_shift ret.toNat (ctx.sh.tx_num - ret.toNat) ret.toNat ctx.sh.tx_handles
          tx_num := ((ctx.sh.tx_num : Int) - ret).toNat } }
    else ctx1

/-- First loop of `arx_cache_flush` (lines 687-694), from `i` for `k` rounds:
one RX slot is reserved per cached record; a failed reservation aborts. -/
def arx_reserve {W : Type} (env : Env W) :
    Nat → Nat → dataplane_context W → (Nat → Slot) →
      Except (dataplane_context W) (dataplane_context W × (Nat → Slot))
  | 0, _, ctx, parx => Except.ok (ctx, parx)
  | k + 1, i, ctx, parx =>
    let actx := ctx.sh.arx_ctx i
    let r := env.fast_actx_rxq_alloc ctx.sh.world actx
    let ctx1 : dataplane_context W :=
      { ctx with
        sh := { ctx.sh with world := r.2.2 }
        trace := ctx.trace ++ [Event.fast_actx_rxq_alloc actx r.1 r.2.1] }
    if r.1 ≠ 0 then Except.error ctx1
    else arx_reserve env k (i + 1) ctx1 (Function.update parx i r.2.1)

/-- Third loop of `arx_cache_flush` (lines 700-702): `*parx[i] = arx_cache[i]`. -/
def arx_copy {W : Type} (env : Env W) (parx : Nat → Slot) :
    Nat → Nat → dataplane_context W → dataplane_context W
  | 0, _, ctx => ctx
  | k + 1, i, ctx =>
    arx_copy env parx k (i + 1)
      { ctx with
        sh := { ctx.sh with world := env.arx_store ctx.sh.world (parx i) (ctx.sh.arx_cache i) }
        trace := ctx.trace ++ [Event.arx_store (parx i) (ctx.sh.arx_cache i)] }

/-- Fourth loop of `arx_cache_flush` (lines 704-707): every target context is
kicked. -/
def arx_kick {W : Type} (env : Env W) (ts : Nat) :
    Nat → Nat → dataplane_context W → dataplane_context W
  | 0, _, ctx => ctx
  | k + 1, i, ctx =>
    arx_kick env ts k (i + 1)
      { ctx with
        sh := { ctx.sh with world := env.actx_kick ctx.sh.world (ctx.sh.arx_ctx i) ts }
        trace := ctx.trace ++ [Event.actx_kick (ctx.sh.arx_ctx i)] }

/-- The function `arx_cache_flush(ctx, ts)`. -/
def arx_cache_flush {W : Type} (env : Env W) (ctx : dataplane_context W) (ts : Nat) :
    Except (dataplane_context W) (dataplane_context W) :=
  match arx_reserve env ctx.sh.arx_num 0 ctx (fun _ => 0) with
  | Except.error c => Except.error c
  | Except.ok r =>
    let ctx1 := arx_copy env r.2 r.1.sh.arx_num 0 r.1
    let ctx2 := arx_kick env ts ctx1.sh.arx_num 0 ctx1
    Except.ok { ctx2 with sh := { ctx2.sh with arx_num := 0 } }

/-- Lines 363-368 of `poll_rx`: the fast path is run on frame `i` when it has
a flow state; the result is the value of `ret` and the context. -/
def poll_rx_fastpath {W : Type} (env : Env W) (ts : Nat) (bhs : Nat → Handle)
    (fss : Nat → Option FlowState) (tcpopts : Nat → TcpOpts) (i : Nat)
    (ctx : dataplane_context W) : Int × dataplane_context W :=
  match fss i with
  | some fs =>
    let p := env.fast_flows_packet ctx.sh (bhs i) fs (tcpopts i) ts
    (p.1, { ctx with sh := p.2, trace := ctx.trace ++ [Event.fast_flows_packet (bhs i) fs p.1] })
  | none => (-1, ctx)

/-- The dispatch loop of `poll_rx` (lines 362-375), from `i` for `k` rounds;
the second component is the array `freebuf`. -/
def poll_rx_dispatch {W : Type} (env : Env W) (ts : Nat) (bhs : Nat → Handle)
    (fss : Nat → Option FlowState) (tcpopts : Nat → TcpOpts) :
    Nat → Nat → dataplane_context W → (Nat → Nat) → dataplane_context W × (Nat → Nat)
  | 0, _, ctx, freebuf => (ctx, freebuf)
  | k + 1, i, ctx, freebuf =>
    let r := poll_rx_fastpath env ts bhs fss tcpopts i ctx
    if r.1 > 0 then
      poll_rx_dispatch env ts bhs fss tcpopts k (i + 1) r.2 (Function.update freebuf i 1)
    else if r.1 < 0 then
      poll_rx_dispatch env ts bhs fss tcpopts k (i + 1)
        { r.2 with
          sh := env.fast_kernel_packet r.2.sh (bhs i)
          trace := r.2.trace ++ [Event.fast_kernel_packet (bhs i)] }
        freebuf
    else
      poll_rx_dispatch env ts bhs fss tcpopts k (i + 1) r.2 freebuf

/-- The loop of `poll_rx` commented "free received buffers" (lines 380-383),
from `i` for `k` rounds. -/
def poll_rx_free {W : Type} (env : Env W) (cfg : Config) (bhs : Nat → Handle)
    (freebuf : Nat → Nat) : Nat → Nat → dataplane_context W → dataplane_context W
  | 0, _, ctx => ctx
  | k + 1, i, ctx =>
    poll_rx_free env cfg bhs freebuf k (i + 1)
      (if freebuf i = 0 then bufcache_free env cfg ctx (bhs i) else ctx)

/-- The batch bound `n` of `poll_rx` (lines 331-333), an `unsigned`. -/
def poll_rx_bound {W : Type} (cfg : Config) (ctx : dataplane_context W) : Nat :=
  if u32 ((cfg.TXBUF_SIZE : Int) - ctx.sh.tx_num) < u32 cfg.BATCH_SIZE then
    u32 ((cfg.TXBUF_SIZE : Int) - ctx.sh.tx_num)
  else u32 cfg.BATCH_SIZE

/-- Lines 331-338 of `poll_rx`: the batch is bounded and requested from the
NIC.  The result is `ret`, the array `bhs` and the context. -/
def poll_rx_recv {W : Type} (env : Env W) (cfg : Config) (ctx : dataplane_context W) :
    Int × (Nat → Handle) × dataplane_context W :=
  let n := poll_rx_bound cfg ctx
  let r := env.network_poll ctx.sh.world n
  (r.1, r.2.1,
   { ctx with
     sh := { ctx.sh with world := r.2.2 }
     trace := ctx.trace ++ [Event.network_poll n r.1] })

/-- Lines 352 and 360 of `poll_rx`: the flow states of the `n` frames are
looked up and the frames are parsed.  The result is `fss`, `tcpopts` and the
context. -/
def poll_rx_lookup {W : Type} (env : Env W) (bhs : Nat → Handle) (n : Nat)
    (ctx : dataplane_context W) :
    (Nat → Option FlowState) × (Nat → TcpOpts) × dataplane_context W :=
  let f := env.fast_flows_packet_fss ctx.sh bhs n
  let ctx2 : dataplane_context W :=
    { ctx with sh := f.2, trace := ctx.trace ++ [Event.fast_flows_packet_fss n] }
  let p := env.fast_flows_packet_parse ctx2.sh bhs f.1 n
  (p.1, p.2.1,
   { ctx2 with sh := p.2.2, trace := ctx2.trace ++ [Event.fast_flows_packet_parse n] })

/-- The function `poll_rx(ctx, ts)`: the returned pair is the count and the
context. -/
def poll_rx {W : Type} (env : Env W) (cfg : Config) (ctx : dataplane_context W) (ts : Nat) :
    Except (dataplane_context W) (Nat × dataplane_context W) :=
  let r := poll_rx_recv env cfg ctx
  if r.1 ≤ 0 then Except.ok (0, r.2.2)
  else
    let n := u32 r.1
    let l := poll_rx_lookup env r.2.1 n r.2.2
    let d := poll_rx_dispatch env ts r.2.1 l.1 l.2.1 n 0 l.2.2 (fun _ => 0)
    match arx_cache_flush env d.1 ts with
    | Except.error c => Except.error c
    | Except.ok ctx4 => Except.ok (n, poll_rx_free env cfg r.2.1 d.2 n 0 ctx4)

/-- The `uint16_t max` the polls compute before reserving buffers:
`max = BATCH_SIZE; if (TXBUF_SIZE - ctx->tx_num < max) max = TXBUF_SIZE - ctx->tx_num;`
(lines 398-400, 452-454 and 489-491). -/
def poll_max {W : Type} (cfg : Config) (ctx : dataplane_context W) : Nat :=
  if (cfg.TXBUF_SIZE : Int) - ctx.sh.tx_num < (u16 cfg.BATCH_SIZE : Int) then
    u16 ((cfg.TXBUF_SIZE : Int) - ctx.sh.tx_num)
  else u16 cfg.BATCH_SIZE

/-- The prefetch loop of `poll_queues` (lines 405-407), from `n` for `k`
rounds. -/
def poll_queues_pf {W : Type} (env : Env W) (cfg : Config) :
    Nat → Nat → dataplane_context W → dataplane_context W
  | 0, _, ctx => ctx
  | k + 1, n, ctx =>
    let a := (ctx.poll_next_ctx + n) % cfg.FLEXNIC_PL_APPCTX_NUM
    poll_queues_pf env cfg k (n + 1)
      { ctx with
        sh := env.fast_appctx_poll_pf ctx.sh a
        trace := ctx.trace ++ [Event.fast_appctx_poll_pf a] }

/-- The loop state of the fetch stage of `poll_queues`. -/
structure FetchState (W : Type) where
  ctx : dataplane_context W
  aqes : Nat → Aqe
  k : Nat
  total : Nat

/-- The inner fetch loop of `poll_queues` (lines 410-418) with `r` rounds
left (`i < BATCH_SIZE`). -/
def poll_queues_fetch_ctx {W : Type} (env : Env W) (max : Nat) :
    Nat → FetchState W → FetchState W
  | 0, st => st
  | r + 1, st =>
    if st.k < max then
      let p := env.fast_appctx_poll_fetch st.ctx.sh st.ctx.poll_next_ctx
      let ctx1 : dataplane_context W :=
        { st.ctx with
          sh := p.2.2
          trace := st.ctx.trace ++ [Event.fast_appctx_poll_fetch st.ctx.poll_next_ctx p.1] }
      if p.1 = 0 then
        poll_queues_fetch_ctx env max r
          { ctx := ctx1
            aqes := Function.update st.aqes st.k p.2.1
            k := u16 (st.k + 1 : Nat)
            total := u32 (st.total + 1 : Nat) }
      else { st with ctx := ctx1 }
    else st

/-- The outer fetch loop of `poll_queues` (lines 409-422) with `r` rounds left
(`n < FLEXNIC_PL_APPCTX_NUM`); the second component is the number of rounds
run, the contexts scanned. -/
def poll_queues_fetch {W : Type} (env : Env W) (cfg : Config) (max : Nat) :
    Nat → FetchState W → FetchState W × Nat
  | 0, st => (st, 0)
  | r + 1, st =>
    if st.k < max then
      let st1 := poll_queues_fetch_ctx env max (u32 cfg.BATCH_SIZE) st
      let st2 : FetchState W :=
        { st1 with
          ctx := { st1.ctx with
            poll_next_ctx := (st1.ctx.poll_next_ctx + 1) % cfg.FLEXNIC_PL_APPCTX_NUM } }
      let res := poll_queues_fetch env cfg max r st2
      (res.1, res.2 + 1)
    else (st, 0)

/-- The bump loop of `poll_queues` (lines 424-428), from `j` for `r` rounds;
`off` is the offset of `handles` in `bufcache_handles`.  The second component
is `num_bufs`. -/
def poll_queues_bump {W : Type} (env : Env W) (ts : Nat) (aqes : Nat → Aqe) (off : Nat) :
    Nat → Nat → dataplane_context W → Nat → dataplane_context W × Nat
  | 0, _, ctx, num_bufs => (ctx, num_bufs)
  | r + 1, j, ctx, num_bufs =>
    let h := ctx.bufcache_handles (off + num_bufs)
    let p := env.fast_appctx_poll_bump ctx.sh (aqes j) h ts
    let ctx1 : dataplane_context W :=
      { ctx with
        sh := p.2
        trace := ctx.trace ++ [Event.fast_appctx_poll_bump (aqes j) h p.1] }
    poll_queues_bump env ts aqes off r (u16 (j + 1 : Nat)) ctx1
      (if p.1 = 0 then u16 (num_bufs + 1 : Nat) else num_bufs)

/-- The probe loop of `poll_queues` (lines 433-434), from `n` for `k` rounds. -/
def poll_queues_probe {W : Type} (env : Env W) :
    Nat → Nat → dataplane_context W → dataplane_context W
  | 0, _, ctx => ctx
  | k + 1, n, ctx =>
    poll_queues_probe env k (n + 1)
      { ctx with
        sh := env.fast_actx_rxq_probe ctx.sh n
        trace := ctx.trace ++ [Event.fast_actx_rxq_probe n] }

/-- The function `poll_queues(ctx, ts)`: the returned pair is `total` and the
context. -/
def poll_queues {W : Type} (env : Env W) (cfg : Config) (ctx : dataplane_context W) (ts : Nat) :
    Except (dataplane_context W) (Nat × dataplane_context W) :=
  let pre := bufcache_prealloc env cfg ctx (poll_max cfg ctx)
  let max := pre.1
  let off := pre.2.1
  let ctx1 := poll_queues_pf env cfg cfg.FLEXNIC_PL_APPCTX_NUM 0 pre.2.2
  let f := poll_queues_fetch env cfg max cfg.FLEXNIC_PL_APPCTX_NUM
    { ctx := ctx1, aqes := fun _ => 0, k := 0, total := 0 }
  let b := poll_queues_bump env ts f.1.aqes off f.1.k 0 f.1.ctx 0
  match bufcache_alloc cfg b.1 b.2 with
  | Except.error c => Except.error c
  | Except.ok ctx2 =>
    Except.ok (f.1.total, poll_queues_probe env cfg.FLEXNIC_PL_APPCTX_NUM 0 ctx2)

/-- The loop state of `poll_kernel`. -/
structure KernelState (W : Type) where
  ctx : dataplane_context W
  k : Nat
  total : Nat

/-- The loop of `poll_kernel` (lines 460-469).  The loop has no bound of its
own on the rounds in which `fast_kernel_poll` returns a positive value, so the
model takes `fuel` rounds at most and returns `none` when they do not reach
the exit. -/
def poll_kernel_loop {W : Type} (env : Env W) (ts : Nat) (off max : Nat) :
    Nat → KernelState W → Option (KernelState W)
  | 0, _ => none
  | fuel + 1, st =>
    if st.k < max then
      let h := st.ctx.bufcache_handles (off + st.k)
      let p := env.fast_kernel_poll st.ctx.sh h ts
      let ctx1 : dataplane_context W :=
        { st.ctx with
          sh := p.2
          trace := st.ctx.trace ++ [Event.fast_kernel_poll h p.1] }
      if p.1 = 0 then
        poll_kernel_loop env ts off max fuel
          { ctx := ctx1, k := u16 (st.k + 1 : Nat), total := u32 (st.total + 1 : Nat) }
      else if p.1 < 0 then
        some { st with ctx := ctx1 }
      else
        poll_kernel_loop env ts off max fuel
          { ctx := ctx1, k := st.k, total := u32 (st.total + 1 : Nat) }
    else some st

/-- The function `poll_kernel(ctx, ts)` run with `fuel` loop rounds: `none`
when the loop does not reach its exit within them, otherwise `total` and the
context. -/
def poll_kernel {W : Type} (env : Env W) (cfg : Config) (fuel : Nat) (ctx : dataplane_context W)
    (ts : Nat) : Option (Except (dataplane_context W) (Nat × dataplane_context W)) :=
  let max0 := poll_max cfg ctx
  let max1 := if max0 > 8 then 8 else max0
  let pre := bufcache_prealloc env cfg ctx max1
  match poll_kernel_loop env ts pre.2.1 pre.1 fuel { ctx := pre.2.2, k := 0, total := 0 } with
  | none => none
  | some st =>
    match bufcache_alloc cfg st.ctx st.k with
    | Except.error c => some (Except.error c)
    | Except.ok ctx2 => some (Except.ok (st.total, ctx2))

/-- The callback loop of `poll_qman` (lines 529-539), from `i` for `r` rounds;
the second component is `off`. -/
def poll_qman_send {W : Type} (env : Env W) (ts : Nat) (q_ids : Nat → Nat) (hoff : Nat) :
    Nat → Nat → dataplane_context W → Nat → dataplane_context W × Nat
  | 0, _, ctx, off => (ctx, off)
  | r + 1, i, ctx, off =>
    let h := ctx.bufcache_handles (hoff + off)
    let p := env.fast_flows_qman ctx.sh (q_ids i) h ts
    let ctx1 : dataplane_context W :=
      { ctx with
        sh := p.2
        trace := ctx.trace ++ [Event.fast_flows_qman (q_ids i) h p.1] }
    poll_qman_send env ts q_ids hoff r (i + 1) ctx1
      (if p.1 = 0 then u16 (off + 1 : Nat) else off)

/-- The function `poll_qman(ctx, ts)`: the returned pair is the count and the
context. -/
def poll_qman {W : Type} (env : Env W) (cfg : Config) (ctx : dataplane_context W) (ts : Nat) :
    Except (dataplane_context W) (Nat × dataplane_context W) :=
  let pre := bufcache_prealloc env cfg ctx (poll_max cfg ctx)
  let max := pre.1
  let q := env.qman_poll pre.2.2.sh.world max
  let ret := q.1
  let ctx1 : dataplane_context W :=
    { pre.2.2 with
      sh := { pre.2.2.sh with world := q.2.2.2 }
      trace := pre.2.2.trace ++ [Event.qman_poll max ret] }
  if ret ≤ 0 then Except.ok (0, ctx1)
  else
    let ctx2 : dataplane_context W :=
      { ctx1 with sh := env.fast_flows_qman_pfbufs (env.fast_flows_qman_pf ctx1.sh q.2.1 ret) q.2.1 ret }
    let b := poll_qman_send env ts q.2.1 pre.2.1 ret.toNat 0 ctx2 0
    match bufcache_alloc cfg b.1 b.2 with
    | Except.error c => Except.error c
    | Except.ok ctx3 => Except.ok (u32 ret, ctx3)

/-- The callback loop of `poll_qman_fwd` (lines 554-556), from `i` for `r`
rounds. -/
def poll_qman_fwd_run {W : Type} (env : Env W) (flow_states : Nat → FlowState) :
    Nat → Nat → dataplane_context W → dataplane_context W
  | 0, _, ctx => ctx
  | r + 1, i, ctx =>
    poll_qman_fwd_run env flow_states r (i + 1)
      { ctx with
        sh := env.fast_flows_qman_fwd ctx.sh (flow_states i)
        trace := ctx.trace ++ [Event.fast_flows_qman_fwd (flow_states i)] }

/-- The function `poll_qman_fwd(ctx, ts)`: the returned pair is the count and
the context. -/
def poll_qman_fwd {W : Type} (env : Env W) (cfg : Config) (ctx : dataplane_context W) :
    Nat × dataplane_context W :=
  let d := env.rte_ring_dequeue_burst ctx.sh.world (4 * cfg.BATCH_SIZE)
  let ret := d.1
  let ctx1 : dataplane_context W :=
    { ctx with
      sh := { ctx.sh with world := d.2.2 }
      trace := ctx.trace ++ [Event.rte_ring_dequeue_burst (4 * cfg.BATCH_SIZE) ret] }
  (u32 ret, poll_qman_fwd_run env d.2.1 ret.toNat 0 ctx1)


/-- The calls of the flow fast path in a trace: frame, flow state and
returned value, in call order. -/
def flowCalls (t : List Event) : List (Handle × FlowState × Int) :=
  t.filterMap fun e =>
    match e with
    | Event.fast_flows_packet bh fs ret => some (bh, fs, ret)
    | _ => none

/-- The frames handed to `fast_kernel_packet` in a trace, in call order. -/
def kernelPackets (t : List Event) : List Handle :=
  t.filterMap fun e =>
    match e with
    | Event.fast_kernel_packet bh => some bh
    | _ => none

/-- The handles passed to `bufcache_free` in a trace, in call order: each call
resets the handle into the cache or returns it to the NIC allocator. -/
def freedHandles (t : List Event) : List Handle :=
  t.filterMap fun e =>
    match e with
    | Event.network_buf_reset h => some h
    | Event.network_free h => some h
    | _ => none

/-- The calls of `fast_appctx_poll_fetch` in a trace: application context and
returned value, in call order. -/
def fetchCalls (t : List Event) : List (Nat × Int) :=
  t.filterMap fun e =>
    match e with
    | Event.fast_appctx_poll_fetch actx ret => some (actx, ret)
    | _ => none

/-- The values returned by the calls of `fast_kernel_poll` in a trace, in call
order. -/
def kernelPolls (t : List Event) : List Int :=
  t.filterMap fun e =>
    match e with
    | Event.fast_kernel_poll _ ret => some ret
    | _ => none

/-- The traces `t` and `u` show the same fast-path calls, the same frames handed
to the slow path and the same freed handles. -/
def SameRx (t u : List Event) : Prop :=
  flowCalls u = flowCalls t ∧ kernelPackets u = kernelPackets t ∧
    freedHandles u = freedHandles t

/-- The array `bhs` of frames that `poll_rx` receives from the NIC. -/
def poll_rx_bhs {W : Type} (env : Env W) (cfg : Config) (ctx : dataplane_context W) :
    Nat → Handle :=
  (poll_rx_recv env cfg ctx).2.1

/-- The array `fss` of flow states that `poll_rx` holds when it dispatches the
frames. -/
def poll_rx_fss {W : Type} (env : Env W) (cfg : Config) (ctx : dataplane_context W) :
    Nat → Option FlowState :=
  (poll_rx_lookup env (poll_rx_recv env cfg ctx).2.1 (u32 (poll_rx_recv env cfg ctx).1)
    (poll_rx_recv env cfg ctx).2.2).1

/-- The context reached by a step that may stop the process: `f` of the result
when the step returns, the context at the stop otherwise. -/
def stopOr {σ α : Type} (f : α → σ) : Except σ α → σ
  | Except.ok a => f a
  | Except.error c => c

/-- The context a poll leaves behind, whether it returns or the process
stops in it. -/
def finalCtx {W : Type} :
    Except (dataplane_context W) (Nat × dataplane_context W) → dataplane_context W
  | Except.ok r => r.2
  | Except.error c => c

/-- The event is a call of `network_buf_alloc`. -/
def isAlloc : Event → Bool
  | Event.network_buf_alloc _ _ => true
  | _ => false

/-- The counts returned by `n` rounds of `poll_kernel` followed by `tx_flush`
(lines 179-184 of `dataplane_loop`), as long as the poll returns. -/
def kernelCycles {W : Type} (env : Env W) (cfg : Config) (fuel : Nat) :
    Nat → dataplane_context W → List Nat
  | 0, _ => []
  | n + 1, ctx =>
    match poll_kernel env cfg fuel ctx 0 with
    | some (Except.ok r) => r.1 :: kernelCycles env cfg fuel n (tx_flush env r.2)
    | _ => []

/-- The count a poll returns; `none` when the process stops in it. -/
def pollCount {W : Type} :
    Except (dataplane_context W) (Nat × dataplane_context W) → Option Nat
  | Except.ok r => some r.1
  | Except.error _ => none

/-- The context `d` has the cursor and the fetch calls of the context `c`. -/
def SameFetch {W : Type} (c d : dataplane_context W) : Prop :=
  d.poll_next_ctx = c.poll_next_ctx ∧ fetchCalls d.trace = fetchCalls c.trace

/-- The cache invariant: at most `BUFCACHE_SIZE` handles are cached and the
head is an index of the ring. -/
def CacheInv {W : Type} (cfg : Config) (ctx : dataplane_context W) : Prop :=
  ctx.bufcache_num ≤ cfg.BUFCACHE_SIZE ∧ ctx.bufcache_head < cfg.BUFCACHE_SIZE

/-- The calls of `fast_flows_qman` in a trace: queue id, handle offered and
returned value, in call order. -/
def qmanCalls (t : List Event) : List (Nat × Handle × Int) :=
  t.filterMap fun e =>
    match e with
    | Event.fast_flows_qman q h ret => some (q, h, ret)
    | _ => none

/-- The context `d` has the fields of `c` that only `fastemu.c` writes: the
worker id, the round-robin cursor and the buffer cache. -/
def SamePrivate {W : Type} (c d : dataplane_context W) : Prop :=
  d.id = c.id ∧ d.poll_next_ctx = c.poll_next_ctx ∧
    d.bufcache_handles = c.bufcache_handles ∧ d.bufcache_num = c.bufcache_num ∧
    d.bufcache_head = c.bufcache_head

/-- The reservation `poll_qman` makes at line 496: count, offset of the slice
and context. -/
def poll_qman_reserved {W : Type} (env : Env W) (cfg : Config) (ctx : dataplane_context W) :
    Nat × Nat × dataplane_context W :=
  bufcache_prealloc env cfg ctx (poll_max cfg ctx)

/-- The answer of the queue manager to `poll_qman` at line 500: `ret`, `q_ids`,
`q_bytes` and the external state. -/
def poll_qman_answer {W : Type} (env : Env W) (cfg : Config) (ctx : dataplane_context W) :
    Int × (Nat → Nat) × (Nat → Nat) × W :=
  env.qman_poll (poll_qman_reserved env cfg ctx).2.2.sh.world (poll_qman_reserved env cfg ctx).1

/-- The context `d` is the context `c` after more collaborator calls, all of
a kind accepted by `P`. -/
def Grows {W : Type} (P : Event → Bool) (c d : dataplane_context W) : Prop :=
  ∃ t, d.trace = c.trace ++ t ∧ ∀ e ∈ t, P e = true

/-- The calls of `network_poll` in a trace: count asked for and returned
value, in call order. -/
def pollCalls (t : List Event) : List (Nat × Int) :=
  t.filterMap fun e =>
    match e with
    | Event.network_poll n ret => some (n, ret)
    | _ => none

/-- The event is not a call of `network_poll`. -/
def notPoll : Event → Bool
  | Event.network_poll _ _ => false
  | _ => true

/-- The event is one of the calls `poll_rx` makes after `network_poll`: bulk
lookup and parse, fast path, slow-path hand-over, ARX flush, buffer free. -/
def rxTail : Event → Bool
  | Event.fast_flows_packet_fss _ => true
  | Event.fast_flows_packet_parse _ => true
  | Event.fast_flows_packet _ _ _ => true
  | Event.fast_kernel_packet _ => true
  | Event.fast_actx_rxq_alloc _ _ _ => true
  | Event.arx_store _ _ => true
  | Event.actx_kick _ => true
  | Event.network_buf_reset _ => true
  | Event.network_free _ => true
  | _ => false

/-- The slots reserved on the application context `a` in a trace, in
reservation order. -/
def reservedOn (a : Nat) (t : List Event) : List Slot :=
  t.filterMap fun e =>
    match e with
    | Event.fast_actx_rxq_alloc actx _ slot => if actx = a then some slot else none
    | _ => none

/-- A call issued by the idle tail of `dataplane_loop` (lines 191-232). -/
inductive LoopEvent where
  | network_rx_interrupt_ctl (turnon : Nat) (ret : Int)
  | qman_next_ts (ts : Nat) (ret : Nat)
  | rte_epoll_wait (timeout : Int) (ret : Int)
  | read (fd : Int) (ret : Int)
  deriving DecidableEq

/-- The configuration and the collaborators read by the idle tail of
`dataplane_loop`: `config.fp_interrupts`, the constant `POLL_CYCLE`, the NIC
interrupt control, the queue manager's next deadline, the event wait (its
result and the descriptors `event[i].fd`) and `read` on the event
descriptor. -/
structure LoopEnv (W : Type) where
  fp_interrupts : Int
  POLL_CYCLE : Nat
  network_rx_interrupt_ctl : W → Nat → Int × W
  qman_next_ts : W → Nat → Nat × W
  rte_epoll_wait : W → Int → Int × (Nat → Int) × W
  read : W → Int → Int × W

/-- The locals of `dataplane_loop` that survive an iteration (`startwait`,
`was_idle`), the external state and the log of the calls made by the idle
tail. -/
structure LoopState (W : Type) where
  startwait : Nat
  was_idle : Int
  world : W
  log : List LoopEvent
  deriving DecidableEq

/-- The wake-up loop `for (i = 0; i < n; i++)` of lines 210-221, from `i` for
`k` rounds: the event counter is read when the event is the one of
`ctx->evfd`, and the read must return `sizeof(uint64_t)`. -/
def dataplane_loop_wake {W : Type} (env : LoopEnv W) (evfd : Int) (fds : Nat → Int) :
    Nat → Nat → LoopState W → Except (LoopState W) (LoopState W)
  | 0, _, st => Except.ok st
  | k + 1, i, st =>
    if fds i = evfd then
      let r := env.read st.world evfd
      let st1 : LoopState W :=
        { st with world := r.2, log := st.log ++ [LoopEvent.read evfd r.1] }
      if r.1 = 8 then dataplane_loop_wake env evfd fds k (i + 1) st1
      else Except.error st1
    else dataplane_loop_wake env evfd fds k (i + 1) st

/-- The tail of one iteration of `dataplane_loop` (lines 191-232): `n` is the
work counted by the polls of the iteration and `ts` its timestamp (a
`uint32_t`).  A failed assertion is `Except.error`. -/
def dataplane_loop_idle {W : Type} (env : LoopEnv W) (evfd : Int) (n ts : Nat)
    (st : LoopState W) : Except (LoopState W) (LoopState W) :=
  if n = 0 then
    let st0 : LoopState W := { st with was_idle := 1 }
    if st0.startwait = 0 then Except.ok { st0 with startwait := ts }
    else if env.fp_interrupts ≠ 0 ∧ env.POLL_CYCLE ≤ u32 ((ts : Int) - st0.startwait) then
      let r := env.network_rx_interrupt_ctl st0.world 1
      let st1 : LoopState W :=
        { st0 with world := r.2, log := st0.log ++ [LoopEvent.network_rx_interrupt_ctl 1 r.1] }
      if r.1 = 0 then
        let t := env.qman_next_ts st1.world ts
        let timeout_us := u32 t.1
        let st2 : LoopState W :=
          { st1 with world := t.2, log := st1.log ++ [LoopEvent.qman_next_ts ts t.1] }
        let timeout : Int := if timeout_us = 4294967295 then -1 else ((timeout_us / 1000 : Nat) : Int)
        let w := env.rte_epoll_wait st2.world timeout
        let st3 : LoopState W :=
          { st2 with world := w.2.2, log := st2.log ++ [LoopEvent.rte_epoll_wait timeout w.1] }
        if w.1 = -1 then Except.error st3
        else
          match dataplane_loop_wake env evfd w.2.1 w.1.toNat 0 st3 with
          | Except.error e => Except.error e
          | Except.ok st4 =>
            let o := env.network_rx_interrupt_ctl st4.world 0
            Except.ok
              { st4 with
                world := o.2
                log := st4.log ++ [LoopEvent.network_rx_interrupt_ctl 0 o.1]
                startwait := 0 }
      else Except.ok { st1 with startwait := 0 }
    else Except.ok st0
  else Except.ok { st with was_idle := 0, startwait := 0 }

/-- The tails of successive iterations of `dataplane_loop`, one pair
(`n`, `ts`) per iteration. -/
def dataplane_loop_tails {W : Type} (env : LoopEnv W) (evfd : Int) :
    List (Nat × Nat) → LoopState W → Except (LoopState W) (LoopState W)
  | [], st => Except.ok st
  | it :: its, st =>
    match dataplane_loop_idle env evfd it.1 it.2 st with
    | Except.error e => Except.error e
    | Except.ok st1 => dataplane_loop_tails env evfd its st1

/-- The locals at the entry of `dataplane_loop` (line 127-128). -/
def dataplane_loop_entry {W : Type} (w : W) : LoopState W :=
  { startwait := 0, was_idle := 1, world := w, log := [] }

/-- The interrupt-enable requests in a log, with their results. -/
def enableRequests (t : List LoopEvent) : List Int :=
  t.filterMap fun e =>
    match e with
    | LoopEvent.network_rx_interrupt_ctl 1 ret => some ret
    | _ => none

/-- The event waits in a log. -/
def eventWaits (t : List LoopEvent) : List Int :=
  t.filterMap fun e =>
    match e with
    | LoopEvent.rte_epoll_wait _ ret => some ret
    | _ => none

/-- The constants and the global `fp_cores_max` that `dataplane_init` compares
(lines 62-78); `sizeof_flextcp_pl_mem` is `sizeof(struct flextcp_pl_mem)`. -/
structure InitConfig where
  FLEXNIC_INTERNAL_MEM_SIZE : Nat
  sizeof_flextcp_pl_mem : Nat
  fp_cores_max : Nat
  FLEXNIC_PL_APPST_CTX_MCS : Nat
  FLEXNIC_PL_FLOWST_NUM : Nat
  FLEXNIC_NUM_QMQUEUES : Nat

/-- The function `dataplane_init()`. -/
def dataplane_init (ic : InitConfig) : Int :=
  if ic.FLEXNIC_INTERNAL_MEM_SIZE < ic.sizeof_flextcp_pl_mem then -1
  else if ic.fp_cores_max > ic.FLEXNIC_PL_APPST_CTX_MCS then -1
  else if ic.FLEXNIC_PL_FLOWST_NUM > ic.FLEXNIC_NUM_QMQUEUES then -1
  else 0

/-- The collaborators of `dataplane_context_init`: `rte_ring_create` answers
whether a ring was created, the two thread initialisers take `ctx`, and
`kctx_evfd` is the store `fp_state->kctx[ctx->id].evfd = ctx->evfd`. -/
structure InitEnv (W : Type) where
  rte_ring_create : W → Nat → Bool × W
  qman_thread_init : Shared W → Int × Shared W
  network_thread_init : Shared W → Int × Shared W
  eventfd : W → Int × W
  rte_epoll_ctl : W → Int → Int × W
  kctx_evfd : W → Nat → Int → W

/-- The function `dataplane_context_init(ctx)`: the returned triple is the
returned value, the descriptor `ctx->evfd` (`evfd` when it is not assigned) and
the context; a failed assertion stops the process. -/
def dataplane_context_init {W : Type} (ienv : InitEnv W) (ctx : dataplane_context W)
    (evfd : Int) : Except (dataplane_context W) (Int × Int × dataplane_context W) :=
  let r := ienv.rte_ring_create ctx.sh.world ctx.id
  let ctx1 : dataplane_context W := { ctx with sh := { ctx.sh with world := r.2 } }
  if r.1 = false then Except.ok (-1, evfd, ctx1)
  else
    let q := ienv.qman_thread_init ctx1.sh
    let ctx2 : dataplane_context W := { ctx1 with sh := q.2 }
    if q.1 ≠ 0 then Except.ok (-1, evfd, ctx2)
    else
      let n := ienv.network_thread_init ctx2.sh
      let ctx3 : dataplane_context W := { ctx2 with sh := n.2 }
      if n.1 ≠ 0 then Except.ok (-1, evfd, ctx3)
      else
        let ctx4 : dataplane_context W := { ctx3 with poll_next_ctx := ctx3.id }
        let e := ienv.eventfd ctx4.sh.world
        let ctx5 : dataplane_context W := { ctx4 with sh := { ctx4.sh with world := e.2 } }
        if e.1 = -1 then Except.error ctx5
        else
          let c := ienv.rte_epoll_ctl ctx5.sh.world e.1
          let ctx6 : dataplane_context W := { ctx5 with sh := { ctx5.sh with world := c.2 } }
          if c.1 ≠ 0 then Except.error ctx6
          else
            Except.ok (0, e.1,
              { ctx6 with sh := { ctx6.sh with world := ienv.kctx_evfd ctx6.sh.world ctx6.id e.1 } })

/-- The context states a worker can reach: the state after a successful
`dataplane_context_init` of a worker whose index is below `fp_cores_max`, and
the state after any call of a poll or of `tx_flush` made in a reachable state. -/
inductive Reachable {W : Type} (ic : InitConfig) (ienv : InitEnv W) (env : Env W)
    (cfg : Config) : dataplane_context W → Prop where
  | init (c0 : dataplane_context W) (evfd e : Int) (c : dataplane_context W) :
      c0.id < ic.fp_cores_max →
      dataplane_context_init ienv c0 evfd = Except.ok (0, e, c) → Reachable ic ienv env cfg c
  | poll_rx (c : dataplane_context W) (ts : Nat) (r : Nat × dataplane_context W) :
      Reachable ic ienv env cfg c → poll_rx env cfg c ts = Except.ok r →
      Reachable ic ienv env cfg r.2
  | tx_flush (c : dataplane_context W) :
      Reachable ic ienv env cfg c → Reachable ic ienv env cfg (tx_flush env c)
  | poll_qman_fwd (c : dataplane_context W) :
      Reachable ic ienv env cfg c → Reachable ic ienv env cfg (poll_qman_fwd env cfg c).2
  | poll_qman (c : dataplane_context W) (ts : Nat) (r : Nat × dataplane_context W) :
      Reachable ic ienv env cfg c → poll_qman env cfg c ts = Except.ok r →
      Reachable ic ienv env cfg r.2
  | poll_queues (c : dataplane_context W) (ts : Nat) (r : Nat × dataplane_context W) :
      Reachable ic ienv env cfg c → poll_queues env cfg c ts = Except.ok r →
      Reachable ic ienv env cfg r.2
  | poll_kernel (c : dataplane_context W) (fuel ts : Nat) (r : Nat × dataplane_context W) :
      Reachable ic ienv env cfg c → poll_kernel env cfg fuel c ts = some (Except.ok r) →
      Reachable ic ienv env cfg r.2

/-- The number of application contexts `poll_queues` scans in its fetch stage
(the rounds of the loop of lines 409-422). -/
def poll_queues_scanned {W : Type} (env : Env W) (cfg : Config) (ctx : dataplane_context W) :
    Nat :=
  (poll_queues_fetch env cfg (bufcache_prealloc env cfg ctx (poll_max cfg ctx)).1
    cfg.FLEXNIC_PL_APPCTX_NUM
    { ctx := poll_queues_pf env cfg cfg.FLEXNIC_PL_APPCTX_NUM 0
        (bufcache_prealloc env cfg ctx (poll_max cfg ctx)).2.2
      aqes := fun _ => 0, k := 0, total := 0 }).2

/-- The number of fetch calls in a trace that returned 0, the TX descriptors
fetched. -/
def fetched (t : List Event) : Nat :=
  ((fetchCalls t).filter (fun x => decide (x.2 = 0))).length

/-- The number of fetch calls in a trace that returned a nonzero value, the
fetches that found the context empty. -/
def fetchMisses (t : List Event) : Nat :=
  ((fetchCalls t).filter (fun x => decide (x.2 ≠ 0))).length

/-- The context `d` has the buffer cache of the context `c`. -/
def SameCache {W : Type} (c d : dataplane_context W) : Prop :=
  d.bufcache_handles = c.bufcache_handles ∧ d.bufcache_num = c.bufcache_num ∧
    d.bufcache_head = c.bufcache_head

/-- The frames given to the flow fast path in a trace, each with the flow
state it was given with, in call order. -/
def flowFrames (t : List Event) : List (Handle × FlowState) :=
  (flowCalls t).map (fun x => (x.1, x.2.1))

/-- The burst dequeue of `env` is a FIFO dequeue of the ring `ring w`: it hands
out the first `min(length, n)` references in ring order, returns their number
and leaves the others in the ring. -/
def FifoRing {W : Type} (env : Env W) (ring : W → List FlowState) : Prop :=
  ∀ w n,
    (env.rte_ring_dequeue_burst w n).1 = ((min (ring w).length n : Nat) : Int) ∧
    (List.range (min (ring w).length n)).map (env.rte_ring_dequeue_burst w n).2.1 =
      (ring w).take (min (ring w).length n) ∧
    ring (env.rte_ring_dequeue_burst w n).2.2 = (ring w).drop (min (ring w).length n)

/-- The handles offered to `fast_appctx_poll_bump`, `fast_kernel_poll` and
`fast_flows_qman` in a trace, in call order. -/
def handleArgs (t : List Event) : List Handle :=
  t.filterMap fun e =>
    match e with
    | Event.fast_appctx_poll_bump _ h _ => some h
    | Event.fast_kernel_poll h _ => some h
    | Event.fast_flows_qman _ h _ => some h
    | _ => none

/-- The indices `num_bufs` at which the bump loop of `poll_queues` (lines
424-428) reads `handles`, one per round, in order; the arguments are those of
`poll_queues_bump`. -/
def poll_queues_bump_reads {W : Type} (env : Env W) (ts : Nat) (aqes : Nat → Aqe) (off : Nat) :
    Nat → Nat → dataplane_context W → Nat → List Nat
  | 0, _, _, _ => []
  | r + 1, j, ctx, num_bufs =>
    let h := ctx.bufcache_handles (off + num_bufs)
    let p := env.fast_appctx_poll_bump ctx.sh (aqes j) h ts
    let ctx1 : dataplane_context W :=
      { ctx with
        sh := p.2
        trace := ctx.trace ++ [Event.fast_appctx_poll_bump (aqes j) h p.1] }
    num_bufs :: poll_queues_bump_reads env ts aqes off r (u16 (j + 1 : Nat)) ctx1
      (if p.1 = 0 then u16 (num_bufs + 1 : Nat) else num_bufs)

/-- The indices `k` at which the loop of `poll_kernel` (lines 460-469) reads
`handles`, one per round run, in order; the arguments are those of
`poll_kernel_loop`. -/
def poll_kernel_loop_reads {W : Type} (env : Env W) (ts : Nat) (off max : Nat) :
    Nat → KernelState W → List Nat
  | 0, _ => []
  | fuel + 1, st =>
    if st.k < max then
      let h := st.ctx.bufcache_handles (off + st.k)
      let p := env.fast_kernel_poll st.ctx.sh h ts
      let ctx1 : dataplane_context W :=
        { st.ctx with
          sh := p.2
          trace := st.ctx.trace ++ [Event.fast_kernel_poll h p.1] }
      if p.1 = 0 then
        st.k :: poll_kernel_loop_reads env ts off max fuel
          { ctx := ctx1, k := u16 (st.k + 1 : Nat), total := u32 (st.total + 1 : Nat) }
      else if p.1 < 0 then [st.k]
      else
        st.k :: poll_kernel_loop_reads env ts off max fuel
          { ctx := ctx1, k := st.k, total := u32 (st.total + 1 : Nat) }
    else []

/-- The indices `off` at which the callback loop of `poll_qman` (lines
529-539) reads `handles`, one per round, in order; the arguments are those of
`poll_qman_send`. -/
def poll_qman_send_reads {W : Type} (env : Env W) (ts : Nat) (q_ids : Nat → Nat) (hoff : Nat) :
    Nat → Nat → dataplane_context W → Nat → List Nat
  | 0, _, _, _ => []
  | r + 1, i, ctx, off =>
    let h := ctx.bufcache_handles (hoff + off)
    let p := env.fast_flows_qman ctx.sh (q_ids i) h ts
    let ctx1 : dataplane_context W :=
      { ctx with
        sh := p.2
        trace := ctx.trace ++ [Event.fast_flows_qman (q_ids i) h p.1] }
    off :: poll_qman_send_reads env ts q_ids hoff r (i + 1) ctx1
      (if p.1 = 0 then u16 (off + 1 : Nat) else off)

/-- Every index at which `poll_queues` reads the reserved slice `handles`. -/
def poll_queues_reads {W : Type} (env : Env W) (cfg : Config) (ctx : dataplane_context W)
    (ts : Nat) : List Nat :=
  let pre := bufcache_prealloc env cfg ctx (poll_max cfg ctx)
  let ctx1 := poll_queues_pf env cfg cfg.FLEXNIC_PL_APPCTX_NUM 0 pre.2.2
  let f := poll_queues_fetch env cfg pre.1 cfg.FLEXNIC_PL_APPCTX_NUM
    { ctx := ctx1, aqes := fun _ => 0, k := 0, total := 0 }
  poll_queues_bump_reads env ts f.1.aqes pre.2.1 f.1.k 0 f.1.ctx 0

/-- The count `poll_kernel` gets from `bufcache_prealloc` (line 458). -/
def poll_kernel_reserved {W : Type} (env : Env W) (cfg : Config) (ctx : dataplane_context W) :
    Nat × Nat × dataplane_context W :=
  bufcache_prealloc env cfg ctx (if poll_max cfg ctx > 8 then 8 else poll_max cfg ctx)

/-- Every index at which `poll_kernel`, run with `fuel` loop rounds, reads the
reserved slice `handles`. -/
def poll_kernel_reads {W : Type} (env : Env W) (cfg : Config) (fuel : Nat)
    (ctx : dataplane_context W) (ts : Nat) : List Nat :=
  let pre := poll_kernel_reserved env cfg ctx
  poll_kernel_loop_reads env ts pre.2.1 pre.1 fuel { ctx := pre.2.2, k := 0, total := 0 }

/-- Every index at which `poll_qman` reads the reserved slice `handles`: the
three prefetch loops of lines 512-523 read `handles[i]` for every `i < ret`,
then the callback loop reads `handles[off]`. -/
def poll_qman_reads {W : Type} (env : Env W) (cfg : Config) (ctx : dataplane_context W)
    (ts : Nat) : List Nat :=
  let pre := bufcache_prealloc env cfg ctx (poll_max cfg ctx)
  let q := env.qman_poll pre.2.2.sh.world pre.1
  let ret := q.1
  let ctx1 : dataplane_context W :=
    { pre.2.2 with
      sh := { pre.2.2.sh with world := q.2.2.2 }
      trace := pre.2.2.trace ++ [Event.qman_poll pre.1 ret] }
  if ret ≤ 0 then []
  else
    let ctx2 : dataplane_context W :=
      { ctx1 with sh := env.fast_flows_qman_pfbufs (env.fast_flows_qman_pf ctx1.sh q.2.1 ret) q.2.1 ret }
    List.range ret.toNat ++ List.range ret.toNat ++ List.range ret.toNat ++
      poll_qman_send_reads env ts q.2.1 pre.2.1 ret.toNat 0 ctx2 0

/-- The slot `s` of `bufcache_handles` holds a cached handle: it is one of the
`bufcache_num` slots from `bufcache_head` on, modulo `BUFCACHE_SIZE`. -/
def CachedSlot {W : Type} (cfg : Config) (ctx : dataplane_context W) (s : Nat) : Prop :=
  ∃ j, j < ctx.bufcache_num ∧ s = (ctx.bufcache_head + j) % cfg.BUFCACHE_SIZE

/-- The calls of `network_send` in a trace: count offered and returned value,
in call order. -/
def sendCalls (t : List Event) : List (Nat × Int) :=
  t.filterMap fun e =>
    match e with
    | Event.network_send n ret => some (n, ret)
    | _ => none

/-- The values returned by the fetch calls `poll_queues` makes on one context
while it scans it: `g.1` calls that return 0 (a descriptor is fetched), then
possibly one call that fails with the nonzero value `g.2` and ends the scan of
the context. -/
def fetchGroup (g : Nat × Option Int) : List Int :=
  List.replicate g.1 0 ++ g.2.toList

/-- The sizes used in the examples: those of the upstream headers, with four
application contexts. -/
def exampleCfg : Config :=
  { BATCH_SIZE := 16, TXBUF_SIZE := 32, BUFCACHE_SIZE := 128, FLEXNIC_PL_APPCTX_NUM := 4 }

/-- Collaborators with nothing to do, over an external state that is one
counter: the NIC delivers, sends and allocates nothing, no flow state is found,
every queue is empty. -/
def quietEnv : Env Nat :=
  { network_poll := fun w _ => (0, fun _ => 0, w)
    network_send := fun w _ _ => (0, w)
    network_buf_alloc := fun w _ => ([], w)
    network_buf_reset := fun w _ => w
    network_free := fun w _ => w
    fast_flows_packet_fss := fun s _ _ => (fun _ => none, s)
    fast_flows_packet_parse := fun s _ fss _ => (fss, fun _ => 0, s)
    fast_flows_packet := fun s _ _ _ _ => (0, s)
    fast_kernel_packet := fun s _ => s
    fast_actx_rxq_alloc := fun w _ => (0, 0, w)
    arx_store := fun w _ _ => w
    actx_kick := fun w _ _ => w
    fast_appctx_poll_pf := fun s _ => s
    fast_appctx_poll_fetch := fun s _ => (-1, 0, s)
    fast_appctx_poll_bump := fun s _ _ _ => (0, s)
    fast_actx_rxq_probe := fun s _ => s
    fast_kernel_poll := fun s _ _ => (-1, s)
    qman_poll := fun w _ => (0, fun _ => 0, fun _ => 0, w)
    fast_flows_qman_pf := fun s _ _ => s
    fast_flows_qman_pfbufs := fun s _ _ => s
    fast_flows_qman := fun s _ _ _ => (0, s)
    rte_ring_dequeue_burst := fun w _ => (0, fun _ => 0, w)
    fast_flows_qman_fwd := fun s _ => s }

/-- A context with nothing staged and `num` handles cached from `head` on;
slot `j` of the cache holds the handle `100 + j`; the external state is
`pool`. -/
def exampleCtx (head num pool : Nat) : dataplane_context Nat :=
  { id := 0
    poll_next_ctx := 0
    bufcache_handles := fun j => 100 + j
    bufcache_num := num
    bufcache_head := head
    sh := { tx_handles := fun _ => 0, tx_num := 0, arx_cache := fun _ => 0,
            arx_ctx := fun _ => 0, arx_num := 0, world := pool }
    trace := [] }

/-- A NIC allocator over a pool of `w` free buffers: a request for `n` handles
is answered with `min n w` handles, numbered from 500 on. -/
def poolEnv : Env Nat :=
  { quietEnv with
    network_buf_alloc := fun w n => ((List.range (min n w)).map (fun i => 500 + i), w - min n w) }

/-- A NIC that accepts 16 frames of every send. -/
def halfSendEnv : Env Nat :=
  { quietEnv with network_send := fun w _ _ => (16, w) }

/-- A context with 32 frames staged for TX, frame `j` in slot `j`. -/
def stagedCtx : dataplane_context Nat :=
  { exampleCtx 0 0 0 with
    sh := { tx_handles := fun j => j, tx_num := 32, arx_cache := fun _ => 0,
            arx_ctx := fun _ => 0, arx_num := 0, world := 0 } }

/-- A NIC that delivers the three frames 1, 2, 3 once; frame `i` has the flow
state `10 + i`, and the fast path returns 1 for frame 1, 0 for frame 2 and -1
for frame 3. -/
def triageEnv : Env Nat :=
  { quietEnv with
    network_poll := fun w _ => if w = 0 then (3, fun i => i + 1, 1) else (0, fun _ => 0, w)
    fast_flows_packet_fss := fun s bhs _ => (fun i => some (10 + bhs i), s)
    fast_flows_packet := fun s bh _ _ _ => (2 - (bh : Int), s) }

/-- Application queues whose external state is the set of contexts with one
pending TX descriptor, as a bit mask: a fetch on context `a` succeeds when bit
`a` is set and clears it. -/
def rrEnv : Env Nat :=
  { quietEnv with
    fast_appctx_poll_fetch := fun s a =>
      if s.world / 2 ^ a % 2 = 1 then (0, 700 + a, { s with world := s.world - 2 ^ a })
      else (-1, 0, s) }

/-- Four contexts with one pending descriptor each, the cursor at context 2,
32 cached handles and `tx_num` frames staged. -/
def rrCtx (tx_num : Nat) : dataplane_context Nat :=
  { exampleCtx 0 32 15 with
    poll_next_ctx := 2
    sh := { tx_handles := fun _ => 0, tx_num := tx_num, arx_cache := fun _ => 0,
            arx_ctx := fun _ => 0, arx_num := 0, world := 15 } }

/-- A slow path whose external state is the number of queued messages, none
of which needs a buffer: `fast_kernel_poll` returns 1 for each of them and -1
once the queue is empty. -/
def skipEnv : Env Nat :=
  { quietEnv with
    fast_kernel_poll := fun s _ _ =>
      if s.world > 0 then (1, { s with world := s.world - 1 }) else (-1, s) }

/-- A slow path whose external state is the number of queued messages, each
of which is sent in the buffer offered (`fast_kernel_poll` stages the handle
and returns 0; -1 once the queue is empty), with a NIC that allocates every
buffer asked for and sends every staged frame. -/
def msgEnv : Env Nat :=
  { quietEnv with
    network_buf_alloc := fun w n => (List.replicate n 900, w)
    network_send := fun w n _ => (n, w)
    fast_kernel_poll := fun s h _ =>
      if s.world > 0 then
        (0, { s with
          world := s.world - 1
          tx_handles := Function.update s.tx_handles s.tx_num h
          tx_num := s.tx_num + 1 })
      else (-1, s) }

/-- A queue manager that returns up to three flows, 40, 41 and 42; the
callback of flow 41 sends nothing and leaves its handle unused. -/
def qmanEnv : Env Nat :=
  { quietEnv with
    qman_poll := fun w max => ((min 3 max : Nat), fun i => 40 + i, fun _ => 0, w)
    fast_flows_qman := fun s q _ _ => (if q = 41 then 1 else 0, s) }

/-- Collaborators with nothing to do whose external state is the content of
the forwarding ring: `rte_ring_dequeue_burst` takes up to `n` references from
the front of the ring. -/
def ringEnv : Env (List FlowState) :=
  { network_poll := fun w _ => (0, fun _ => 0, w)
    network_send := fun w _ _ => (0, w)
    network_buf_alloc := fun w _ => ([], w)
    network_buf_reset := fun w _ => w
    network_free := fun w _ => w
    fast_flows_packet_fss := fun s _ _ => (fun _ => none, s)
    fast_flows_packet_parse := fun s _ fss _ => (fss, fun _ => 0, s)
    fast_flows_packet := fun s _ _ _ _ => (0, s)
    fast_kernel_packet := fun s _ => s
    fast_actx_rxq_alloc := fun w _ => (0, 0, w)
    arx_store := fun w _ _ => w
    actx_kick := fun w _ _ => w
    fast_appctx_poll_pf := fun s _ => s
    fast_appctx_poll_fetch := fun s _ => (-1, 0, s)
    fast_appctx_poll_bump := fun s _ _ _ => (0, s)
    fast_actx_rxq_probe := fun s _ => s
    fast_kernel_poll := fun s _ _ => (-1, s)
    qman_poll := fun w _ => (0, fun _ => 0, fun _ => 0, w)
    fast_flows_qman_pf := fun s _ _ => s
    fast_flows_qman_pfbufs := fun s _ _ => s
    fast_flows_qman := fun s _ _ _ => (0, s)
    rte_ring_dequeue_burst := fun w n => ((min w.length n : Nat), fun i => w.getD i 0, w.drop n)
    fast_flows_qman_fwd := fun s _ => s }

/-- A context with `tx_num` frames staged, an empty buffer cache and the
forwarding ring `ring`. -/
def ringCtx (ring : List FlowState) (tx_num : Nat) : dataplane_context (List FlowState) :=
  { id := 0
    poll_next_ctx := 0
    bufcache_handles := fun j => 100 + j
    bufcache_num := 0
    bufcache_head := 0
    sh := { tx_handles := fun _ => 0, tx_num := tx_num, arx_cache := fun _ => 0,
            arx_ctx := fun _ => 0, arx_num := 0, world := ring }
    trace := [] }

/-- A context whose ARX cache holds the records 50 and 51, addressed to the
application contexts 1 and 2. -/
def arxCtx : dataplane_context Nat :=
  { exampleCtx 0 0 0 with
    sh := { tx_handles := fun _ => 0, tx_num := 0, arx_cache := fun i => 50 + i,
            arx_ctx := fun i => 1 + i, arx_num := 2, world := 0 } }

/-- A worker with interrupts enabled and `POLL_CYCLE = 100`: the NIC accepts
every interrupt request, the queue manager has a deadline in 5000 us, the wait
ends with one event on descriptor 7 and the read returns 8 bytes. -/
def waitEnv : LoopEnv Nat :=
  { fp_interrupts := 1
    POLL_CYCLE := 100
    network_rx_interrupt_ctl := fun w _ => (0, w)
    qman_next_ts := fun w _ => (5000, w)
    rte_epoll_wait := fun w _ => (1, fun _ => 7, w + 1)
    read := fun w _ => (8, w) }

/-- The same worker with a NIC that refuses the interrupt request. -/
def refuseEnv : LoopEnv Nat :=
  { waitEnv with network_rx_interrupt_ctl := fun w _ => (-1, w) }

/-- Constants that `dataplane_init` accepts with four cores. -/
def exampleInit : InitConfig :=
  { FLEXNIC_INTERNAL_MEM_SIZE := 1024
    sizeof_flextcp_pl_mem := 512
    fp_cores_max := 4
    FLEXNIC_PL_APPST_CTX_MCS := 4
    FLEXNIC_PL_FLOWST_NUM := 8
    FLEXNIC_NUM_QMQUEUES := 8 }

/-- Initialisation collaborators that all succeed; the event descriptor is 7. -/
def okInitEnv : InitEnv Nat :=
  { rte_ring_create := fun w _ => (true, w)
    qman_thread_init := fun s => (0, s)
    network_thread_init := fun s => (0, s)
    eventfd := fun w => (7, w)
    rte_epoll_ctl := fun w _ => (0, w)
    kctx_evfd := fun w _ _ => w }

/-- The NIC delivers frames 1, 2, 3; frame 2 has no flow state. -/
def mixedEnv : Env Nat :=
  { triageEnv with
    fast_flows_packet_fss := fun s bhs _ =>
      (fun i => if bhs i = 2 then none else some (10 + bhs i), s) }

/-! ## Properties -/

/-! ### Arithmetic and loop lemmas -/

theorem u8_of_lt (x : Nat) (h : x < 256) : u8 (x : Int) = x := by
  unfold u8; omega

theorem u16_of_lt (x : Nat) (h : x < 65536) : u16 (x : Int) = x := by
  unfold u16; omega

theorem u32_of_lt (x : Nat) (h : x < 4294967296) : u32 (x : Int) = x := by
  unfold u32; omega

theorem u16_nat (x : Nat) : u16 (x : Int) = x % 65536 := by
  unfold u16; omega

theorem u32_nat (x : Nat) : u32 (x : Int) = x % 4294967296 := by
  unfold u32; omega

theorem land_mask (x B e : Nat) (h : B = 2 ^ e) : x &&& (B - 1) = x % B := by
  subst h; exact Nat.and_pow_two_sub_one_eq_mod x e

theorem land_mask_lt (x B : Nat) (h : 0 < B) : x &&& (B - 1) < B := by
  have := @Nat.and_le_right x (B - 1)
  omega

theorem bufcache_retag_eq (B head : Nat) (k i : Nat) (a : Nat → Handle) :
    bufcache_retag B head k i a = a := by
  induction k generalizing i a with
  | zero => rfl
  | succ k ih => simp [bufcache_retag, ih]

theorem tx_shift_spec (ret : Nat) (c i : Nat) (a : Nat → Handle) (hi : ret ≤ i) (j : Nat) :
    tx_shift ret c i a j = if i - ret ≤ j ∧ j < i - ret + c then a (j + ret) else a j := by
  induction c generalizing i a with
  | zero => rw [tx_shift, if_neg (by omega)]
  | succ c ih =>
    rw [tx_shift, ih (i + 1) _ (by omega)]
    by_cases h1 : i + 1 - ret ≤ j ∧ j < i + 1 - ret + c
    · rw [if_pos h1, if_pos (by omega)]
      rcases Nat.eq_zero_or_pos ret with h0 | h0
      · subst h0
        simp only [Nat.sub_zero, Nat.add_zero]
        rw [Function.update_noteq (by omega)]
      · rw [Function.update_noteq (by omega)]
    · rw [if_neg h1]
      by_cases h2 : j = i - ret
      · subst h2
        rw [Function.update_same, if_pos (by omega)]
        congr 1; omega
      · rw [Function.update_noteq h2, if_neg (by omega)]

/-! ### TX staging flush -/

/-- C2: when the NIC accepts `k` of the `tx_num` staged handles
(`0 <= k <= tx_num`), `tx_flush` leaves `tx_num - k` handles staged, and they
are the old handles `k .. tx_num` in the same order; with `k = tx_num` nothing
stays staged, and with `k = 0` the count and the whole array are unchanged. -/
theorem tx_flush_keeps_unsent {W : Type} (env : Env W) (ctx : dataplane_context W) (k : Nat)
    (hk : (env.network_send ctx.sh.world ctx.sh.tx_num ctx.sh.tx_handles).1 = (k : Int))
    (hle : k ≤ ctx.sh.tx_num) :
    (tx_flush env ctx).sh.tx_num = ctx.sh.tx_num - k ∧
    (∀ j, j < ctx.sh.tx_num - k →
      (tx_flush env ctx).sh.tx_handles j = ctx.sh.tx_handles (j + k)) ∧
    (k = ctx.sh.tx_num → (tx_flush env ctx).sh.tx_num = 0) ∧
    (k = 0 → (tx_flush env ctx).sh.tx_num = ctx.sh.tx_num ∧
      (tx_flush env ctx).sh.tx_handles = ctx.sh.tx_handles) := by
  unfold tx_flush
  by_cases h0 : ctx.sh.tx_num = 0
  · have hk0 : k = 0 := by omega
    subst hk0
    simp [h0]
  · simp only [if_neg h0, hk]
    by_cases h1 : (k : Int) = (ctx.sh.tx_num : Int)
    · have h1n : k = ctx.sh.tx_num := by exact_mod_cast h1
      simp only [if_pos h1]
      refine ⟨by simp [h1n], ?_, by simp, ?_⟩
      · intro j hj; omega
      · intro hk0; omega
    · have h1n : k ≠ ctx.sh.tx_num := by
        intro h; exact h1 (by exact_mod_cast h)
      simp only [if_neg h1]
      by_cases h2 : (k : Int) > 0
      · simp only [if_pos h2, Int.toNat_ofNat]
        refine ⟨by omega, ?_, by omega, by omega⟩
        intro j hj
        rw [tx_shift_spec k _ k _ (Nat.le_refl k)]
        rw [if_pos (by omega)]
      · have hk0 : k = 0 := by omega
        subst hk0
        simp only [if_neg h2]
        refine ⟨by simp, fun j _ => by simp, fun h => (h1n h).elim, fun _ => by simp⟩

/-- Witness of C2: 32 frames are staged and the NIC accepts 16 of them. -/
theorem tx_flush_keeps_unsent_witness :
    (tx_flush halfSendEnv stagedCtx).sh.tx_num = stagedCtx.sh.tx_num - 16 ∧
    (∀ j, j < stagedCtx.sh.tx_num - 16 →
      (tx_flush halfSendEnv stagedCtx).sh.tx_handles j = stagedCtx.sh.tx_handles (j + 16)) ∧
    (16 = stagedCtx.sh.tx_num → (tx_flush halfSendEnv stagedCtx).sh.tx_num = 0) ∧
    (16 = 0 → (tx_flush halfSendEnv stagedCtx).sh.tx_num = stagedCtx.sh.tx_num ∧
      (tx_flush halfSendEnv stagedCtx).sh.tx_handles = stagedCtx.sh.tx_handles) :=
  tx_flush_keeps_unsent halfSendEnv stagedCtx 16 rfl (by decide)

/-! ### Buffer cache -/

theorem bufcache_fill_head {W : Type} (env : Env W) (ctx : dataplane_context W) (n off : Nat) :
    (bufcache_fill env ctx n off).2.bufcache_head = ctx.bufcache_head := rfl

theorem bufcache_fill_num {W : Type} (env : Env W) (ctx : dataplane_context W) (n off : Nat) :
    (bufcache_fill env ctx n off).2.bufcache_num = ctx.bufcache_num := rfl

theorem bufcache_refill_head {W : Type} (env : Env W) (cfg : Config) (ctx : dataplane_context W) :
    (bufcache_refill env cfg ctx).bufcache_head = ctx.bufcache_head := by
  unfold bufcache_refill
  dsimp only
  split
  · rfl
  · split <;> rfl

theorem bufcache_prealloc_head {W : Type} (env : Env W) (cfg : Config)
    (ctx : dataplane_context W) (n : Nat) :
    (bufcache_prealloc env cfg ctx n).2.2.bufcache_head = ctx.bufcache_head := by
  unfold bufcache_prealloc
  dsimp only
  split
  · exact bufcache_refill_head env cfg ctx
  · rfl

/-- C3: in a cache that satisfies the invariant, `bufcache_prealloc(n)`
returns `min(n, bufcache_num, BUFCACHE_SIZE - bufcache_head)` with the
`bufcache_num` reached after the optional refill, whatever the allocator
hands out, and the slice starts at `bufcache_head`.  The count is returned as
a `uint8_t`, which holds it when the request or `BUFCACHE_SIZE` is below 256. -/
theorem bufcache_prealloc_count {W : Type} (env : Env W) (cfg : Config)
    (ctx : dataplane_context W) (n : Nat)
    (hfit : min n cfg.BUFCACHE_SIZE < 256) (hinv : CacheInv cfg ctx) :
    (bufcache_prealloc env cfg ctx n).1 =
      min n (min (bufcache_prealloc env cfg ctx n).2.2.bufcache_num
        (cfg.BUFCACHE_SIZE - (bufcache_prealloc env cfg ctx n).2.2.bufcache_head)) ∧
    (bufcache_prealloc env cfg ctx n).2.1 = (bufcache_prealloc env cfg ctx n).2.2.bufcache_head ∧
    (bufcache_prealloc env cfg ctx n).2.1 = ctx.bufcache_head := by
  have hh := bufcache_prealloc_head env cfg ctx n
  obtain ⟨_, hhead⟩ := hinv
  refine ⟨?_, ?_, ?_⟩
  · rw [hh]
    unfold bufcache_prealloc at hh ⊢
    dsimp only at hh ⊢
    generalize (if ctx.bufcache_num < n then bufcache_refill env cfg ctx else ctx) = c at hh ⊢
    rw [hh]
    unfold u8 u16
    split <;> split <;> omega
  · rw [hh]; unfold bufcache_prealloc; dsimp only
    split
    · exact bufcache_refill_head env cfg ctx
    · rfl
  · unfold bufcache_prealloc; dsimp only
    split
    · exact bufcache_refill_head env cfg ctx
    · rfl

/-- Witness of C3: three handles cached at slots 120..122, a pool of five
buffers and a request for 16: the refill wraps and is partial. -/
theorem bufcache_prealloc_count_witness :
    (bufcache_prealloc poolEnv exampleCfg (exampleCtx 120 3 5) 16).1 =
      min 16 (min (bufcache_prealloc poolEnv exampleCfg (exampleCtx 120 3 5) 16).2.2.bufcache_num
        (exampleCfg.BUFCACHE_SIZE -
          (bufcache_prealloc poolEnv exampleCfg (exampleCtx 120 3 5) 16).2.2.bufcache_head)) ∧
    (bufcache_prealloc poolEnv exampleCfg (exampleCtx 120 3 5) 16).2.1 =
      (bufcache_prealloc poolEnv exampleCfg (exampleCtx 120 3 5) 16).2.2.bufcache_head ∧
    (bufcache_prealloc poolEnv exampleCfg (exampleCtx 120 3 5) 16).2.1 =
      (exampleCtx 120 3 5).bufcache_head :=
  bufcache_prealloc_count poolEnv exampleCfg (exampleCtx 120 3 5) 16 (by decide)
    ⟨by decide, by decide⟩

theorem bufcache_fill_le {W : Type} (env : Env W) (ctx : dataplane_context W) (n off : Nat)
    (halloc : ∀ w m, (env.network_buf_alloc w m).1.length ≤ m) :
    (bufcache_fill env ctx n off).1 ≤ n := by
  have := halloc ctx.sh.world n
  simp only [bufcache_fill]
  unfold u16
  omega

theorem bufcache_refill_num_le {W : Type} (env : Env W) (cfg : Config)
    (ctx : dataplane_context W) (hfit : cfg.BUFCACHE_SIZE < 65536)
    (halloc : ∀ w m, (env.network_buf_alloc w m).1.length ≤ m) (hinv : CacheInv cfg ctx) :
    (bufcache_refill env cfg ctx).bufcache_num ≤ cfg.BUFCACHE_SIZE := by
  obtain ⟨hnum, hhead⟩ := hinv
  have hm := land_mask_lt (ctx.bufcache_head + ctx.bufcache_num) cfg.BUFCACHE_SIZE (by omega)
  unfold bufcache_refill
  dsimp only
  generalize hH : u16 ((ctx.bufcache_head + ctx.bufcache_num &&& cfg.BUFCACHE_SIZE - 1 : Nat) : Int)
    = head
  generalize hG : u16 ((cfg.BUFCACHE_SIZE : Int) - ctx.bufcache_num) = grow
  generalize hg : u16 ((cfg.BUFCACHE_SIZE : Int) - head) = g
  have hH2 : head < cfg.BUFCACHE_SIZE := by rw [← hH, u16_of_lt _ (by omega)]; exact hm
  have hG2 : grow = cfg.BUFCACHE_SIZE - ctx.bufcache_num := by rw [← hG]; unfold u16; omega
  have hg2 : g = cfg.BUFCACHE_SIZE - head := by rw [← hg]; unfold u16; omega
  split
  · have h1 := bufcache_fill_le env ctx grow head halloc
    rw [bufcache_fill_num]
    omega
  · have h1 := bufcache_fill_le env ctx g head halloc
    split
    · have h2 := bufcache_fill_le env (bufcache_fill env ctx g head).2
        (u32 ((grow : Int) - g)) 0 halloc
      have h3 : u32 ((grow : Int) - g) = grow - g := by unfold u32; omega
      dsimp only
      rw [bufcache_fill_num, bufcache_fill_num, u16_nat]
      omega
    · rw [bufcache_fill_num]
      omega

/-- C4: `bufcache_num <= BUFCACHE_SIZE` together with
`bufcache_head < BUFCACHE_SIZE` is preserved by `bufcache_prealloc(n)` for
every `n` when the allocator hands out at most what it is asked for, by
`bufcache_alloc(n)` for every `n <= bufcache_num` (whose assertion then holds),
and by `bufcache_free`. -/
theorem bufcache_invariant_preserved {W : Type} (env : Env W) (cfg : Config)
    (ctx : dataplane_context W) (n m : Nat) (h : Handle)
    (hfit : cfg.BUFCACHE_SIZE < 65536)
    (halloc : ∀ w r, (env.network_buf_alloc w r).1.length ≤ r)
    (hinv : CacheInv cfg ctx) :
    CacheInv cfg (bufcache_prealloc env cfg ctx n).2.2 ∧
    (m ≤ ctx.bufcache_num →
      ∃ c, bufcache_alloc cfg ctx m = Except.ok c ∧ CacheInv cfg c) ∧
    CacheInv cfg (bufcache_free env cfg ctx h) := by
  refine ⟨?_, ?_, ?_⟩
  · refine ⟨?_, ?_⟩
    · unfold bufcache_prealloc
      dsimp only
      split
      · exact bufcache_refill_num_le env cfg ctx hfit halloc hinv
      · exact hinv.1
    · rw [bufcache_prealloc_head]; exact hinv.2
  · intro hn
    refine ⟨_, if_pos hn, ?_, ?_⟩
    · have := hinv.1
      show ctx.bufcache_num - m ≤ cfg.BUFCACHE_SIZE
      omega
    · exact land_mask_lt _ _ (by have := hinv.2; omega)
  · obtain ⟨hnum, hhead⟩ := hinv
    unfold bufcache_free
    dsimp only
    split
    · refine ⟨?_, hhead⟩
      show u32 (ctx.bufcache_num : Int) + 1 ≤ cfg.BUFCACHE_SIZE
      omega
    · exact ⟨hnum, hhead⟩

/-- Witness of C4: the pool allocator never hands out more than it is asked
for; three handles cached at slots 120..122. -/
theorem bufcache_invariant_preserved_witness :
    (∀ w m, (poolEnv.network_buf_alloc w m).1.length ≤ m) ∧
    CacheInv exampleCfg (exampleCtx 120 3 5) ∧
    (CacheInv exampleCfg (bufcache_prealloc poolEnv exampleCfg (exampleCtx 120 3 5) 16).2.2 ∧
    (2 ≤ (exampleCtx 120 3 5).bufcache_num →
      ∃ c, bufcache_alloc exampleCfg (exampleCtx 120 3 5) 2 = Except.ok c ∧
        CacheInv exampleCfg c) ∧
    CacheInv exampleCfg (bufcache_free poolEnv exampleCfg (exampleCtx 120 3 5) 7)) :=
  ⟨fun w m => by simp [poolEnv], ⟨by decide, by decide⟩,
   bufcache_invariant_preserved poolEnv exampleCfg (exampleCtx 120 3 5) 16 2 7 (by decide)
     (fun w m => by simp [poolEnv]) ⟨by decide, by decide⟩⟩

theorem free_index (x B e : Nat) (hpow : B = 2 ^ e) (he : e < 32) :
    u32 ((u32 (x : Int) &&& (B - 1) : Nat) : Int) = x % B := by
  have hB : B < 4294967296 := by
    rw [hpow]
    calc 2 ^ e < 2 ^ 32 := Nat.pow_lt_pow_right (by decide) he
      _ = 4294967296 := by norm_num
  have hpos : 0 < B := by rw [hpow]; exact Nat.two_pow_pos e
  have hdvd : B ∣ 4294967296 := by
    rw [hpow, show (4294967296 : Nat) = 2 ^ 32 by norm_num]
    exact pow_dvd_pow 2 (Nat.le_of_lt he)
  rw [land_mask _ B e hpow, u32_nat, u32_nat, Nat.mod_mod_of_dvd _ hdvd]
  have := Nat.mod_lt x hpos
  exact Nat.mod_eq_of_lt (by omega)

theorem bufcache_free_of_lt {W : Type} (env : Env W) (cfg : Config)
    (ctx : dataplane_context W) (h : Handle) (e : Nat)
    (hpow : cfg.BUFCACHE_SIZE = 2 ^ e) (he : e < 32)
    (hlt : ctx.bufcache_num < cfg.BUFCACHE_SIZE) :
    bufcache_free env cfg ctx h =
      { ctx with
        bufcache_handles := Function.update ctx.bufcache_handles
          ((ctx.bufcache_head + ctx.bufcache_num) % cfg.BUFCACHE_SIZE) h
        bufcache_num := ctx.bufcache_num + 1
        sh := { ctx.sh with world := env.network_buf_reset ctx.sh.world h }
        trace := ctx.trace ++ [Event.network_buf_reset h] } := by
  have hB : cfg.BUFCACHE_SIZE < 4294967296 := by
    rw [hpow]
    calc 2 ^ e < 2 ^ 32 := Nat.pow_lt_pow_right (by decide) he
      _ = 4294967296 := by norm_num
  have hn : u32 (ctx.bufcache_num : Int) = ctx.bufcache_num := u32_of_lt _ (by omega)
  have hidx := free_index (ctx.bufcache_head + ctx.bufcache_num) cfg.BUFCACHE_SIZE e hpow he
  unfold bufcache_free
  dsimp only
  rw [hn, if_pos hlt, hidx]

theorem bufcache_alloc_of_le {W : Type} (cfg : Config) (ctx : dataplane_context W)
    (n e : Nat) (hpow : cfg.BUFCACHE_SIZE = 2 ^ e) (hn : n ≤ ctx.bufcache_num) :
    bufcache_alloc cfg ctx n =
      Except.ok { ctx with
        bufcache_head := (ctx.bufcache_head + n) % cfg.BUFCACHE_SIZE
        bufcache_num := ctx.bufcache_num - n } := by
  unfold bufcache_alloc
  rw [if_pos hn, land_mask _ _ e hpow]

/-- C5: with `bufcache_num < BUFCACHE_SIZE`, `bufcache_free(h)` stores `h` at
index `(bufcache_head + bufcache_num) mod BUFCACHE_SIZE`, adds one to
`bufcache_num`, resets the handle, and leaves `bufcache_head`, every other slot
and the staging fields unchanged; with `bufcache_num == BUFCACHE_SIZE` it hands
`h` back to the NIC allocator and leaves the cache unchanged. -/
theorem bufcache_free_effect {W : Type} (env : Env W) (cfg : Config)
    (ctx : dataplane_context W) (h : Handle) (e : Nat)
    (hpow : cfg.BUFCACHE_SIZE = 2 ^ e) (he : e < 32) :
    (ctx.bufcache_num < cfg.BUFCACHE_SIZE →
      (bufcache_free env cfg ctx h).bufcache_handles
          ((ctx.bufcache_head + ctx.bufcache_num) % cfg.BUFCACHE_SIZE) = h ∧
      (∀ j, j ≠ (ctx.bufcache_head + ctx.bufcache_num) % cfg.BUFCACHE_SIZE →
        (bufcache_free env cfg ctx h).bufcache_handles j = ctx.bufcache_handles j) ∧
      (bufcache_free env cfg ctx h).bufcache_num = ctx.bufcache_num + 1 ∧
      (bufcache_free env cfg ctx h).bufcache_head = ctx.bufcache_head ∧
      (bufcache_free env cfg ctx h).trace = ctx.trace ++ [Event.network_buf_reset h] ∧
      (bufcache_free env cfg ctx h).sh =
        { ctx.sh with world := env.network_buf_reset ctx.sh.world h }) ∧
    (ctx.bufcache_num = cfg.BUFCACHE_SIZE →
      (bufcache_free env cfg ctx h).bufcache_handles = ctx.bufcache_handles ∧
      (bufcache_free env cfg ctx h).bufcache_num = ctx.bufcache_num ∧
      (bufcache_free env cfg ctx h).bufcache_head = ctx.bufcache_head ∧
      (bufcache_free env cfg ctx h).trace = ctx.trace ++ [Event.network_free h] ∧
      (bufcache_free env cfg ctx h).sh =
        { ctx.sh with world := env.network_free ctx.sh.world h }) := by
  have hB : cfg.BUFCACHE_SIZE < 4294967296 := by
    rw [hpow]
    calc 2 ^ e < 2 ^ 32 := Nat.pow_lt_pow_right (by decide) he
      _ = 4294967296 := by norm_num
  constructor
  · intro hlt
    rw [bufcache_free_of_lt env cfg ctx h e hpow he hlt]
    refine ⟨by simp, ?_, rfl, rfl, rfl, rfl⟩
    intro j hj
    exact Function.update_noteq hj _ _
  · intro heq
    have hn : u32 (ctx.bufcache_num : Int) = ctx.bufcache_num := u32_of_lt _ (by omega)
    unfold bufcache_free
    dsimp only
    rw [hn, if_neg (by omega)]
    exact ⟨rfl, rfl, rfl, rfl, rfl⟩

/-- Witness of C5: `BUFCACHE_SIZE = 128 = 2 ^ 7`. -/
theorem bufcache_free_effect_witness :
    exampleCfg.BUFCACHE_SIZE = 2 ^ 7 ∧ 7 < 32 ∧
    (bufcache_free quietEnv exampleCfg (exampleCtx 120 9 0) 7).bufcache_handles
      (((exampleCtx 120 9 0).bufcache_head + (exampleCtx 120 9 0).bufcache_num) %
        exampleCfg.BUFCACHE_SIZE) = 7 :=
  ⟨by decide, by decide,
   ((bufcache_free_effect quietEnv exampleCfg (exampleCtx 120 9 0) 7 7 (by decide)
     (by decide)).1 (by decide)).1⟩

/-- C6: for `n <= bufcache_num`, `bufcache_alloc(n)` passes its assertion,
sets `bufcache_head` to `(bufcache_head + n) mod BUFCACHE_SIZE` (the mask of
the code is the modulo, `BUFCACHE_SIZE` being a power of two), lowers
`bufcache_num` by `n` and changes nothing else, no stored handle in particular. -/
theorem bufcache_alloc_effect {W : Type} (cfg : Config) (ctx : dataplane_context W)
    (n e : Nat) (hpow : cfg.BUFCACHE_SIZE = 2 ^ e) (hn : n ≤ ctx.bufcache_num) :
    ∃ c, bufcache_alloc cfg ctx n = Except.ok c ∧
      c.bufcache_head = (ctx.bufcache_head + n) % cfg.BUFCACHE_SIZE ∧
      c.bufcache_num = ctx.bufcache_num - n ∧
      c.bufcache_handles = ctx.bufcache_handles ∧
      c.poll_next_ctx = ctx.poll_next_ctx ∧ c.sh = ctx.sh ∧ c.trace = ctx.trace :=
  ⟨_, bufcache_alloc_of_le cfg ctx n e hpow hn, rfl, rfl, rfl, rfl, rfl, rfl⟩

/-- Witness of C6: nine handles cached from slot 120 on, five are committed
and the head wraps to slot 125. -/
theorem bufcache_alloc_effect_witness :
    exampleCfg.BUFCACHE_SIZE = 2 ^ 7 ∧ 5 ≤ (exampleCtx 120 9 0).bufcache_num ∧
    ∃ c, bufcache_alloc exampleCfg (exampleCtx 120 9 0) 5 = Except.ok c ∧
      c.bufcache_head = ((exampleCtx 120 9 0).bufcache_head + 5) % exampleCfg.BUFCACHE_SIZE ∧
      c.bufcache_num = (exampleCtx 120 9 0).bufcache_num - 5 ∧
      c.bufcache_handles = (exampleCtx 120 9 0).bufcache_handles ∧
      c.poll_next_ctx = (exampleCtx 120 9 0).poll_next_ctx ∧
      c.sh = (exampleCtx 120 9 0).sh ∧ c.trace = (exampleCtx 120 9 0).trace :=
  ⟨by decide, by decide,
   bufcache_alloc_effect exampleCfg (exampleCtx 120 9 0) 5 7 (by decide) (by decide)⟩

/-- C7, refuted as stated: ten handles are cached from slot 0 on;
`bufcache_prealloc(2)` followed by `bufcache_alloc(1)` leaves head 1 and nine
handles, `bufcache_prealloc(1)` alone leaves head 0 and ten handles. -/
theorem prealloc_alloc_differs_from_prealloc :
    (∃ c, bufcache_alloc exampleCfg
        (bufcache_prealloc quietEnv exampleCfg (exampleCtx 0 10 0) 2).2.2 1 = Except.ok c ∧
      c.bufcache_head = 1 ∧ c.bufcache_num = 9) ∧
    (bufcache_prealloc quietEnv exampleCfg (exampleCtx 0 10 0) 1).2.2.bufcache_head = 0 ∧
    (bufcache_prealloc quietEnv exampleCfg (exampleCtx 0 10 0) 1).2.2.bufcache_num = 10 :=
  ⟨⟨_, rfl, by decide, by decide⟩, by decide, by decide⟩

theorem bufcache_prealloc_ctx_eq {W : Type} (env : Env W) (cfg : Config)
    (ctx : dataplane_context W) (k k' : Nat) (hk : k' ≤ k)
    (h : k ≤ ctx.bufcache_num ∨ ctx.bufcache_num < k') :
    (bufcache_prealloc env cfg ctx k).2.2 = (bufcache_prealloc env cfg ctx k').2.2 := by
  unfold bufcache_prealloc
  dsimp only
  rcases h with h | h
  · rw [if_neg (by omega), if_neg (by omega)]
  · rw [if_pos (by omega), if_pos h]

theorem bufcache_prealloc_no_refill {W : Type} (env : Env W) (cfg : Config)
    (ctx : dataplane_context W) (k : Nat) (h : k ≤ ctx.bufcache_num) :
    (bufcache_prealloc env cfg ctx k).2.2 = ctx := by
  unfold bufcache_prealloc
  dsimp only
  rw [if_neg (by omega)]

/-- C7, amended: for `k' <= k`, when `bufcache_prealloc(k)` and
`bufcache_prealloc(k')` both refill or both do not (`bufcache_num >= k` or
`bufcache_num < k'`), `bufcache_prealloc(k)` followed by `bufcache_alloc(k')`
gives the outcome of `bufcache_prealloc(k')` followed by `bufcache_alloc(k')`;
when the cache already holds `k` handles this is the entry state with the head
advanced by `k'` modulo `BUFCACHE_SIZE` and `bufcache_num` lowered by `k'`,
while `bufcache_prealloc(k')` alone leaves the entry state as it is. -/
theorem prealloc_alloc_commit {W : Type} (env : Env W) (cfg : Config)
    (ctx : dataplane_context W) (k k' e : Nat) (hpow : cfg.BUFCACHE_SIZE = 2 ^ e)
    (hk : k' ≤ k) (h : k ≤ ctx.bufcache_num ∨ ctx.bufcache_num < k') :
    bufcache_alloc cfg (bufcache_prealloc env cfg ctx k).2.2 k' =
      bufcache_alloc cfg (bufcache_prealloc env cfg ctx k').2.2 k' ∧
    (k ≤ ctx.bufcache_num →
      bufcache_alloc cfg (bufcache_prealloc env cfg ctx k).2.2 k' =
        Except.ok { ctx with
          bufcache_head := (ctx.bufcache_head + k') % cfg.BUFCACHE_SIZE
          bufcache_num := ctx.bufcache_num - k' } ∧
      (bufcache_prealloc env cfg ctx k').2.2 = ctx) := by
  refine ⟨by rw [bufcache_prealloc_ctx_eq env cfg ctx k k' hk h], ?_⟩
  intro hnum
  rw [bufcache_prealloc_no_refill env cfg ctx k hnum,
    bufcache_prealloc_no_refill env cfg ctx k' (by omega)]
  exact ⟨bufcache_alloc_of_le cfg ctx k' e hpow (by omega), rfl⟩

/-- Witness of C7 as amended: ten handles cached, `k = 2`, `k' = 1`. -/
theorem prealloc_alloc_commit_witness :
    exampleCfg.BUFCACHE_SIZE = 2 ^ 7 ∧ 1 ≤ 2 ∧
    (2 ≤ (exampleCtx 0 10 0).bufcache_num ∨ (exampleCtx 0 10 0).bufcache_num < 1) ∧
    bufcache_alloc exampleCfg (bufcache_prealloc quietEnv exampleCfg (exampleCtx 0 10 0) 2).2.2 1 =
      bufcache_alloc exampleCfg (bufcache_prealloc quietEnv exampleCfg (exampleCtx 0 10 0) 1).2.2 1 :=
  ⟨by decide, by decide, Or.inl (by decide),
   (prealloc_alloc_commit quietEnv exampleCfg (exampleCtx 0 10 0) 2 1 7 (by decide) (by decide)
     (Or.inl (by decide))).1⟩

/-- C8, refuted as stated: slot 0 holds the one cached handle 100; after
`bufcache_free(9)` the call `bufcache_prealloc(1)` returns one handle, the
slice starts at slot 0 and its first handle is 100, not 9, which sits in
slot 1. -/
theorem free_prealloc_returns_oldest :
    (bufcache_prealloc quietEnv exampleCfg
      (bufcache_free quietEnv exampleCfg (exampleCtx 0 1 0) 9) 1).1 = 1 ∧
    (bufcache_prealloc quietEnv exampleCfg
      (bufcache_free quietEnv exampleCfg (exampleCtx 0 1 0) 9) 1).2.2.bufcache_handles
      (bufcache_prealloc quietEnv exampleCfg
        (bufcache_free quietEnv exampleCfg (exampleCtx 0 1 0) 9) 1).2.1 = 100 ∧
    (bufcache_prealloc quietEnv exampleCfg
      (bufcache_free quietEnv exampleCfg (exampleCtx 0 1 0) 9) 1).2.2.bufcache_handles 1 = 9 := by
  decide

theorem bufcache_prealloc_fst {W : Type} (env : Env W) (cfg : Config)
    (ctx : dataplane_context W) (n : Nat) :
    (bufcache_prealloc env cfg ctx n).1 =
      u8 (u16 (if (n : Int) <
          (if (bufcache_prealloc env cfg ctx n).2.2.bufcache_head +
              (bufcache_prealloc env cfg ctx n).2.2.bufcache_num ≤ cfg.BUFCACHE_SIZE
            then ((bufcache_prealloc env cfg ctx n).2.2.bufcache_num : Int)
            else (cfg.BUFCACHE_SIZE : Int) - (bufcache_prealloc env cfg ctx n).2.2.bufcache_head)
        then (n : Int)
        else (if (bufcache_prealloc env cfg ctx n).2.2.bufcache_head +
              (bufcache_prealloc env cfg ctx n).2.2.bufcache_num ≤ cfg.BUFCACHE_SIZE
            then ((bufcache_prealloc env cfg ctx n).2.2.bufcache_num : Int)
            else (cfg.BUFCACHE_SIZE : Int) -
              (bufcache_prealloc env cfg ctx n).2.2.bufcache_head))) := rfl

theorem bufcache_prealloc_snd {W : Type} (env : Env W) (cfg : Config)
    (ctx : dataplane_context W) (n : Nat) :
    (bufcache_prealloc env cfg ctx n).2.1 =
      (bufcache_prealloc env cfg ctx n).2.2.bufcache_head := rfl

/-- C8, amended: in a cache with `bufcache_num < BUFCACHE_SIZE` and
`bufcache_head < BUFCACHE_SIZE`, `bufcache_free(h)` followed by
`bufcache_prealloc(1)` makes no allocation, returns one handle and a slice that
starts at `bufcache_head`; `h` is stored behind the handles cached before, at
index `(bufcache_head + bufcache_num) mod BUFCACHE_SIZE`, so the first handle
of the slice is `h` when the cache was empty before the free, and is the
handle that was first in the cache otherwise. -/
theorem free_prealloc_first {W : Type} (env : Env W) (cfg : Config)
    (ctx : dataplane_context W) (h : Handle) (e : Nat)
    (hpow : cfg.BUFCACHE_SIZE = 2 ^ e) (he : e < 32)
    (hnum : ctx.bufcache_num < cfg.BUFCACHE_SIZE)
    (hhead : ctx.bufcache_head < cfg.BUFCACHE_SIZE) :
    (bufcache_prealloc env cfg (bufcache_free env cfg ctx h) 1).1 = 1 ∧
    (bufcache_prealloc env cfg (bufcache_free env cfg ctx h) 1).2.1 = ctx.bufcache_head ∧
    (bufcache_prealloc env cfg (bufcache_free env cfg ctx h) 1).2.2 =
      bufcache_free env cfg ctx h ∧
    (bufcache_free env cfg ctx h).bufcache_handles
      ((ctx.bufcache_head + ctx.bufcache_num) % cfg.BUFCACHE_SIZE) = h ∧
    (ctx.bufcache_num = 0 →
      (bufcache_prealloc env cfg (bufcache_free env cfg ctx h) 1).2.2.bufcache_handles
        (bufcache_prealloc env cfg (bufcache_free env cfg ctx h) 1).2.1 = h) ∧
    (0 < ctx.bufcache_num →
      (bufcache_prealloc env cfg (bufcache_free env cfg ctx h) 1).2.2.bufcache_handles
        (bufcache_prealloc env cfg (bufcache_free env cfg ctx h) 1).2.1 =
          ctx.bufcache_handles ctx.bufcache_head) := by
  have hfree := bufcache_free_of_lt env cfg ctx h e hpow he hnum
  have hs : (bufcache_free env cfg ctx h).bufcache_handles
      ((ctx.bufcache_head + ctx.bufcache_num) % cfg.BUFCACHE_SIZE) = h := by
    rw [hfree]; simp
  have hoth : ∀ j, j ≠ (ctx.bufcache_head + ctx.bufcache_num) % cfg.BUFCACHE_SIZE →
      (bufcache_free env cfg ctx h).bufcache_handles j = ctx.bufcache_handles j := by
    intro j hj; rw [hfree]; exact Function.update_noteq hj _ _
  have hn : (bufcache_free env cfg ctx h).bufcache_num = ctx.bufcache_num + 1 := by
    rw [hfree]
  have hhd : (bufcache_free env cfg ctx h).bufcache_head = ctx.bufcache_head := by
    rw [hfree]
  have hctx := bufcache_prealloc_no_refill env cfg (bufcache_free env cfg ctx h) 1
    (by rw [hn]; omega)
  have hoff : (bufcache_prealloc env cfg (bufcache_free env cfg ctx h) 1).2.1 =
      ctx.bufcache_head := by
    rw [bufcache_prealloc_snd, hctx, hhd]
  have hpos : 0 < cfg.BUFCACHE_SIZE := by omega
  refine ⟨?_, hoff, hctx, hs, ?_, ?_⟩
  · rw [bufcache_prealloc_fst, hctx, hn, hhd]
    unfold u8 u16
    split <;> split <;> omega
  · intro h0
    rw [hctx, hoff]
    rw [h0, Nat.add_zero, Nat.mod_eq_of_lt hhead] at hs
    exact hs
  · intro h0
    rw [hctx, hoff]
    apply hoth
    intro hc
    by_cases hw : ctx.bufcache_head + ctx.bufcache_num < cfg.BUFCACHE_SIZE
    · rw [Nat.mod_eq_of_lt hw] at hc; omega
    · have h2 : ctx.bufcache_head + ctx.bufcache_num - cfg.BUFCACHE_SIZE < cfg.BUFCACHE_SIZE := by
        omega
      rw [Nat.mod_eq_sub_mod (by omega), Nat.mod_eq_of_lt h2] at hc
      omega

/-- Witness of C8 as amended: an empty cache with head 5. -/
theorem free_prealloc_first_witness :
    exampleCfg.BUFCACHE_SIZE = 2 ^ 7 ∧ 7 < 32 ∧
    (exampleCtx 5 0 0).bufcache_num < exampleCfg.BUFCACHE_SIZE ∧
    (exampleCtx 5 0 0).bufcache_head < exampleCfg.BUFCACHE_SIZE ∧
    (bufcache_prealloc quietEnv exampleCfg
      (bufcache_free quietEnv exampleCfg (exampleCtx 5 0 0) 9) 1).1 = 1 :=
  ⟨by decide, by decide, by decide, by decide,
   (free_prealloc_first quietEnv exampleCfg (exampleCtx 5 0 0) 9 7 (by decide) (by decide)
     (by decide) (by decide)).1⟩

/-! ### RX pipeline -/

theorem sameRx_refl (t : List Event) : SameRx t t := ⟨rfl, rfl, rfl⟩

theorem sameRx_trans {t u v : List Event} (h1 : SameRx t u) (h2 : SameRx u v) : SameRx t v :=
  ⟨h2.1.trans h1.1, h2.2.1.trans h1.2.1, h2.2.2.trans h1.2.2⟩

theorem flowCalls_append (t u : List Event) : flowCalls (t ++ u) = flowCalls t ++ flowCalls u := by
  simp [flowCalls, List.filterMap_append]

theorem kernelPackets_append (t u : List Event) :
    kernelPackets (t ++ u) = kernelPackets t ++ kernelPackets u := by
  simp [kernelPackets, List.filterMap_append]

theorem freedHandles_append (t u : List Event) :
    freedHandles (t ++ u) = freedHandles t ++ freedHandles u := by
  simp [freedHandles, List.filterMap_append]

theorem sameRx_snoc (t : List Event) (e : Event) (h1 : flowCalls [e] = [])
    (h2 : kernelPackets [e] = []) (h3 : freedHandles [e] = []) : SameRx t (t ++ [e]) := by
  refine ⟨?_, ?_, ?_⟩
  · rw [flowCalls_append, h1, List.append_nil]
  · rw [kernelPackets_append, h2, List.append_nil]
  · rw [freedHandles_append, h3, List.append_nil]

theorem arx_reserve_sameRx {W : Type} (env : Env W) (k i : Nat) (ctx : dataplane_context W)
    (parx : Nat → Slot) :
    SameRx ctx.trace (stopOr Prod.fst (arx_reserve env k i ctx parx)).trace := by
  induction k generalizing i ctx parx with
  | zero => exact sameRx_refl _
  | succ k ih =>
    unfold arx_reserve
    dsimp only
    have hstep : SameRx ctx.trace (ctx.trace ++
        [Event.fast_actx_rxq_alloc (ctx.sh.arx_ctx i)
          (env.fast_actx_rxq_alloc ctx.sh.world (ctx.sh.arx_ctx i)).1
          (env.fast_actx_rxq_alloc ctx.sh.world (ctx.sh.arx_ctx i)).2.1]) :=
      sameRx_snoc _ _ rfl rfl rfl
    split
    · exact hstep
    · exact sameRx_trans hstep (ih _ _ _)

theorem arx_copy_sameRx {W : Type} (env : Env W) (parx : Nat → Slot) (k i : Nat)
    (ctx : dataplane_context W) :
    SameRx ctx.trace (arx_copy env parx k i ctx).trace := by
  induction k generalizing i ctx with
  | zero => exact sameRx_refl _
  | succ k ih =>
    unfold arx_copy
    exact sameRx_trans (sameRx_snoc ctx.trace (Event.arx_store (parx i) (ctx.sh.arx_cache i))
      rfl rfl rfl) (ih _ _)

theorem arx_kick_sameRx {W : Type} (env : Env W) (ts : Nat) (k i : Nat)
    (ctx : dataplane_context W) :
    SameRx ctx.trace (arx_kick env ts k i ctx).trace := by
  induction k generalizing i ctx with
  | zero => exact sameRx_refl _
  | succ k ih =>
    unfold arx_kick
    exact sameRx_trans (sameRx_snoc ctx.trace (Event.actx_kick (ctx.sh.arx_ctx i)) rfl rfl rfl)
      (ih _ _)

theorem arx_cache_flush_sameRx {W : Type} (env : Env W) (ctx : dataplane_context W) (ts : Nat) :
    SameRx ctx.trace (stopOr id (arx_cache_flush env ctx ts)).trace := by
  have h1 := arx_reserve_sameRx env ctx.sh.arx_num 0 ctx (fun _ => 0)
  unfold arx_cache_flush
  cases hr : arx_reserve env ctx.sh.arx_num 0 ctx (fun _ => 0) with
  | error c =>
    rw [hr] at h1
    exact h1
  | ok r =>
    rw [hr] at h1
    exact sameRx_trans h1
      (sameRx_trans (arx_copy_sameRx env r.2 _ 0 r.1) (arx_kick_sameRx env ts _ 0 _))

theorem poll_rx_fastpath_trace {W : Type} (env : Env W) (ts : Nat) (bhs : Nat → Handle)
    (fss : Nat → Option FlowState) (tcpopts : Nat → TcpOpts) (i : Nat)
    (ctx : dataplane_context W) :
    flowCalls (poll_rx_fastpath env ts bhs fss tcpopts i ctx).2.trace =
      flowCalls ctx.trace ++ ((fss i).map fun fs =>
        (bhs i, fs, (poll_rx_fastpath env ts bhs fss tcpopts i ctx).1)).toList ∧
    kernelPackets (poll_rx_fastpath env ts bhs fss tcpopts i ctx).2.trace =
      kernelPackets ctx.trace ∧
    freedHandles (poll_rx_fastpath env ts bhs fss tcpopts i ctx).2.trace =
      freedHandles ctx.trace ∧
    (fss i = none → (poll_rx_fastpath env ts bhs fss tcpopts i ctx).1 = -1) := by
  unfold poll_rx_fastpath
  cases hf : fss i with
  | none => simp
  | some fs =>
    simp only [Option.map_some', Option.toList_some]
    refine ⟨?_, ?_, ?_, fun h => by simp at h⟩
    · rw [flowCalls_append]; rfl
    · rw [kernelPackets_append]; simp [kernelPackets]
    · rw [freedHandles_append]; simp [freedHandles]

theorem poll_rx_dispatch_below {W : Type} (env : Env W) (ts : Nat) (bhs : Nat → Handle)
    (fss : Nat → Option FlowState) (tcpopts : Nat → TcpOpts) (k i : Nat)
    (ctx : dataplane_context W) (fb : Nat → Nat) (j : Nat) (hj : j < i) :
    (poll_rx_dispatch env ts bhs fss tcpopts k i ctx fb).2 j = fb j := by
  induction k generalizing i ctx fb with
  | zero => rfl
  | succ k ih =>
    unfold poll_rx_dispatch
    dsimp only
    split
    · rw [ih _ _ _ (by omega), Function.update_noteq (by omega)]
    · split
      · rw [ih _ _ _ (by omega)]
      · rw [ih _ _ _ (by omega)]

theorem poll_rx_dispatch_spec {W : Type} (env : Env W) (ts : Nat) (bhs : Nat → Handle)
    (fss : Nat → Option FlowState) (tcpopts : Nat → TcpOpts) (k i : Nat)
    (ctx : dataplane_context W) (fb : Nat → Nat) (hfb : ∀ j, i ≤ j → fb j = 0) :
    ∃ rets : List Int, rets.length = k ∧
      (∀ p ∈ (List.range' i k).zip rets, fss p.1 = none → p.2 = -1) ∧
      flowCalls (poll_rx_dispatch env ts bhs fss tcpopts k i ctx fb).1.trace =
        flowCalls ctx.trace ++ ((List.range' i k).zip rets).filterMap
          (fun p => (fss p.1).map fun fs => (bhs p.1, fs, p.2)) ∧
      kernelPackets (poll_rx_dispatch env ts bhs fss tcpopts k i ctx fb).1.trace =
        kernelPackets ctx.trace ++
          (((List.range' i k).zip rets).filter (fun p => decide (p.2 < 0))).map
            (fun p => bhs p.1) ∧
      freedHandles (poll_rx_dispatch env ts bhs fss tcpopts k i ctx fb).1.trace =
        freedHandles ctx.trace ∧
      (List.range' i k).filter
          (fun j => decide ((poll_rx_dispatch env ts bhs fss tcpopts k i ctx fb).2 j = 0)) =
        (((List.range' i k).zip rets).filter (fun p => decide (p.2 ≤ 0))).map Prod.fst := by
  induction k generalizing i ctx fb with
  | zero => exact ⟨[], rfl, by simp, by simp [poll_rx_dispatch], by simp [poll_rx_dispatch],
      by simp [poll_rx_dispatch], by simp⟩
  | succ k ih =>
    obtain ⟨hf1, hf2, hf3, hf4⟩ := poll_rx_fastpath_trace env ts bhs fss tcpopts i ctx
    unfold poll_rx_dispatch
    dsimp only
    generalize poll_rx_fastpath env ts bhs fss tcpopts i ctx = r at hf1 hf2 hf3 hf4 ⊢
    by_cases hpos : r.1 > 0
    · rw [if_pos hpos]
      obtain ⟨rets, hl, hnone, hflow, hker, hfree, hfilt⟩ :=
        ih (i + 1) r.2 (Function.update fb i 1)
          (fun j hj => by rw [Function.update_noteq (by omega)]; exact hfb j (by omega))
      have hhead := poll_rx_dispatch_below env ts bhs fss tcpopts k (i + 1) r.2
        (Function.update fb i 1) i (by omega)
      rw [Function.update_same] at hhead
      refine ⟨r.1 :: rets, by simp [hl], ?_, ?_, ?_, ?_, ?_⟩
      · intro p hp
        simp only [List.range'_succ, List.zip_cons_cons, List.mem_cons] at hp
        rcases hp with rfl | hp
        · exact hf4
        · exact hnone p hp
      · rw [hflow, hf1]
        simp only [List.range'_succ, List.zip_cons_cons, List.filterMap_cons]
        cases fss i <;> simp
      · rw [hker, hf2]
        simp only [List.range'_succ, List.zip_cons_cons]
        rw [List.filter_cons_of_neg (by simp; omega)]
      · rw [hfree, hf3]
      · simp only [List.range'_succ, List.zip_cons_cons]
        rw [List.filter_cons_of_neg (by simp [hhead]),
          List.filter_cons_of_neg (by simp; omega)]
        exact hfilt
    · rw [if_neg hpos]
      by_cases hneg : r.1 < 0
      · rw [if_pos hneg]
        obtain ⟨rets, hl, hnone, hflow, hker, hfree, hfilt⟩ :=
          ih (i + 1) { r.2 with
            sh := env.fast_kernel_packet r.2.sh (bhs i)
            trace := r.2.trace ++ [Event.fast_kernel_packet (bhs i)] } fb
            (fun j hj => hfb j (by omega))
        have hhead := poll_rx_dispatch_below env ts bhs fss tcpopts k (i + 1)
          { r.2 with
            sh := env.fast_kernel_packet r.2.sh (bhs i)
            trace := r.2.trace ++ [Event.fast_kernel_packet (bhs i)] } fb i (by omega)
        rw [hfb i (Nat.le_refl i)] at hhead
        refine ⟨r.1 :: rets, by simp [hl], ?_, ?_, ?_, ?_, ?_⟩
        · intro p hp
          simp only [List.range'_succ, List.zip_cons_cons, List.mem_cons] at hp
          rcases hp with rfl | hp
          · exact hf4
          · exact hnone p hp
        · rw [hflow, flowCalls_append, hf1]
          simp only [List.range'_succ, List.zip_cons_cons, List.filterMap_cons]
          cases fss i <;> simp [flowCalls]
        · rw [hker, kernelPackets_append, hf2]
          simp only [List.range'_succ, List.zip_cons_cons]
          rw [List.filter_cons_of_pos (by simpa using hneg)]
          simp [kernelPackets]
        · rw [hfree, freedHandles_append, hf3]
          simp [freedHandles]
        · simp only [List.range'_succ, List.zip_cons_cons]
          rw [List.filter_cons_of_pos (by simp [hhead]),
            List.filter_cons_of_pos (by simp; omega)]
          rw [hfilt]; rfl
      · rw [if_neg hneg]
        obtain ⟨rets, hl, hnone, hflow, hker, hfree, hfilt⟩ :=
          ih (i + 1) r.2 fb (fun j hj => hfb j (by omega))
        have hhead := poll_rx_dispatch_below env ts bhs fss tcpopts k (i + 1) r.2 fb i
          (by omega)
        rw [hfb i (Nat.le_refl i)] at hhead
        refine ⟨r.1 :: rets, by simp [hl], ?_, ?_, ?_, ?_, ?_⟩
        · intro p hp
          simp only [List.range'_succ, List.zip_cons_cons, List.mem_cons] at hp
          rcases hp with rfl | hp
          · exact hf4
          · exact hnone p hp
        · rw [hflow, hf1]
          simp only [List.range'_succ, List.zip_cons_cons, List.filterMap_cons]
          cases fss i <;> simp
        · rw [hker, hf2]
          simp only [List.range'_succ, List.zip_cons_cons]
          rw [List.filter_cons_of_neg (by simp; omega)]
        · rw [hfree, hf3]
        · simp only [List.range'_succ, List.zip_cons_cons]
          rw [List.filter_cons_of_pos (by simp [hhead]),
            List.filter_cons_of_pos (by simp; omega)]
          rw [hfilt]; rfl

theorem bufcache_free_trace {W : Type} (env : Env W) (cfg : Config)
    (ctx : dataplane_context W) (h : Handle) :
    flowCalls (bufcache_free env cfg ctx h).trace = flowCalls ctx.trace ∧
    kernelPackets (bufcache_free env cfg ctx h).trace = kernelPackets ctx.trace ∧
    freedHandles (bufcache_free env cfg ctx h).trace = freedHandles ctx.trace ++ [h] := by
  unfold bufcache_free
  dsimp only
  split
  · refine ⟨?_, ?_, ?_⟩
    · rw [flowCalls_append]; simp [flowCalls]
    · rw [kernelPackets_append]; simp [kernelPackets]
    · rw [freedHandles_append]; simp [freedHandles]
  · refine ⟨?_, ?_, ?_⟩
    · rw [flowCalls_append]; simp [flowCalls]
    · rw [kernelPackets_append]; simp [kernelPackets]
    · rw [freedHandles_append]; simp [freedHandles]

theorem poll_rx_free_trace {W : Type} (env : Env W) (cfg : Config) (bhs : Nat → Handle)
    (fb : Nat → Nat) (k i : Nat) (ctx : dataplane_context W) :
    flowCalls (poll_rx_free env cfg bhs fb k i ctx).trace = flowCalls ctx.trace ∧
    kernelPackets (poll_rx_free env cfg bhs fb k i ctx).trace = kernelPackets ctx.trace ∧
    freedHandles (poll_rx_free env cfg bhs fb k i ctx).trace =
      freedHandles ctx.trace ++
        ((List.range' i k).filter (fun j => decide (fb j = 0))).map bhs := by
  induction k generalizing i ctx with
  | zero => simp [poll_rx_free]
  | succ k ih =>
    unfold poll_rx_free
    obtain ⟨h1, h2, h3⟩ := ih (i + 1) (if fb i = 0 then bufcache_free env cfg ctx (bhs i) else ctx)
    obtain ⟨b1, b2, b3⟩ := bufcache_free_trace env cfg ctx (bhs i)
    rw [h1, h2, h3]
    simp only [List.range'_succ]
    by_cases hz : fb i = 0
    · rw [if_pos hz, b1, b2, b3, List.filter_cons_of_pos (by simp [hz])]
      simp
    · rw [if_neg hz, List.filter_cons_of_neg (by simp [hz])]
      simp

theorem poll_rx_recv_sameRx {W : Type} (env : Env W) (cfg : Config)
    (ctx : dataplane_context W) :
    SameRx ctx.trace (poll_rx_recv env cfg ctx).2.2.trace :=
  sameRx_snoc ctx.trace (Event.network_poll (poll_rx_bound cfg ctx)
    (env.network_poll ctx.sh.world (poll_rx_bound cfg ctx)).1) rfl rfl rfl

theorem poll_rx_lookup_sameRx {W : Type} (env : Env W) (bhs : Nat → Handle) (n : Nat)
    (ctx : dataplane_context W) :
    SameRx ctx.trace (poll_rx_lookup env bhs n ctx).2.2.trace :=
  sameRx_trans (sameRx_snoc ctx.trace (Event.fast_flows_packet_fss n) rfl rfl rfl)
    (sameRx_snoc _ (Event.fast_flows_packet_parse n) rfl rfl rfl)

/-- C1, amended: when `poll_rx` returns `n` frames there is a list `rets` of
the `n` values of `ret` in the dispatch loop, frame by frame (the value
returned by the flow fast path, -1 for a frame without flow state), such that
the fast path was called for the frames with a flow state with these results,
the frames handed to `fast_kernel_packet` are those with `ret < 0`, and the
frames passed to `bufcache_free` are, in order, those with `ret <= 0`: a frame
with `ret > 0` is not freed.  When the ARX flush stops the process no frame
has been freed. -/
theorem poll_rx_frees_nonpositive {W : Type} (env : Env W) (cfg : Config)
    (ctx : dataplane_context W) (ts : Nat) :
    match poll_rx env cfg ctx ts with
    | Except.ok (n, c) =>
      ∃ rets : List Int, rets.length = n ∧
        (∀ p ∈ (List.range n).zip rets, poll_rx_fss env cfg ctx p.1 = none → p.2 = -1) ∧
        flowCalls c.trace = flowCalls ctx.trace ++ ((List.range n).zip rets).filterMap
          (fun p => (poll_rx_fss env cfg ctx p.1).map fun fs =>
            (poll_rx_bhs env cfg ctx p.1, fs, p.2)) ∧
        kernelPackets c.trace = kernelPackets ctx.trace ++
          (((List.range n).zip rets).filter (fun p => decide (p.2 < 0))).map
            (fun p => poll_rx_bhs env cfg ctx p.1) ∧
        freedHandles c.trace = freedHandles ctx.trace ++
          (((List.range n).zip rets).filter (fun p => decide (p.2 ≤ 0))).map
            (fun p => poll_rx_bhs env cfg ctx p.1)
    | Except.error c => freedHandles c.trace = freedHandles ctx.trace := by
  have hrecv := poll_rx_recv_sameRx env cfg ctx
  unfold poll_rx
  dsimp only
  by_cases hret : (poll_rx_recv env cfg ctx).1 ≤ 0
  · rw [if_pos hret]
    exact ⟨[], rfl, by simp, by simpa using hrecv.1, by simpa using hrecv.2.1,
      by simpa using hrecv.2.2⟩
  · rw [if_neg hret]
    have hlook := poll_rx_lookup_sameRx env (poll_rx_recv env cfg ctx).2.1
      (u32 (poll_rx_recv env cfg ctx).1) (poll_rx_recv env cfg ctx).2.2
    have h0 := sameRx_trans hrecv hlook
    obtain ⟨rets, hl, hnone, hflow, hker, hfree, hfilt⟩ :=
      poll_rx_dispatch_spec env ts (poll_rx_recv env cfg ctx).2.1
        (poll_rx_lookup env (poll_rx_recv env cfg ctx).2.1 (u32 (poll_rx_recv env cfg ctx).1)
          (poll_rx_recv env cfg ctx).2.2).1
        (poll_rx_lookup env (poll_rx_recv env cfg ctx).2.1 (u32 (poll_rx_recv env cfg ctx).1)
          (poll_rx_recv env cfg ctx).2.2).2.1
        (u32 (poll_rx_recv env cfg ctx).1) 0
        (poll_rx_lookup env (poll_rx_recv env cfg ctx).2.1 (u32 (poll_rx_recv env cfg ctx).1)
          (poll_rx_recv env cfg ctx).2.2).2.2
        (fun _ => 0) (fun _ _ => rfl)
    have hflush := arx_cache_flush_sameRx env
      (poll_rx_dispatch env ts (poll_rx_recv env cfg ctx).2.1
        (poll_rx_lookup env (poll_rx_recv env cfg ctx).2.1 (u32 (poll_rx_recv env cfg ctx).1)
          (poll_rx_recv env cfg ctx).2.2).1
        (poll_rx_lookup env (poll_rx_recv env cfg ctx).2.1 (u32 (poll_rx_recv env cfg ctx).1)
          (poll_rx_recv env cfg ctx).2.2).2.1
        (u32 (poll_rx_recv env cfg ctx).1) 0
        (poll_rx_lookup env (poll_rx_recv env cfg ctx).2.1 (u32 (poll_rx_recv env cfg ctx).1)
          (poll_rx_recv env cfg ctx).2.2).2.2
        (fun _ => 0)).1 ts
    rw [← List.range_eq_range'] at hnone hflow hker hfilt
    rw [h0.1] at hflow
    rw [h0.2.1] at hker
    rw [h0.2.2] at hfree
    cases hfl : arx_cache_flush env _ ts with
    | error c =>
      rw [hfl] at hflush
      dsimp only
      exact hflush.2.2.trans hfree
    | ok c4 =>
      rw [hfl] at hflush
      dsimp only
      obtain ⟨f1, f2, f3⟩ := poll_rx_free_trace env cfg (poll_rx_recv env cfg ctx).2.1
        (poll_rx_dispatch env ts (poll_rx_recv env cfg ctx).2.1
          (poll_rx_lookup env (poll_rx_recv env cfg ctx).2.1 (u32 (poll_rx_recv env cfg ctx).1)
            (poll_rx_recv env cfg ctx).2.2).1
          (poll_rx_lookup env (poll_rx_recv env cfg ctx).2.1 (u32 (poll_rx_recv env cfg ctx).1)
            (poll_rx_recv env cfg ctx).2.2).2.1
          (u32 (poll_rx_recv env cfg ctx).1) 0
          (poll_rx_lookup env (poll_rx_recv env cfg ctx).2.1 (u32 (poll_rx_recv env cfg ctx).1)
            (poll_rx_recv env cfg ctx).2.2).2.2
          (fun _ => 0)).2
        (u32 (poll_rx_recv env cfg ctx).1) 0 c4
      refine ⟨rets, hl, hnone, ?_, ?_, ?_⟩
      · rw [f1]; exact (hflush.1.trans hflow)
      · rw [f2]; exact (hflush.2.1.trans hker)
      · have e3 : freedHandles c4.trace = freedHandles ctx.trace := hflush.2.2.trans hfree
        rw [f3, ← List.range_eq_range', hfilt, e3, List.map_map]
        rfl

/-- C1, refuted as stated: the NIC delivers frames 1, 2, 3 with flow states and
the fast path returns 1, 0 and -1 for them.  Frame 1 (`ret > 0`) is not passed
to `bufcache_free`; frame 2 (`ret == 0`) is; frame 3 (`ret < 0`) is handed to
`fast_kernel_packet` and then passed to `bufcache_free`. -/
theorem poll_rx_frees_zero_and_negative :
    pollCount (poll_rx triageEnv exampleCfg (exampleCtx 0 0 0) 0) = some 3 ∧
    flowCalls (finalCtx (poll_rx triageEnv exampleCfg (exampleCtx 0 0 0) 0)).trace =
      [(1, 11, 1), (2, 12, 0), (3, 13, -1)] ∧
    kernelPackets (finalCtx (poll_rx triageEnv exampleCfg (exampleCtx 0 0 0) 0)).trace = [3] ∧
    freedHandles (finalCtx (poll_rx triageEnv exampleCfg (exampleCtx 0 0 0) 0)).trace = [2, 3] := by
  decide

/-! ### Application-context polling -/

theorem fetchCalls_append (t u : List Event) :
    fetchCalls (t ++ u) = fetchCalls t ++ fetchCalls u := by
  simp [fetchCalls, List.filterMap_append]

theorem sameFetch_refl {W : Type} (c : dataplane_context W) : SameFetch c c := ⟨rfl, rfl⟩

theorem sameFetch_trans {W : Type} {c d e : dataplane_context W} (h1 : SameFetch c d)
    (h2 : SameFetch d e) : SameFetch c e :=
  ⟨h2.1.trans h1.1, h2.2.trans h1.2⟩

theorem sameFetch_of_snoc {W : Type} (c d : dataplane_context W) (e : Event)
    (hp : d.poll_next_ctx = c.poll_next_ctx) (ht : d.trace = c.trace ++ [e])
    (he : fetchCalls [e] = []) : SameFetch c d := by
  refine ⟨hp, ?_⟩
  rw [ht, fetchCalls_append, he, List.append_nil]

theorem bufcache_fill_sameFetch {W : Type} (env : Env W) (ctx : dataplane_context W)
    (n off : Nat) : SameFetch ctx (bufcache_fill env ctx n off).2 :=
  sameFetch_of_snoc _ _ (Event.network_buf_alloc n (env.network_buf_alloc ctx.sh.world n).1.length)
    rfl rfl rfl

theorem bufcache_refill_sameFetch {W : Type} (env : Env W) (cfg : Config)
    (ctx : dataplane_context W) : SameFetch ctx (bufcache_refill env cfg ctx) := by
  unfold bufcache_refill SameFetch
  dsimp only
  constructor
  · split
    · rfl
    · split <;> rfl
  · split
    · simp [bufcache_fill, fetchCalls]
    · split
      · simp [bufcache_fill, fetchCalls]
      · simp [bufcache_fill, fetchCalls]

theorem bufcache_prealloc_sameFetch {W : Type} (env : Env W) (cfg : Config)
    (ctx : dataplane_context W) (n : Nat) :
    SameFetch ctx (bufcache_prealloc env cfg ctx n).2.2 := by
  unfold bufcache_prealloc
  dsimp only
  split
  · exact bufcache_refill_sameFetch env cfg ctx
  · exact sameFetch_refl ctx

theorem bufcache_alloc_sameFetch {W : Type} (cfg : Config) (ctx : dataplane_context W)
    (n : Nat) : SameFetch ctx (stopOr id (bufcache_alloc cfg ctx n)) := by
  unfold bufcache_alloc
  split
  · exact ⟨rfl, rfl⟩
  · exact sameFetch_refl ctx

theorem poll_queues_pf_sameFetch {W : Type} (env : Env W) (cfg : Config) (k n : Nat)
    (ctx : dataplane_context W) : SameFetch ctx (poll_queues_pf env cfg k n ctx) := by
  induction k generalizing n ctx with
  | zero => exact sameFetch_refl ctx
  | succ k ih =>
    unfold poll_queues_pf
    refine sameFetch_trans ?_ (ih _ _)
    exact sameFetch_of_snoc ctx _
      (Event.fast_appctx_poll_pf ((ctx.poll_next_ctx + n) % cfg.FLEXNIC_PL_APPCTX_NUM))
      rfl rfl rfl

theorem poll_queues_bump_sameFetch {W : Type} (env : Env W) (ts : Nat) (aqes : Nat → Aqe)
    (off r j : Nat) (ctx : dataplane_context W) (nb : Nat) :
    SameFetch ctx (poll_queues_bump env ts aqes off r j ctx nb).1 := by
  induction r generalizing j ctx nb with
  | zero => exact sameFetch_refl ctx
  | succ r ih =>
    unfold poll_queues_bump
    refine sameFetch_trans ?_ (ih _ _ _)
    exact sameFetch_of_snoc ctx _
      (Event.fast_appctx_poll_bump (aqes j) (ctx.bufcache_handles (off + nb))
        (env.fast_appctx_poll_bump ctx.sh (aqes j) (ctx.bufcache_handles (off + nb)) ts).1)
      rfl rfl rfl

theorem poll_queues_probe_sameFetch {W : Type} (env : Env W) (k n : Nat)
    (ctx : dataplane_context W) : SameFetch ctx (poll_queues_probe env k n ctx) := by
  induction k generalizing n ctx with
  | zero => exact sameFetch_refl ctx
  | succ k ih =>
    unfold poll_queues_probe
    refine sameFetch_trans ?_ (ih _ _)
    exact sameFetch_of_snoc ctx _ (Event.fast_actx_rxq_probe n) rfl rfl rfl

theorem poll_queues_fetch_ctx_calls {W : Type} (env : Env W) (max r : Nat) (st : FetchState W) :
    ∃ rs : List Int,
      (poll_queues_fetch_ctx env max r st).ctx.poll_next_ctx = st.ctx.poll_next_ctx ∧
      fetchCalls (poll_queues_fetch_ctx env max r st).ctx.trace =
        fetchCalls st.ctx.trace ++ rs.map (fun x => (st.ctx.poll_next_ctx, x)) := by
  induction r generalizing st with
  | zero => exact ⟨[], rfl, by simp [poll_queues_fetch_ctx]⟩
  | succ r ih =>
    unfold poll_queues_fetch_ctx
    dsimp only
    split
    · split
      · obtain ⟨rs, h1, h2⟩ := ih
          { ctx := { st.ctx with
              sh := (env.fast_appctx_poll_fetch st.ctx.sh st.ctx.poll_next_ctx).2.2
              trace := st.ctx.trace ++ [Event.fast_appctx_poll_fetch st.ctx.poll_next_ctx
                (env.fast_appctx_poll_fetch st.ctx.sh st.ctx.poll_next_ctx).1] }
            aqes := Function.update st.aqes st.k
              (env.fast_appctx_poll_fetch st.ctx.sh st.ctx.poll_next_ctx).2.1
            k := u16 (st.k + 1 : Nat)
            total := u32 (st.total + 1 : Nat) }
        refine ⟨(env.fast_appctx_poll_fetch st.ctx.sh st.ctx.poll_next_ctx).1 :: rs, h1, ?_⟩
        rw [h2, fetchCalls_append]
        simp [fetchCalls]
      · refine ⟨[(env.fast_appctx_poll_fetch st.ctx.sh st.ctx.poll_next_ctx).1], rfl, ?_⟩
        dsimp only
        rw [fetchCalls_append]
        simp [fetchCalls]
    · exact ⟨[], rfl, by simp⟩

theorem poll_queues_fetch_calls {W : Type} (env : Env W) (cfg : Config) (max r : Nat)
    (st : FetchState W) (p a : Nat)
    (hp : st.ctx.poll_next_ctx = (p + a) % cfg.FLEXNIC_PL_APPCTX_NUM) :
    ∃ calls : List (List Int),
      calls.length = (poll_queues_fetch env cfg max r st).2 ∧
      (poll_queues_fetch env cfg max r st).2 ≤ r ∧
      (poll_queues_fetch env cfg max r st).1.ctx.poll_next_ctx =
        (p + a + (poll_queues_fetch env cfg max r st).2) % cfg.FLEXNIC_PL_APPCTX_NUM ∧
      fetchCalls (poll_queues_fetch env cfg max r st).1.ctx.trace =
        fetchCalls st.ctx.trace ++
          ((List.range' a (poll_queues_fetch env cfg max r st).2).zip calls).flatMap
            (fun x => x.2.map (fun v => ((p + x.1) % cfg.FLEXNIC_PL_APPCTX_NUM, v))) := by
  induction r generalizing st a with
  | zero => exact ⟨[], rfl, Nat.le_refl 0, by simpa [poll_queues_fetch] using hp,
      by simp [poll_queues_fetch]⟩
  | succ r ih =>
    unfold poll_queues_fetch
    dsimp only
    split
    · obtain ⟨rs, h1, h2⟩ := poll_queues_fetch_ctx_calls env max (u32 cfg.BATCH_SIZE) st
      generalize poll_queues_fetch_ctx env max (u32 cfg.BATCH_SIZE) st = st1 at h1 h2 ⊢
      obtain ⟨calls, c1, c2, c3, c4⟩ := ih
        { st1 with ctx := { st1.ctx with
            poll_next_ctx := (st1.ctx.poll_next_ctx + 1) % cfg.FLEXNIC_PL_APPCTX_NUM } }
        (a + 1) (by
          show (st1.ctx.poll_next_ctx + 1) % cfg.FLEXNIC_PL_APPCTX_NUM = _
          rw [h1, hp, Nat.mod_add_mod]; rfl)
      dsimp only at c1 c2 c3 c4
      refine ⟨rs :: calls, by simp [c1], Nat.succ_le_succ c2, ?_, ?_⟩
      · rw [c3]; congr 1; omega
      · rw [c4]
        show fetchCalls st1.ctx.trace ++ _ = _
        rw [h2, hp]
        simp [List.range'_succ, List.append_assoc]
    · exact ⟨[], rfl, Nat.zero_le _, by simpa using hp, by simp⟩

/-! ### Slow-path polling -/

/-- C10, refuted as stated: nine queued messages that need no buffer are all
processed by one call of `poll_kernel`, which returns 9. -/
theorem poll_kernel_returns_nine :
    (poll_kernel skipEnv exampleCfg 20 (exampleCtx 0 32 9) 0).map pollCount = some (some 9) ∧
    (poll_kernel skipEnv exampleCfg 20 (exampleCtx 0 32 9) 0).map
      (fun r => kernelPolls (finalCtx r).trace) = some [1, 1, 1, 1, 1, 1, 1, 1, 1, -1] := by
  decide

theorem kernelCycles_example :
    kernelCycles msgEnv exampleCfg 9 14 (exampleCtx 0 0 100) =
      [8, 8, 8, 8, 8, 8, 8, 8, 8, 8, 8, 8, 4, 0] := by
  decide

theorem kernelPolls_append (t u : List Event) :
    kernelPolls (t ++ u) = kernelPolls t ++ kernelPolls u := by
  simp [kernelPolls, List.filterMap_append]

theorem kernelPolls_of_alloc (t : List Event) (h : ∀ e ∈ t, isAlloc e = true) :
    kernelPolls t = [] := by
  induction t with
  | nil => rfl
  | cons e t ih =>
    have he := h e (List.mem_cons_self e t)
    have ht := ih (fun x hx => h x (List.mem_cons_of_mem e hx))
    cases e <;> simp [isAlloc] at he
    simpa [kernelPolls] using ht

theorem bufcache_fill_trace {W : Type} (env : Env W) (ctx : dataplane_context W) (n off : Nat) :
    ∃ t, (bufcache_fill env ctx n off).2.trace = ctx.trace ++ t ∧ ∀ e ∈ t, isAlloc e = true :=
  ⟨[Event.network_buf_alloc n (env.network_buf_alloc ctx.sh.world n).1.length], rfl,
    by simp [isAlloc]⟩

theorem bufcache_refill_trace {W : Type} (env : Env W) (cfg : Config)
    (ctx : dataplane_context W) :
    ∃ t, (bufcache_refill env cfg ctx).trace = ctx.trace ++ t ∧ ∀ e ∈ t, isAlloc e = true := by
  unfold bufcache_refill
  dsimp only
  split
  · exact bufcache_fill_trace env ctx _ _
  · split
    · obtain ⟨t1, h1, a1⟩ := bufcache_fill_trace env ctx
        (u16 ((cfg.BUFCACHE_SIZE : Int) -
          u16 ((ctx.bufcache_head + ctx.bufcache_num &&& cfg.BUFCACHE_SIZE - 1 : Nat) : Int)))
        (u16 ((ctx.bufcache_head + ctx.bufcache_num &&& cfg.BUFCACHE_SIZE - 1 : Nat) : Int))
      obtain ⟨t2, h2, a2⟩ := bufcache_fill_trace env (bufcache_fill env ctx
        (u16 ((cfg.BUFCACHE_SIZE : Int) -
          u16 ((ctx.bufcache_head + ctx.bufcache_num &&& cfg.BUFCACHE_SIZE - 1 : Nat) : Int)))
        (u16 ((ctx.bufcache_head + ctx.bufcache_num &&& cfg.BUFCACHE_SIZE - 1 : Nat) : Int))).2
        (u32 ((u16 ((cfg.BUFCACHE_SIZE : Int) - ctx.bufcache_num) : Int) -
          u16 ((cfg.BUFCACHE_SIZE : Int) -
            u16 ((ctx.bufcache_head + ctx.bufcache_num &&& cfg.BUFCACHE_SIZE - 1 : Nat) : Int))))
        0
      refine ⟨t1 ++ t2, ?_, ?_⟩
      · rw [h2, h1, List.append_assoc]
      · intro e he
        rcases List.mem_append.mp he with h | h
        · exact a1 e h
        · exact a2 e h
    · exact bufcache_fill_trace env ctx _ _

theorem bufcache_prealloc_trace {W : Type} (env : Env W) (cfg : Config)
    (ctx : dataplane_context W) (n : Nat) :
    ∃ t, (bufcache_prealloc env cfg ctx n).2.2.trace = ctx.trace ++ t ∧
      ∀ e ∈ t, isAlloc e = true := by
  unfold bufcache_prealloc
  dsimp only
  split
  · exact bufcache_refill_trace env cfg ctx
  · exact ⟨[], by simp, by simp⟩

theorem bufcache_prealloc_le {W : Type} (env : Env W) (cfg : Config)
    (ctx : dataplane_context W) (n : Nat) (hn : n < 65536)
    (hhead : ctx.bufcache_head ≤ cfg.BUFCACHE_SIZE) :
    (bufcache_prealloc env cfg ctx n).1 ≤ n := by
  rw [bufcache_prealloc_fst, bufcache_prealloc_head]
  unfold u8 u16
  split <;> split <;> omega

theorem poll_kernel_loop_spec {W : Type} (env : Env W) (ts off max : Nat) (hmax : max < 65536)
    (fuel : Nat) (st st' : KernelState W)
    (h : poll_kernel_loop env ts off max fuel st = some st')
    (hk : st.k ≤ max) (ht : st.total < 4294967296) :
    ∃ rets : List Int,
      kernelPolls st'.ctx.trace = kernelPolls st.ctx.trace ++ rets ∧
      st'.k = st.k + (rets.filter (fun x => decide (x = 0))).length ∧ st'.k ≤ max ∧
      st'.total = (st.total + (rets.filter (fun x => decide (0 ≤ x))).length) % 4294967296 ∧
      (∀ x ∈ rets, ∃ s b, x = (env.fast_kernel_poll s b ts).1) := by
  induction fuel generalizing st with
  | zero => simp [poll_kernel_loop] at h
  | succ fuel ih =>
    unfold poll_kernel_loop at h
    dsimp only at h
    by_cases hlt : st.k < max
    · rw [if_pos hlt] at h
      generalize hp : env.fast_kernel_poll st.ctx.sh (st.ctx.bufcache_handles (off + st.k)) ts = p
        at h
      have hmem : ∃ s b, p.1 = (env.fast_kernel_poll s b ts).1 := ⟨_, _, by rw [hp]⟩
      by_cases h0 : p.1 = 0
      · rw [if_pos h0] at h
        obtain ⟨rets, r1, r2, r3, r4, r5⟩ := ih _ h
          (by show u16 ((st.k + 1 : Nat) : Int) ≤ max; rw [u16_of_lt _ (by omega)]; omega)
          (by show u32 ((st.total + 1 : Nat) : Int) < 4294967296; rw [u32_nat]; omega)
        dsimp only at r1 r2 r4
        rw [u16_of_lt _ (by omega)] at r2
        rw [u32_nat] at r4
        refine ⟨p.1 :: rets, ?_, ?_, r3, ?_, ?_⟩
        · rw [r1, kernelPolls_append]; simp [kernelPolls]
        · rw [r2, List.filter_cons_of_pos (by simpa using h0)]
          simp only [List.length_cons]; omega
        · rw [r4, List.filter_cons_of_pos (by simp [h0])]
          simp only [List.length_cons]; omega
        · intro x hx
          rcases List.mem_cons.mp hx with rfl | hx
          · exact hmem
          · exact r5 x hx
      · rw [if_neg h0] at h
        by_cases hneg : p.1 < 0
        · rw [if_pos hneg] at h
          injection h with h
          subst h
          refine ⟨[p.1], ?_, ?_, hk, ?_, ?_⟩
          · dsimp only; rw [kernelPolls_append]; simp [kernelPolls]
          · rw [List.filter_cons_of_neg (by simpa using h0)]; simp
          · rw [List.filter_cons_of_neg (by simp; omega)]
            simp only [List.filter_nil, List.length_nil, Nat.add_zero]
            exact (Nat.mod_eq_of_lt ht).symm
          · intro x hx
            rw [List.mem_singleton.mp hx]
            exact hmem
        · rw [if_neg hneg] at h
          obtain ⟨rets, r1, r2, r3, r4, r5⟩ := ih _ h hk
            (by show u32 ((st.total + 1 : Nat) : Int) < 4294967296; rw [u32_nat]; omega)
          dsimp only at r1 r2 r4
          rw [u32_nat] at r4
          refine ⟨p.1 :: rets, ?_, ?_, r3, ?_, ?_⟩
          · rw [r1, kernelPolls_append]; simp [kernelPolls]
          · rw [r2, List.filter_cons_of_neg (by simpa using h0)]
          · rw [r4, List.filter_cons_of_pos (by simp; omega)]
            simp only [List.length_cons]; omega
          · intro x hx
            rcases List.mem_cons.mp hx with rfl | hx
            · exact hmem
            · exact r5 x hx
    · rw [if_neg hlt] at h
      injection h with h
      subst h
      exact ⟨[], by simp, by simp, hk, by simpa using (Nat.mod_eq_of_lt ht).symm, by simp⟩

theorem poll_kernel_loop_total {W : Type} (env : Env W) (ts off max : Nat) (hmax : max < 65536)
    (hns : ∀ s b t, (env.fast_kernel_poll s b t).1 ≤ 0)
    (fuel : Nat) (st : KernelState W) (hf : max - st.k < fuel) :
    ∃ st', poll_kernel_loop env ts off max fuel st = some st' := by
  induction fuel generalizing st with
  | zero => omega
  | succ fuel ih =>
    unfold poll_kernel_loop
    dsimp only
    by_cases hlt : st.k < max
    · rw [if_pos hlt]
      have hle := hns st.ctx.sh (st.ctx.bufcache_handles (off + st.k)) ts
      by_cases h0 : (env.fast_kernel_poll st.ctx.sh (st.ctx.bufcache_handles (off + st.k)) ts).1 = 0
      · rw [if_pos h0]
        apply ih
        show max - u16 ((st.k + 1 : Nat) : Int) < fuel
        rw [u16_of_lt _ (by omega)]
        omega
      · rw [if_neg h0, if_pos (by omega)]
        exact ⟨_, rfl⟩
    · rw [if_neg hlt]
      exact ⟨_, rfl⟩

theorem bufcache_alloc_trace {W : Type} (cfg : Config) (ctx : dataplane_context W) (n : Nat) :
    (stopOr id (bufcache_alloc cfg ctx n)).trace = ctx.trace := by
  unfold bufcache_alloc
  split <;> rfl

theorem poll_kernel_spec {W : Type} (env : Env W) (cfg : Config) (ctx : dataplane_context W)
    (ts fuel : Nat) (r : Except (dataplane_context W) (Nat × dataplane_context W))
    (hhead : ctx.bufcache_head ≤ cfg.BUFCACHE_SIZE)
    (h : poll_kernel env cfg fuel ctx ts = some r) :
    ∃ rets : List Int,
      kernelPolls (finalCtx r).trace = kernelPolls ctx.trace ++ rets ∧
      (rets.filter (fun x => decide (x = 0))).length ≤ min 8 (poll_max cfg ctx) ∧
      (∀ n, pollCount r = some n →
        n = (rets.filter (fun x => decide (0 ≤ x))).length % 4294967296) ∧
      (∀ x ∈ rets, ∃ s b, x = (env.fast_kernel_poll s b ts).1) := by
  unfold poll_kernel at h
  dsimp only at h
  generalize hm : (if poll_max cfg ctx > 8 then 8 else poll_max cfg ctx) = max1 at h
  have hm8 : max1 = min 8 (poll_max cfg ctx) := by rw [← hm]; split <;> omega
  have hle := bufcache_prealloc_le env cfg ctx max1 (by omega) hhead
  obtain ⟨t, htr, hal⟩ := bufcache_prealloc_trace env cfg ctx max1
  have hkp : kernelPolls (bufcache_prealloc env cfg ctx max1).2.2.trace = kernelPolls ctx.trace := by
    rw [htr, kernelPolls_append, kernelPolls_of_alloc t hal, List.append_nil]
  cases hl : poll_kernel_loop env ts (bufcache_prealloc env cfg ctx max1).2.1
      (bufcache_prealloc env cfg ctx max1).1 fuel
      { ctx := (bufcache_prealloc env cfg ctx max1).2.2, k := 0, total := 0 } with
  | none => rw [hl] at h; simp at h
  | some st =>
    rw [hl] at h
    dsimp only at h
    obtain ⟨rets, r1, r2, r3, r4, r5⟩ := poll_kernel_loop_spec env ts _ _ (by omega) fuel _ st hl
      (Nat.zero_le _) (by show (0 : Nat) < 4294967296; omega)
    dsimp only at r1 r2 r4
    rw [hkp] at r1
    rw [Nat.zero_add] at r2 r4
    have hat := bufcache_alloc_trace cfg st.ctx st.k
    refine ⟨rets, ?_, by omega, ?_, r5⟩
    · cases ha : bufcache_alloc cfg st.ctx st.k with
      | error c =>
        rw [ha] at h hat
        injection h with h
        subst h
        show kernelPolls c.trace = _
        rw [show c.trace = st.ctx.trace from hat, r1]
      | ok c =>
        rw [ha] at h hat
        injection h with h
        subst h
        show kernelPolls c.trace = _
        rw [show c.trace = st.ctx.trace from hat, r1]
    · intro n hn
      cases ha : bufcache_alloc cfg st.ctx st.k with
      | error c =>
        rw [ha] at h
        injection h with h
        subst h
        simp [pollCount] at hn
      | ok c =>
        rw [ha] at h
        injection h with h
        subst h
        simp only [pollCount, Option.some.injEq] at hn
        rw [← hn, r4]

theorem poll_max_eq_min {W : Type} (cfg : Config) (ctx : dataplane_context W)
    (htx : ctx.sh.tx_num ≤ cfg.TXBUF_SIZE) (hb : cfg.BATCH_SIZE < 65536) :
    poll_max cfg ctx = min cfg.BATCH_SIZE (cfg.TXBUF_SIZE - ctx.sh.tx_num) := by
  unfold poll_max u16
  split <;> omega

/-- C10, amended: in one call of `poll_kernel` the messages that consume a
buffer (`fast_kernel_poll` returns 0) are at most `min(8, max)` with
`max = min(BATCH_SIZE, TXBUF_SIZE - tx_num)`; the value returned counts these
and every message for which `fast_kernel_poll` returns a positive value, so it
is at most 8 when `fast_kernel_poll` never returns a positive value, and then
nine loop rounds suffice for the call to return.  A slow path offering 100
messages that each consume a buffer is drained by 13 calls returning
8, ..., 8, 4, and the next call returns 0. -/
theorem poll_kernel_consumes_at_most_eight {W : Type} (env : Env W) (cfg : Config)
    (ctx : dataplane_context W) (ts : Nat)
    (hhead : ctx.bufcache_head ≤ cfg.BUFCACHE_SIZE) :
    (∀ fuel r, poll_kernel env cfg fuel ctx ts = some r →
      ∃ rets : List Int,
        kernelPolls (finalCtx r).trace = kernelPolls ctx.trace ++ rets ∧
        (rets.filter (fun x => decide (x = 0))).length ≤ min 8 (poll_max cfg ctx) ∧
        (∀ n, pollCount r = some n →
          n = (rets.filter (fun x => decide (0 ≤ x))).length % 4294967296)) ∧
    ((∀ s b t, (env.fast_kernel_poll s b t).1 ≤ 0) →
      ∃ r, poll_kernel env cfg 9 ctx ts = some r ∧ ∀ n, pollCount r = some n → n ≤ 8) ∧
    (ctx.sh.tx_num ≤ cfg.TXBUF_SIZE → cfg.BATCH_SIZE < 65536 →
      poll_max cfg ctx = min cfg.BATCH_SIZE (cfg.TXBUF_SIZE - ctx.sh.tx_num)) ∧
    kernelCycles msgEnv exampleCfg 9 14 (exampleCtx 0 0 100) =
      [8, 8, 8, 8, 8, 8, 8, 8, 8, 8, 8, 8, 4, 0] := by
  refine ⟨?_, ?_, poll_max_eq_min cfg ctx, kernelCycles_example⟩
  · intro fuel r h
    obtain ⟨rets, h1, h2, h3, -⟩ := poll_kernel_spec env cfg ctx ts fuel r hhead h
    exact ⟨rets, h1, h2, h3⟩
  · intro hns
    have hle := bufcache_prealloc_le env cfg ctx
      (if poll_max cfg ctx > 8 then 8 else poll_max cfg ctx)
      (by split <;> omega) hhead
    have hle8 : (if poll_max cfg ctx > 8 then 8 else poll_max cfg ctx) ≤ 8 := by
      split <;> omega
    obtain ⟨st, hst⟩ := poll_kernel_loop_total env ts
      (bufcache_prealloc env cfg ctx (if poll_max cfg ctx > 8 then 8 else poll_max cfg ctx)).2.1
      (bufcache_prealloc env cfg ctx (if poll_max cfg ctx > 8 then 8 else poll_max cfg ctx)).1
      (by omega) hns 9
      { ctx := (bufcache_prealloc env cfg ctx
          (if poll_max cfg ctx > 8 then 8 else poll_max cfg ctx)).2.2, k := 0, total := 0 }
      (by show _ - 0 < 9; omega)
    have hex : ∃ r, poll_kernel env cfg 9 ctx ts = some r := by
      unfold poll_kernel
      dsimp only
      rw [hst]
      dsimp only
      cases bufcache_alloc cfg st.ctx st.k with
      | error c => exact ⟨_, rfl⟩
      | ok c => exact ⟨_, rfl⟩
    obtain ⟨r, hr⟩ := hex
    refine ⟨r, hr, ?_⟩
    intro n hn
    obtain ⟨rets, -, h2, h3, h4⟩ := poll_kernel_spec env cfg ctx ts 9 r hhead hr
    have hn3 := h3 n hn
    have hfil : rets.filter (fun x => decide (0 ≤ x)) = rets.filter (fun x => decide (x = 0)) := by
      apply List.filter_congr
      intro x hx
      obtain ⟨s, b, hxe⟩ := h4 x hx
      have := hns s b ts
      rw [← hxe] at this
      simp only [decide_eq_decide]
      omega
    rw [hfil] at hn3
    have := Nat.mod_le (rets.filter (fun x => decide (x = 0))).length 4294967296
    omega

/-- Witness of C10 as amended: the slow path of the example never returns a
positive value, so a call with nine loop rounds returns at most 8. -/
theorem poll_kernel_consumes_at_most_eight_witness :
    (exampleCtx 0 0 100).bufcache_head ≤ exampleCfg.BUFCACHE_SIZE ∧
    (∀ s b t, (msgEnv.fast_kernel_poll s b t).1 ≤ 0) ∧
    ∃ r, poll_kernel msgEnv exampleCfg 9 (exampleCtx 0 0 100) 0 = some r ∧
      ∀ n, pollCount r = some n → n ≤ 8 :=
  ⟨by decide,
   fun s b t => by simp only [msgEnv]; split <;> simp,
   (poll_kernel_consumes_at_most_eight msgEnv exampleCfg (exampleCtx 0 0 100) 0 (by decide)).2.1
     (fun s b t => by simp only [msgEnv]; split <;> simp)⟩

/-! ### Queue-manager polling -/

theorem samePrivate_refl {W : Type} (c : dataplane_context W) : SamePrivate c c :=
  ⟨rfl, rfl, rfl, rfl, rfl⟩

theorem samePrivate_trans {W : Type} {c d e : dataplane_context W} (h1 : SamePrivate c d)
    (h2 : SamePrivate d e) : SamePrivate c e :=
  ⟨h2.1.trans h1.1, h2.2.1.trans h1.2.1, h2.2.2.1.trans h1.2.2.1,
    h2.2.2.2.1.trans h1.2.2.2.1, h2.2.2.2.2.trans h1.2.2.2.2⟩

theorem qmanCalls_append (t u : List Event) :
    qmanCalls (t ++ u) = qmanCalls t ++ qmanCalls u := by
  simp [qmanCalls, List.filterMap_append]

theorem qmanCalls_of_alloc (t : List Event) (h : ∀ e ∈ t, isAlloc e = true) :
    qmanCalls t = [] := by
  induction t with
  | nil => rfl
  | cons e t ih =>
    have he := h e (List.mem_cons_self e t)
    have ht := ih (fun x hx => h x (List.mem_cons_of_mem e hx))
    cases e <;> simp [isAlloc] at he
    simpa [qmanCalls] using ht

theorem poll_qman_send_spec {W : Type} (env : Env W) (ts : Nat) (q_ids : Nat → Nat)
    (hoff r i : Nat) (ctx : dataplane_context W) (off : Nat) (h16 : off + r < 65536) :
    ∃ calls : List (Nat × Handle × Int),
      calls.length = r ∧
      calls.map (fun c => c.1) = (List.range' i r).map q_ids ∧
      qmanCalls (poll_qman_send env ts q_ids hoff r i ctx off).1.trace =
        qmanCalls ctx.trace ++ calls ∧
      (poll_qman_send env ts q_ids hoff r i ctx off).2 =
        off + (calls.filter (fun c => decide (c.2.2 = 0))).length ∧
      (calls.filter (fun c => decide (c.2.2 = 0))).map (fun c => c.2.1) =
        (List.range' off (calls.filter (fun c => decide (c.2.2 = 0))).length).map
          (fun j => ctx.bufcache_handles (hoff + j)) ∧
      SamePrivate ctx (poll_qman_send env ts q_ids hoff r i ctx off).1 := by
  induction r generalizing i ctx off with
  | zero => exact ⟨[], rfl, rfl, by simp [poll_qman_send], by simp [poll_qman_send], by simp,
      samePrivate_refl ctx⟩
  | succ r ih =>
    unfold poll_qman_send
    dsimp only
    generalize hp : env.fast_flows_qman ctx.sh (q_ids i) (ctx.bufcache_handles (hoff + off)) ts = p
    by_cases h0 : p.1 = 0
    · rw [if_pos h0]
      obtain ⟨calls, c1, c2, c3, c4, c5, c6⟩ := ih (i + 1)
        { ctx with
          sh := p.2
          trace := ctx.trace ++ [Event.fast_flows_qman (q_ids i)
            (ctx.bufcache_handles (hoff + off)) p.1] }
        (u16 ((off + 1 : Nat) : Int)) (by rw [u16_of_lt _ (by omega)]; omega)
      dsimp only at c3 c4 c5 c6
      have hu : u16 ((off + 1 : Nat) : Int) = off + 1 := u16_of_lt _ (by omega)
      rw [hu] at c3 c4 c5 c6 ⊢
      refine ⟨(q_ids i, ctx.bufcache_handles (hoff + off), p.1) :: calls, by simp [c1], ?_, ?_,
        ?_, ?_, ?_⟩
      · simp [List.range'_succ, c2]
      · rw [c3, qmanCalls_append]; simp [qmanCalls]
      · rw [c4, List.filter_cons_of_pos (by simpa using h0)]
        simp only [List.length_cons]; omega
      · rw [List.filter_cons_of_pos (by simpa using h0)]
        simp only [List.length_cons, List.map_cons, List.range'_succ]
        rw [c5]
      · exact ⟨c6.1, c6.2.1, c6.2.2.1, c6.2.2.2.1, c6.2.2.2.2⟩
    · rw [if_neg h0]
      obtain ⟨calls, c1, c2, c3, c4, c5, c6⟩ := ih (i + 1)
        { ctx with
          sh := p.2
          trace := ctx.trace ++ [Event.fast_flows_qman (q_ids i)
            (ctx.bufcache_handles (hoff + off)) p.1] }
        off (by omega)
      dsimp only at c3 c4 c5 c6
      refine ⟨(q_ids i, ctx.bufcache_handles (hoff + off), p.1) :: calls, by simp [c1], ?_, ?_,
        ?_, ?_, ?_⟩
      · simp [List.range'_succ, c2]
      · rw [c3, qmanCalls_append]; simp [qmanCalls]
      · rw [c4, List.filter_cons_of_neg (by simpa using h0)]
      · rw [List.filter_cons_of_neg (by simpa using h0)]
        exact c5
      · exact ⟨c6.1, c6.2.1, c6.2.2.1, c6.2.2.2.1, c6.2.2.2.2⟩

theorem bufcache_prealloc_le_num {W : Type} (env : Env W) (cfg : Config)
    (ctx : dataplane_context W) (n : Nat) (hhead : ctx.bufcache_head ≤ cfg.BUFCACHE_SIZE) :
    (bufcache_prealloc env cfg ctx n).1 ≤ (bufcache_prealloc env cfg ctx n).2.2.bufcache_num := by
  rw [bufcache_prealloc_fst, bufcache_prealloc_head]
  unfold u8 u16
  split <;> split <;> omega

theorem bufcache_prealloc_lt_256 {W : Type} (env : Env W) (cfg : Config)
    (ctx : dataplane_context W) (n : Nat) : (bufcache_prealloc env cfg ctx n).1 < 256 := by
  rw [bufcache_prealloc_fst]
  unfold u8
  omega

/-- C11: when the queue manager returns `ret > 0` flows, at most the count
reserved, `poll_qman` calls `fast_flows_qman` once per flow, in the order of
`q_ids`, and commits exactly the `c` handles of the callbacks that returned 0:
`bufcache_head` advances by `c` modulo `BUFCACHE_SIZE`, `bufcache_num` drops by
`c`, no stored handle changes, and the handles given to these callbacks are the
first `c` handles of the reserved slice in order.  When the queue manager
returns no flow nothing is committed. -/
theorem poll_qman_commits_consumed {W : Type} (env : Env W) (cfg : Config)
    (ctx : dataplane_context W) (ts e : Nat)
    (hpow : cfg.BUFCACHE_SIZE = 2 ^ e) (hhead : ctx.bufcache_head ≤ cfg.BUFCACHE_SIZE)
    (hle : (poll_qman_answer env cfg ctx).1 ≤ (poll_qman_reserved env cfg ctx).1) :
    (0 < (poll_qman_answer env cfg ctx).1 →
      ∃ (c : dataplane_context W) (calls : List (Nat × Handle × Int)),
        poll_qman env cfg ctx ts = Except.ok ((poll_qman_answer env cfg ctx).1.toNat, c) ∧
        calls.length = (poll_qman_answer env cfg ctx).1.toNat ∧
        calls.map (fun x => x.1) =
          (List.range (poll_qman_answer env cfg ctx).1.toNat).map
            (poll_qman_answer env cfg ctx).2.1 ∧
        qmanCalls c.trace = qmanCalls ctx.trace ++ calls ∧
        c.bufcache_head =
          (ctx.bufcache_head + (calls.filter (fun x => decide (x.2.2 = 0))).length) %
            cfg.BUFCACHE_SIZE ∧
        c.bufcache_num + (calls.filter (fun x => decide (x.2.2 = 0))).length =
          (poll_qman_reserved env cfg ctx).2.2.bufcache_num ∧
        c.bufcache_handles = (poll_qman_reserved env cfg ctx).2.2.bufcache_handles ∧
        (calls.filter (fun x => decide (x.2.2 = 0))).map (fun x => x.2.1) =
          (List.range (calls.filter (fun x => decide (x.2.2 = 0))).length).map
            (fun j => (poll_qman_reserved env cfg ctx).2.2.bufcache_handles
              ((poll_qman_reserved env cfg ctx).2.1 + j))) ∧
    ((poll_qman_answer env cfg ctx).1 ≤ 0 →
      ∃ c : dataplane_context W,
        poll_qman env cfg ctx ts = Except.ok (0, c) ∧
        qmanCalls c.trace = qmanCalls ctx.trace ∧
        c.bufcache_head = ctx.bufcache_head ∧
        c.bufcache_num = (poll_qman_reserved env cfg ctx).2.2.bufcache_num ∧
        c.bufcache_handles = (poll_qman_reserved env cfg ctx).2.2.bufcache_handles) := by
  unfold poll_qman_answer poll_qman_reserved at *
  have hlen := bufcache_prealloc_le_num env cfg ctx (poll_max cfg ctx) hhead
  have h256 := bufcache_prealloc_lt_256 env cfg ctx (poll_max cfg ctx)
  have hhd := bufcache_prealloc_head env cfg ctx (poll_max cfg ctx)
  have hsnd := bufcache_prealloc_snd env cfg ctx (poll_max cfg ctx)
  obtain ⟨t, htr, hal⟩ := bufcache_prealloc_trace env cfg ctx (poll_max cfg ctx)
  have hq0 : qmanCalls (bufcache_prealloc env cfg ctx (poll_max cfg ctx)).2.2.trace =
      qmanCalls ctx.trace := by
    rw [htr, qmanCalls_append, qmanCalls_of_alloc t hal, List.append_nil]
  constructor
  · intro hpos
    unfold poll_qman
    dsimp only
    generalize bufcache_prealloc env cfg ctx (poll_max cfg ctx) = pre at *
    generalize hq : env.qman_poll pre.2.2.sh.world pre.1 = q at *
    rw [if_neg (by omega)]
    have hr : q.1.toNat < 256 := by omega
    obtain ⟨calls, c1, c2, c3, c4, c5, c6⟩ := poll_qman_send_spec env ts q.2.1 pre.2.1
      q.1.toNat 0
      { pre.2.2 with
        sh := env.fast_flows_qman_pfbufs (env.fast_flows_qman_pf
          { pre.2.2.sh with world := q.2.2.2 } q.2.1 q.1) q.2.1 q.1
        trace := pre.2.2.trace ++ [Event.qman_poll pre.1 q.1] }
      0 (by omega)
    dsimp only at c3 c4 c5 c6
    generalize poll_qman_send env ts q.2.1 pre.2.1 q.1.toNat 0
      { pre.2.2 with
        sh := env.fast_flows_qman_pfbufs (env.fast_flows_qman_pf
          { pre.2.2.sh with world := q.2.2.2 } q.2.1 q.1) q.2.1 q.1
        trace := pre.2.2.trace ++ [Event.qman_poll pre.1 q.1] } 0 = b at c3 c4 c5 c6 ⊢
    obtain ⟨-, -, p3, p4, p5⟩ := c6
    dsimp only at p3 p4 p5
    rw [Nat.zero_add] at c4
    have hzl : (calls.filter (fun x => decide (x.2.2 = 0))).length ≤ calls.length :=
      List.length_filter_le _ _
    have hble : b.2 ≤ b.1.bufcache_num := by rw [p4, c4]; omega
    rw [bufcache_alloc_of_le cfg b.1 b.2 e hpow hble]
    dsimp only
    have hu : u32 q.1 = q.1.toNat := by unfold u32; omega
    rw [hu]
    refine ⟨_, calls, rfl, c1, ?_, ?_, ?_, ?_, ?_, ?_⟩
    · rw [c2, List.range_eq_range']
    · dsimp only
      rw [c3, qmanCalls_append, hq0]
      simp [qmanCalls]
    · dsimp only
      rw [p5, hhd, c4]
    · dsimp only
      rw [p4, c4]
      omega
    · exact p3
    · rw [c5, List.range_eq_range']
  · intro hneg
    unfold poll_qman
    dsimp only
    generalize bufcache_prealloc env cfg ctx (poll_max cfg ctx) = pre at *
    rw [if_pos hneg]
    refine ⟨_, rfl, ?_, hhd, rfl, rfl⟩
    dsimp only
    rw [qmanCalls_append, hq0]
    simp [qmanCalls]

/-- Witness of C11: 32 handles cached from slot 0 on, three flows returned. -/
theorem poll_qman_commits_consumed_witness :
    exampleCfg.BUFCACHE_SIZE = 2 ^ 7 ∧
    (exampleCtx 0 32 0).bufcache_head ≤ exampleCfg.BUFCACHE_SIZE ∧
    (poll_qman_answer qmanEnv exampleCfg (exampleCtx 0 32 0)).1 ≤
      (poll_qman_reserved qmanEnv exampleCfg (exampleCtx 0 32 0)).1 ∧
    0 < (poll_qman_answer qmanEnv exampleCfg (exampleCtx 0 32 0)).1 ∧
    ∃ c : dataplane_context Nat,
      poll_qman qmanEnv exampleCfg (exampleCtx 0 32 0) 0 =
        Except.ok ((poll_qman_answer qmanEnv exampleCfg (exampleCtx 0 32 0)).1.toNat, c) :=
  ⟨by decide, by decide, by decide, by decide,
   match (poll_qman_commits_consumed qmanEnv exampleCfg (exampleCtx 0 32 0) 0 7 (by decide)
     (by decide) (by decide)).1 (by decide) with
   | ⟨c, _, h, _⟩ => ⟨c, h⟩⟩

theorem qmanEnv_example :
    pollCount (poll_qman qmanEnv exampleCfg (exampleCtx 0 32 0) 0) = some 3 ∧
    qmanCalls (finalCtx (poll_qman qmanEnv exampleCfg (exampleCtx 0 32 0) 0)).trace =
      [(40, 100, 0), (41, 101, 1), (42, 101, 0)] ∧
    (finalCtx (poll_qman qmanEnv exampleCfg (exampleCtx 0 32 0) 0)).bufcache_head = 2 ∧
    (finalCtx (poll_qman qmanEnv exampleCfg (exampleCtx 0 32 0) 0)).bufcache_num = 30 := by
  decide

/-! ### Growth of the trace -/

theorem grows_refl {W : Type} (P : Event → Bool) (c : dataplane_context W) : Grows P c c :=
  ⟨[], by simp, by simp⟩

theorem grows_trans {W : Type} {P : Event → Bool} {c d e : dataplane_context W}
    (h1 : Grows P c d) (h2 : Grows P d e) : Grows P c e := by
  obtain ⟨t1, e1, p1⟩ := h1
  obtain ⟨t2, e2, p2⟩ := h2
  refine ⟨t1 ++ t2, by rw [e2, e1, List.append_assoc], ?_⟩
  intro x hx
  rcases List.mem_append.mp hx with h | h
  · exact p1 x h
  · exact p2 x h

theorem grows_snoc {W : Type} (P : Event → Bool) (c d : dataplane_context W) (e : Event)
    (ht : d.trace = c.trace ++ [e]) (he : P e = true) : Grows P c d :=
  ⟨[e], ht, by simpa using he⟩

theorem arx_reserve_grows {W : Type} (env : Env W) (k i : Nat) (ctx : dataplane_context W)
    (parx : Nat → Slot) :
    Grows rxTail ctx (stopOr Prod.fst (arx_reserve env k i ctx parx)) := by
  induction k generalizing i ctx parx with
  | zero => exact grows_refl _ _
  | succ k ih =>
    unfold arx_reserve
    dsimp only
    split
    · exact grows_snoc rxTail ctx _ _ rfl rfl
    · refine grows_trans ?_ (ih _ _ _)
      exact grows_snoc rxTail ctx _ _ rfl rfl

theorem arx_copy_grows {W : Type} (env : Env W) (parx : Nat → Slot) (k i : Nat)
    (ctx : dataplane_context W) : Grows rxTail ctx (arx_copy env parx k i ctx) := by
  induction k generalizing i ctx with
  | zero => exact grows_refl _ _
  | succ k ih =>
    unfold arx_copy
    refine grows_trans ?_ (ih _ _)
    exact grows_snoc rxTail ctx _ _ rfl rfl

theorem arx_kick_grows {W : Type} (env : Env W) (ts k i : Nat) (ctx : dataplane_context W) :
    Grows rxTail ctx (arx_kick env ts k i ctx) := by
  induction k generalizing i ctx with
  | zero => exact grows_refl _ _
  | succ k ih =>
    unfold arx_kick
    refine grows_trans ?_ (ih _ _)
    exact grows_snoc rxTail ctx _ _ rfl rfl

theorem arx_cache_flush_grows {W : Type} (env : Env W) (ctx : dataplane_context W) (ts : Nat) :
    Grows rxTail ctx (stopOr id (arx_cache_flush env ctx ts)) := by
  have h1 := arx_reserve_grows env ctx.sh.arx_num 0 ctx (fun _ => 0)
  unfold arx_cache_flush
  cases hr : arx_reserve env ctx.sh.arx_num 0 ctx (fun _ => 0) with
  | error c =>
    rw [hr] at h1
    exact h1
  | ok r =>
    rw [hr] at h1
    have h2 := arx_copy_grows env r.2 r.1.sh.arx_num 0 r.1
    obtain ⟨t, ht, hp⟩ := arx_kick_grows env ts (arx_copy env r.2 r.1.sh.arx_num 0 r.1).sh.arx_num 0
      (arx_copy env r.2 r.1.sh.arx_num 0 r.1)
    exact grows_trans h1 (grows_trans h2 ⟨t, ht, hp⟩)

theorem poll_rx_dispatch_grows {W : Type} (env : Env W) (ts : Nat) (bhs : Nat → Handle)
    (fss : Nat → Option FlowState) (tcpopts : Nat → TcpOpts) (k i : Nat)
    (ctx : dataplane_context W) (fb : Nat → Nat) :
    Grows rxTail ctx (poll_rx_dispatch env ts bhs fss tcpopts k i ctx fb).1 := by
  induction k generalizing i ctx fb with
  | zero => exact grows_refl _ _
  | succ k ih =>
    have hfp : Grows rxTail ctx (poll_rx_fastpath env ts bhs fss tcpopts i ctx).2 := by
      unfold poll_rx_fastpath
      cases fss i with
      | none => exact grows_refl _ _
      | some fs => exact grows_snoc rxTail ctx _ _ rfl rfl
    unfold poll_rx_dispatch
    dsimp only
    split
    · exact grows_trans hfp (ih _ _ _)
    · split
      · refine grows_trans hfp (grows_trans ?_ (ih _ _ _))
        exact grows_snoc rxTail _ _ _ rfl rfl
      · exact grows_trans hfp (ih _ _ _)

theorem bufcache_free_grows {W : Type} (env : Env W) (cfg : Config)
    (ctx : dataplane_context W) (h : Handle) :
    Grows rxTail ctx (bufcache_free env cfg ctx h) := by
  unfold bufcache_free
  dsimp only
  split
  · exact grows_snoc rxTail ctx _ _ rfl rfl
  · exact grows_snoc rxTail ctx _ _ rfl rfl

theorem poll_rx_free_grows {W : Type} (env : Env W) (cfg : Config) (bhs : Nat → Handle)
    (fb : Nat → Nat) (k i : Nat) (ctx : dataplane_context W) :
    Grows rxTail ctx (poll_rx_free env cfg bhs fb k i ctx) := by
  induction k generalizing i ctx with
  | zero => exact grows_refl _ _
  | succ k ih =>
    unfold poll_rx_free
    refine grows_trans ?_ (ih _ _)
    split
    · exact bufcache_free_grows env cfg ctx (bhs i)
    · exact grows_refl _ _

theorem poll_rx_lookup_grows {W : Type} (env : Env W) (bhs : Nat → Handle) (n : Nat)
    (ctx : dataplane_context W) : Grows rxTail ctx (poll_rx_lookup env bhs n ctx).2.2 :=
  ⟨[Event.fast_flows_packet_fss n, Event.fast_flows_packet_parse n],
    by simp [poll_rx_lookup], by simp [rxTail]⟩

theorem poll_rx_trace {W : Type} (env : Env W) (cfg : Config) (ctx : dataplane_context W)
    (ts : Nat) :
    ∃ t, (finalCtx (poll_rx env cfg ctx ts)).trace =
        ctx.trace ++ Event.network_poll (poll_rx_bound cfg ctx) (poll_rx_recv env cfg ctx).1 :: t ∧
      ∀ e ∈ t, rxTail e = true := by
  have hrecv : (poll_rx_recv env cfg ctx).2.2.trace =
      ctx.trace ++ [Event.network_poll (poll_rx_bound cfg ctx) (poll_rx_recv env cfg ctx).1] := rfl
  suffices h : Grows rxTail (poll_rx_recv env cfg ctx).2.2 (finalCtx (poll_rx env cfg ctx ts)) by
    obtain ⟨t, ht, hp⟩ := h
    exact ⟨t, by rw [ht, hrecv]; simp, hp⟩
  unfold poll_rx
  dsimp only
  split
  · exact grows_refl _ _
  · have h1 := poll_rx_lookup_grows env (poll_rx_recv env cfg ctx).2.1
      (u32 (poll_rx_recv env cfg ctx).1) (poll_rx_recv env cfg ctx).2.2
    generalize poll_rx_lookup env (poll_rx_recv env cfg ctx).2.1
      (u32 (poll_rx_recv env cfg ctx).1) (poll_rx_recv env cfg ctx).2.2 = l at h1 ⊢
    have h2 := poll_rx_dispatch_grows env ts (poll_rx_recv env cfg ctx).2.1 l.1 l.2.1
      (u32 (poll_rx_recv env cfg ctx).1) 0 l.2.2 (fun _ => 0)
    generalize poll_rx_dispatch env ts (poll_rx_recv env cfg ctx).2.1 l.1 l.2.1
      (u32 (poll_rx_recv env cfg ctx).1) 0 l.2.2 (fun _ => 0) = d at h2 ⊢
    have h3 := arx_cache_flush_grows env d.1 ts
    cases hf : arx_cache_flush env d.1 ts with
    | error c =>
      rw [hf] at h3
      exact grows_trans h1 (grows_trans h2 h3)
    | ok c4 =>
      rw [hf] at h3
      exact grows_trans h1 (grows_trans h2 (grows_trans h3
        (poll_rx_free_grows env cfg (poll_rx_recv env cfg ctx).2.1 d.2
          (u32 (poll_rx_recv env cfg ctx).1) 0 c4)))

/-! ### Polls with a full TX staging area -/

/-- C12, refuted as stated: with `tx_num == TXBUF_SIZE`, `poll_rx` calls
`network_poll` (for 0 frames), and `poll_qman_fwd` dequeues the three
references of the ring, calls `fast_flows_qman_fwd` on each and returns 3. -/
theorem polls_with_full_staging_not_noop :
    (ringCtx [7, 8, 9] 32).sh.tx_num = exampleCfg.TXBUF_SIZE ∧
    (finalCtx (poll_rx ringEnv exampleCfg (ringCtx [7, 8, 9] 32) 0)).trace =
      [Event.network_poll 0 0] ∧
    (poll_qman_fwd ringEnv exampleCfg (ringCtx [7, 8, 9] 32)).1 = 3 ∧
    (poll_qman_fwd ringEnv exampleCfg (ringCtx [7, 8, 9] 32)).2.trace =
      [Event.rte_ring_dequeue_burst 64 3, Event.fast_flows_qman_fwd 7,
        Event.fast_flows_qman_fwd 8, Event.fast_flows_qman_fwd 9] := by
  decide

theorem poll_max_full {W : Type} (cfg : Config) (ctx : dataplane_context W)
    (htx : ctx.sh.tx_num = cfg.TXBUF_SIZE) : poll_max cfg ctx = 0 := by
  unfold poll_max u16
  rw [htx]
  split <;> omega

theorem poll_rx_bound_full {W : Type} (cfg : Config) (ctx : dataplane_context W)
    (htx : ctx.sh.tx_num = cfg.TXBUF_SIZE) : poll_rx_bound cfg ctx = 0 := by
  unfold poll_rx_bound u32
  rw [htx]
  split <;> omega

theorem bufcache_prealloc_zero {W : Type} (env : Env W) (cfg : Config)
    (ctx : dataplane_context W) (hhead : ctx.bufcache_head ≤ cfg.BUFCACHE_SIZE) :
    bufcache_prealloc env cfg ctx 0 = (0, ctx.bufcache_head, ctx) := by
  have h1 := bufcache_prealloc_le env cfg ctx 0 (by omega) hhead
  have h2 := bufcache_prealloc_snd env cfg ctx 0
  have h3 := bufcache_prealloc_no_refill env cfg ctx 0 (Nat.zero_le _)
  rw [h3] at h2
  have h1' : (bufcache_prealloc env cfg ctx 0).1 = 0 := by omega
  generalize bufcache_prealloc env cfg ctx 0 = r at h1' h2 h3
  obtain ⟨a, b, c⟩ := r
  simp only at h1' h2 h3
  rw [h1', h2, h3]

theorem bufcache_alloc_zero {W : Type} (cfg : Config) (ctx : dataplane_context W) (e : Nat)
    (hpow : cfg.BUFCACHE_SIZE = 2 ^ e) (hhead : ctx.bufcache_head < cfg.BUFCACHE_SIZE) :
    bufcache_alloc cfg ctx 0 = Except.ok ctx := by
  rw [bufcache_alloc_of_le cfg ctx 0 e hpow (Nat.zero_le _)]
  simp only [Nat.add_zero, Nat.sub_zero, Nat.mod_eq_of_lt hhead]

theorem poll_queues_pf_trace {W : Type} (env : Env W) (cfg : Config) (k n : Nat)
    (ctx : dataplane_context W) :
    SamePrivate ctx (poll_queues_pf env cfg k n ctx) ∧
    (poll_queues_pf env cfg k n ctx).trace = ctx.trace ++ (List.range' n k).map
      (fun j => Event.fast_appctx_poll_pf ((ctx.poll_next_ctx + j) % cfg.FLEXNIC_PL_APPCTX_NUM)) := by
  induction k generalizing n ctx with
  | zero => exact ⟨samePrivate_refl ctx, by simp [poll_queues_pf]⟩
  | succ k ih =>
    unfold poll_queues_pf
    obtain ⟨h1, h2⟩ := ih (n + 1)
      { ctx with
        sh := env.fast_appctx_poll_pf ctx.sh
          ((ctx.poll_next_ctx + n) % cfg.FLEXNIC_PL_APPCTX_NUM)
        trace := ctx.trace ++ [Event.fast_appctx_poll_pf
          ((ctx.poll_next_ctx + n) % cfg.FLEXNIC_PL_APPCTX_NUM)] }
    dsimp only at h1 h2 ⊢
    refine ⟨⟨h1.1, h1.2.1, h1.2.2.1, h1.2.2.2.1, h1.2.2.2.2⟩, ?_⟩
    rw [h2]
    simp [List.range'_succ]

theorem poll_queues_probe_trace {W : Type} (env : Env W) (k n : Nat)
    (ctx : dataplane_context W) :
    SamePrivate ctx (poll_queues_probe env k n ctx) ∧
    (poll_queues_probe env k n ctx).trace =
      ctx.trace ++ (List.range' n k).map Event.fast_actx_rxq_probe := by
  induction k generalizing n ctx with
  | zero => exact ⟨samePrivate_refl ctx, by simp [poll_queues_probe]⟩
  | succ k ih =>
    unfold poll_queues_probe
    obtain ⟨h1, h2⟩ := ih (n + 1)
      { ctx with
        sh := env.fast_actx_rxq_probe ctx.sh n
        trace := ctx.trace ++ [Event.fast_actx_rxq_probe n] }
    dsimp only at h1 h2 ⊢
    refine ⟨⟨h1.1, h1.2.1, h1.2.2.1, h1.2.2.2.1, h1.2.2.2.2⟩, ?_⟩
    rw [h2]
    simp [List.range'_succ]

theorem poll_queues_fetch_zero {W : Type} (env : Env W) (cfg : Config) (r : Nat)
    (st : FetchState W) : poll_queues_fetch env cfg 0 r st = (st, 0) := by
  cases r with
  | zero => rfl
  | succ r =>
    unfold poll_queues_fetch
    rw [if_neg (Nat.not_lt_zero _)]

/-- C12, amended: with `tx_num == TXBUF_SIZE` at entry (cache invariant,
`BUFCACHE_SIZE` a power of two): `poll_rx` calls `network_poll` once, for 0
frames, and returns 0 when the NIC delivers none; `poll_qman` reserves nothing,
allocates nothing, asks the queue manager for 0 flows and returns 0 when it
answers with none; `poll_queues` returns 0 after the prefetch and RX-probe
calls on every application context, with no fetch, no allocation and the
cursor and cache unchanged; `poll_kernel` returns 0 and changes nothing;
`poll_qman_fwd` does not look at `tx_num` and returns what the ring
delivers. -/
theorem polls_with_full_staging {W : Type} (env : Env W) (cfg : Config)
    (ctx : dataplane_context W) (ts e : Nat)
    (htx : ctx.sh.tx_num = cfg.TXBUF_SIZE)
    (hpow : cfg.BUFCACHE_SIZE = 2 ^ e) (hhead : ctx.bufcache_head < cfg.BUFCACHE_SIZE) :
    ((∃ t, (finalCtx (poll_rx env cfg ctx ts)).trace =
          ctx.trace ++ Event.network_poll 0 (poll_rx_recv env cfg ctx).1 :: t ∧
        ∀ x ∈ t, rxTail x = true) ∧
      ((poll_rx_recv env cfg ctx).1 ≤ 0 →
        ∃ c, poll_rx env cfg ctx ts = Except.ok (0, c) ∧ SamePrivate ctx c ∧
          c.trace = ctx.trace ++ [Event.network_poll 0 (poll_rx_recv env cfg ctx).1])) ∧
    (poll_qman_reserved env cfg ctx = (0, ctx.bufcache_head, ctx) ∧
      ((poll_qman_answer env cfg ctx).1 ≤ 0 →
        ∃ c, poll_qman env cfg ctx ts = Except.ok (0, c) ∧ SamePrivate ctx c ∧
          c.trace = ctx.trace ++ [Event.qman_poll 0 (poll_qman_answer env cfg ctx).1])) ∧
    (∃ c, poll_queues env cfg ctx ts = Except.ok (0, c) ∧ SamePrivate ctx c ∧
      c.trace = ctx.trace ++
        (List.range cfg.FLEXNIC_PL_APPCTX_NUM).map
          (fun j => Event.fast_appctx_poll_pf
            ((ctx.poll_next_ctx + j) % cfg.FLEXNIC_PL_APPCTX_NUM)) ++
        (List.range cfg.FLEXNIC_PL_APPCTX_NUM).map Event.fast_actx_rxq_probe) ∧
    (∀ fuel, poll_kernel env cfg (fuel + 1) ctx ts = some (Except.ok (0, ctx))) ∧
    (poll_qman_fwd env cfg ctx).1 =
      u32 (env.rte_ring_dequeue_burst ctx.sh.world (4 * cfg.BATCH_SIZE)).1 := by
  have hmax := poll_max_full cfg ctx htx
  have hbound := poll_rx_bound_full cfg ctx htx
  have hpre := bufcache_prealloc_zero env cfg ctx (Nat.le_of_lt hhead)
  have halloc := bufcache_alloc_zero cfg ctx e hpow hhead
  refine ⟨⟨?_, ?_⟩, ⟨?_, ?_⟩, ?_, ?_, rfl⟩
  · have h := poll_rx_trace env cfg ctx ts
    rw [hbound] at h
    exact h
  · intro hret
    refine ⟨(poll_rx_recv env cfg ctx).2.2, ?_, samePrivate_refl ctx, ?_⟩
    · unfold poll_rx
      dsimp only
      rw [if_pos hret]
    · have htr : (poll_rx_recv env cfg ctx).2.2.trace = ctx.trace ++
          [Event.network_poll (poll_rx_bound cfg ctx) (poll_rx_recv env cfg ctx).1] := rfl
      rw [htr, hbound]
  · unfold poll_qman_reserved
    rw [hmax, hpre]
  · intro hret
    unfold poll_qman_answer poll_qman_reserved at hret ⊢
    unfold poll_qman
    dsimp only
    rw [hmax, hpre] at hret ⊢
    dsimp only at hret ⊢
    rw [if_pos hret]
    exact ⟨_, rfl, samePrivate_refl ctx, rfl⟩
  · obtain ⟨p1, p2⟩ := poll_queues_pf_trace env cfg cfg.FLEXNIC_PL_APPCTX_NUM 0 ctx
    unfold poll_queues
    dsimp only
    rw [hmax, hpre]
    dsimp only
    rw [poll_queues_fetch_zero]
    dsimp only
    unfold poll_queues_bump
    dsimp only
    generalize poll_queues_pf env cfg cfg.FLEXNIC_PL_APPCTX_NUM 0 ctx = c1 at p1 p2 ⊢
    have ha := bufcache_alloc_zero cfg c1 e hpow (by rw [p1.2.2.2.2]; exact hhead)
    rw [ha]
    dsimp only
    obtain ⟨q1, q2⟩ := poll_queues_probe_trace env cfg.FLEXNIC_PL_APPCTX_NUM 0 c1
    refine ⟨_, rfl, samePrivate_trans p1 q1, ?_⟩
    rw [q2, p2, List.range_eq_range']
  · intro fuel
    unfold poll_kernel
    dsimp only
    rw [hmax]
    simp only [gt_iff_lt, Nat.not_lt_zero, ↓reduceIte, show ¬ (0 : Nat) > 8 by omega]
    rw [hpre]
    dsimp only
    unfold poll_kernel_loop
    dsimp only
    rw [if_neg (Nat.not_lt_zero _)]
    dsimp only
    rw [halloc]

/-- Witness of C12 as amended: 32 of 32 TX slots are taken. -/
theorem polls_with_full_staging_witness :
    (rrCtx 32).sh.tx_num = exampleCfg.TXBUF_SIZE ∧
    exampleCfg.BUFCACHE_SIZE = 2 ^ 7 ∧
    (rrCtx 32).bufcache_head < exampleCfg.BUFCACHE_SIZE ∧
    (∃ c, poll_queues rrEnv exampleCfg (rrCtx 32) 0 = Except.ok (0, c) ∧
      SamePrivate (rrCtx 32) c ∧
      c.trace = (rrCtx 32).trace ++
        (List.range exampleCfg.FLEXNIC_PL_APPCTX_NUM).map
          (fun j => Event.fast_appctx_poll_pf
            (((rrCtx 32).poll_next_ctx + j) % exampleCfg.FLEXNIC_PL_APPCTX_NUM)) ++
        (List.range exampleCfg.FLEXNIC_PL_APPCTX_NUM).map Event.fast_actx_rxq_probe) ∧
    (∀ fuel, poll_kernel rrEnv exampleCfg (fuel + 1) (rrCtx 32) 0 =
      some (Except.ok (0, rrCtx 32))) :=
  ⟨by decide, by decide, by decide,
   (polls_with_full_staging rrEnv exampleCfg (rrCtx 32) 0 7 (by decide) (by decide)
     (by decide)).2.2.1,
   (polls_with_full_staging rrEnv exampleCfg (rrCtx 32) 0 7 (by decide) (by decide)
     (by decide)).2.2.2.1⟩

/-! ### ARX cache -/

/-- C13, refuted as stated: two records are in the ARX cache at entry and the
NIC delivers nothing: `poll_rx` returns 0 and `arx_num` is still 2. -/
theorem poll_rx_empty_keeps_arx :
    pollCount (poll_rx quietEnv exampleCfg arxCtx 0) = some 0 ∧
    (finalCtx (poll_rx quietEnv exampleCfg arxCtx 0)).sh.arx_num = 2 := by
  decide

theorem arx_reserve_ok {W : Type} (env : Env W)
    (hok : ∀ w a, (env.fast_actx_rxq_alloc w a).1 = 0) (k i : Nat)
    (ctx : dataplane_context W) (parx : Nat → Slot) :
    ∃ r, arx_reserve env k i ctx parx = Except.ok r := by
  induction k generalizing i ctx parx with
  | zero => exact ⟨_, rfl⟩
  | succ k ih =>
    unfold arx_reserve
    dsimp only
    rw [if_neg (by simp [hok])]
    exact ih _ _ _

theorem arx_cache_flush_arx_num {W : Type} (env : Env W) (ctx c : dataplane_context W)
    (ts : Nat) (h : arx_cache_flush env ctx ts = Except.ok c) : c.sh.arx_num = 0 := by
  unfold arx_cache_flush at h
  cases hr : arx_reserve env ctx.sh.arx_num 0 ctx (fun _ => 0) with
  | error c' => rw [hr] at h; simp at h
  | ok r =>
    rw [hr] at h
    dsimp only at h
    injection h with h
    rw [← h]

theorem bufcache_free_arx_num {W : Type} (env : Env W) (cfg : Config)
    (ctx : dataplane_context W) (h : Handle) :
    (bufcache_free env cfg ctx h).sh.arx_num = ctx.sh.arx_num := by
  unfold bufcache_free
  dsimp only
  split <;> rfl

theorem poll_rx_free_arx_num {W : Type} (env : Env W) (cfg : Config) (bhs : Nat → Handle)
    (fb : Nat → Nat) (k i : Nat) (ctx : dataplane_context W) :
    (poll_rx_free env cfg bhs fb k i ctx).sh.arx_num = ctx.sh.arx_num := by
  induction k generalizing i ctx with
  | zero => rfl
  | succ k ih =>
    unfold poll_rx_free
    rw [ih]
    split
    · exact bufcache_free_arx_num env cfg ctx (bhs i)
    · rfl

/-- C13, amended: when `poll_rx` returns after a non-empty receive, `arx_num`
is 0; on an empty receive (`ret <= 0`) it returns 0 before the ARX flush and
leaves `arx_num` as it was at entry.  It returns whenever every RX-slot
reservation succeeds. -/
theorem poll_rx_arx_flushed {W : Type} (env : Env W) (cfg : Config)
    (ctx : dataplane_context W) (ts : Nat) :
    (∀ n c, poll_rx env cfg ctx ts = Except.ok (n, c) →
      (0 < (poll_rx_recv env cfg ctx).1 → c.sh.arx_num = 0) ∧
      ((poll_rx_recv env cfg ctx).1 ≤ 0 → n = 0 ∧ c.sh.arx_num = ctx.sh.arx_num)) ∧
    ((∀ w a, (env.fast_actx_rxq_alloc w a).1 = 0) →
      ∃ n c, poll_rx env cfg ctx ts = Except.ok (n, c)) := by
  constructor
  · intro n c h
    unfold poll_rx at h
    dsimp only at h
    by_cases hret : (poll_rx_recv env cfg ctx).1 ≤ 0
    · rw [if_pos hret] at h
      injection h with h
      injection h with h1 h2
      refine ⟨fun hp => by omega, fun _ => ⟨h1.symm, ?_⟩⟩
      rw [← h2]
      rfl
    · rw [if_neg hret] at h
      refine ⟨fun _ => ?_, fun hn => absurd hn hret⟩
      cases hf : arx_cache_flush env _ ts with
      | error c' => rw [hf] at h; simp at h
      | ok c4 =>
        rw [hf] at h
        dsimp only at h
        injection h with h
        injection h with h1 h2
        rw [← h2, poll_rx_free_arx_num]
        exact arx_cache_flush_arx_num env _ c4 ts hf
  · intro hok
    unfold poll_rx
    dsimp only
    split
    · exact ⟨_, _, rfl⟩
    · generalize (poll_rx_dispatch env ts (poll_rx_recv env cfg ctx).2.1
        (poll_rx_lookup env (poll_rx_recv env cfg ctx).2.1 (u32 (poll_rx_recv env cfg ctx).1)
          (poll_rx_recv env cfg ctx).2.2).1
        (poll_rx_lookup env (poll_rx_recv env cfg ctx).2.1 (u32 (poll_rx_recv env cfg ctx).1)
          (poll_rx_recv env cfg ctx).2.2).2.1
        (u32 (poll_rx_recv env cfg ctx).1) 0
        (poll_rx_lookup env (poll_rx_recv env cfg ctx).2.1 (u32 (poll_rx_recv env cfg ctx).1)
          (poll_rx_recv env cfg ctx).2.2).2.2 fun _ => 0) = d
      obtain ⟨r, hr⟩ := arx_reserve_ok env hok d.1.sh.arx_num 0 d.1 (fun _ => 0)
      unfold arx_cache_flush
      rw [hr]
      exact ⟨_, _, rfl⟩

/-- Witness of C13 as amended: three frames are received while two records
wait in the ARX cache; every reservation succeeds. -/
theorem poll_rx_arx_flushed_witness :
    (∀ w a, (triageEnv.fast_actx_rxq_alloc w a).1 = 0) ∧
    ∃ n c, poll_rx triageEnv exampleCfg arxCtx 0 = Except.ok (n, c) :=
  ⟨fun _ _ => rfl,
   (poll_rx_arx_flushed triageEnv exampleCfg arxCtx 0).2 (fun _ _ => rfl)⟩

theorem arx_reserve_below {W : Type} (env : Env W) (k i : Nat) (ctx : dataplane_context W)
    (parx : Nat → Slot) (r : dataplane_context W × (Nat → Slot))
    (h : arx_reserve env k i ctx parx = Except.ok r) (j : Nat) (hj : j < i) :
    r.2 j = parx j := by
  induction k generalizing i ctx parx with
  | zero =>
    unfold arx_reserve at h
    injection h with h
    rw [← h]
  | succ k ih =>
    unfold arx_reserve at h
    dsimp only at h
    split at h
    · simp at h
    · rw [ih _ _ _ h (by omega), Function.update_noteq (by omega)]

theorem arx_reserve_sh {W : Type} (env : Env W) (k i : Nat) (ctx : dataplane_context W)
    (parx : Nat → Slot) :
    (stopOr Prod.fst (arx_reserve env k i ctx parx)).sh.arx_cache = ctx.sh.arx_cache ∧
    (stopOr Prod.fst (arx_reserve env k i ctx parx)).sh.arx_ctx = ctx.sh.arx_ctx ∧
    (stopOr Prod.fst (arx_reserve env k i ctx parx)).sh.arx_num = ctx.sh.arx_num := by
  induction k generalizing i ctx parx with
  | zero => exact ⟨rfl, rfl, rfl⟩
  | succ k ih =>
    unfold arx_reserve
    dsimp only
    split
    · exact ⟨rfl, rfl, rfl⟩
    · exact ih _ _ _

theorem arx_reserve_ok_spec {W : Type} (env : Env W) (k i : Nat) (ctx : dataplane_context W)
    (parx : Nat → Slot) (r : dataplane_context W × (Nat → Slot))
    (h : arx_reserve env k i ctx parx = Except.ok r) :
    ∃ res : List (Int × Slot), res.length = k ∧ (∀ x ∈ res, x.1 = 0) ∧
      r.1.trace = ctx.trace ++ ((List.range' i k).zip res).map
        (fun p => Event.fast_actx_rxq_alloc (ctx.sh.arx_ctx p.1) p.2.1 p.2.2) ∧
      ∀ f : Nat → Slot → Event, (List.range' i k).map (fun j => f j (r.2 j)) =
        ((List.range' i k).zip res).map (fun p => f p.1 p.2.2) := by
  induction k generalizing i ctx parx with
  | zero =>
    unfold arx_reserve at h
    injection h with h
    subst h
    exact ⟨[], rfl, by simp, by simp, by simp⟩
  | succ k ih =>
    have hb := arx_reserve_below env (k + 1) i ctx parx r h
    unfold arx_reserve at h
    dsimp only at h
    by_cases hz : (env.fast_actx_rxq_alloc ctx.sh.world (ctx.sh.arx_ctx i)).1 = 0
    · rw [if_neg (by simpa using hz)] at h
      have hi := arx_reserve_below env k (i + 1) _ _ r h i (by omega)
      rw [Function.update_same] at hi
      obtain ⟨res, r1, r2, r3, r4⟩ := ih _ _ _ h
      dsimp only at r3
      refine ⟨((env.fast_actx_rxq_alloc ctx.sh.world (ctx.sh.arx_ctx i)).1,
        (env.fast_actx_rxq_alloc ctx.sh.world (ctx.sh.arx_ctx i)).2.1) :: res, by simp [r1], ?_,
        ?_, ?_⟩
      · intro x hx
        rcases List.mem_cons.mp hx with rfl | hx
        · exact hz
        · exact r2 x hx
      · rw [r3]
        simp [List.range'_succ]
      · intro f
        simp only [List.range'_succ, List.map_cons, List.zip_cons_cons]
        rw [r4 f, hi]
    · rw [if_pos (by simpa using hz)] at h
      simp at h

theorem arx_reserve_error_spec {W : Type} (env : Env W) (k i : Nat)
    (ctx : dataplane_context W) (parx : Nat → Slot) (c : dataplane_context W)
    (h : arx_reserve env k i ctx parx = Except.error c) :
    ∃ res : List (Int × Slot), res.length ≤ k ∧ (∃ x ∈ res, x.1 ≠ 0) ∧
      c.trace = ctx.trace ++ ((List.range' i res.length).zip res).map
        (fun p => Event.fast_actx_rxq_alloc (ctx.sh.arx_ctx p.1) p.2.1 p.2.2) := by
  induction k generalizing i ctx parx with
  | zero =>
    unfold arx_reserve at h
    simp at h
  | succ k ih =>
    unfold arx_reserve at h
    dsimp only at h
    by_cases hz : (env.fast_actx_rxq_alloc ctx.sh.world (ctx.sh.arx_ctx i)).1 = 0
    · rw [if_neg (by simpa using hz)] at h
      obtain ⟨res, r1, ⟨x, hx, hx0⟩, r3⟩ := ih _ _ _ h
      dsimp only at r3
      refine ⟨((env.fast_actx_rxq_alloc ctx.sh.world (ctx.sh.arx_ctx i)).1,
        (env.fast_actx_rxq_alloc ctx.sh.world (ctx.sh.arx_ctx i)).2.1) :: res, by simp; omega,
        ⟨x, List.mem_cons_of_mem _ hx, hx0⟩, ?_⟩
      rw [r3]
      simp [List.range'_succ]
    · rw [if_pos (by simpa using hz)] at h
      injection h with h
      subst h
      refine ⟨[((env.fast_actx_rxq_alloc ctx.sh.world (ctx.sh.arx_ctx i)).1,
        (env.fast_actx_rxq_alloc ctx.sh.world (ctx.sh.arx_ctx i)).2.1)], by simp,
        ⟨_, List.mem_singleton_self _, hz⟩, ?_⟩
      simp [List.range'_succ]

theorem arx_copy_trace {W : Type} (env : Env W) (parx : Nat → Slot) (k i : Nat)
    (ctx : dataplane_context W) :
    (arx_copy env parx k i ctx).trace = ctx.trace ++ (List.range' i k).map
      (fun j => Event.arx_store (parx j) (ctx.sh.arx_cache j)) ∧
    (arx_copy env parx k i ctx).sh.arx_ctx = ctx.sh.arx_ctx ∧
    (arx_copy env parx k i ctx).sh.arx_num = ctx.sh.arx_num := by
  induction k generalizing i ctx with
  | zero => exact ⟨by simp [arx_copy], rfl, rfl⟩
  | succ k ih =>
    unfold arx_copy
    obtain ⟨h1, h2, h3⟩ := ih (i + 1)
      { ctx with
        sh := { ctx.sh with
          world := env.arx_store ctx.sh.world (parx i) (ctx.sh.arx_cache i) }
        trace := ctx.trace ++ [Event.arx_store (parx i) (ctx.sh.arx_cache i)] }
    dsimp only at h1 h2 h3 ⊢
    refine ⟨?_, h2, h3⟩
    rw [h1]
    simp [List.range'_succ]

theorem arx_kick_trace {W : Type} (env : Env W) (ts k i : Nat) (ctx : dataplane_context W) :
    (arx_kick env ts k i ctx).trace = ctx.trace ++ (List.range' i k).map
      (fun j => Event.actx_kick (ctx.sh.arx_ctx j)) := by
  induction k generalizing i ctx with
  | zero => simp [arx_kick]
  | succ k ih =>
    unfold arx_kick
    rw [ih]
    simp [List.range'_succ]

theorem reservedOn_append (a : Nat) (t u : List Event) :
    reservedOn a (t ++ u) = reservedOn a t ++ reservedOn a u := by
  simp [reservedOn, List.filterMap_append]

theorem reservedOn_reservations (a : Nat) (actx : Nat → Nat) (l : List (Nat × Int × Slot)) :
    reservedOn a (l.map (fun p => Event.fast_actx_rxq_alloc (actx p.1) p.2.1 p.2.2)) =
      (l.filter (fun p => decide (actx p.1 = a))).map (fun p => p.2.2) := by
  induction l with
  | nil => rfl
  | cons p l ih =>
    by_cases hp : actx p.1 = a
    · rw [List.filter_cons_of_pos (by simpa using hp)]
      simp only [List.map_cons]
      rw [← ih]
      simp [reservedOn, hp]
    · rw [List.filter_cons_of_neg (by simpa using hp)]
      rw [← ih]
      simp [reservedOn, hp]

theorem reservedOn_stores (a : Nat) (cache : Nat → ArxRec) (l : List (Nat × Int × Slot)) :
    reservedOn a (l.map (fun p => Event.arx_store p.2.2 (cache p.1))) = [] := by
  induction l with
  | nil => rfl
  | cons p l ih => simp [reservedOn]

theorem reservedOn_kicks (a : Nat) (actx : Nat → Nat) (l : List Nat) :
    reservedOn a (l.map (fun j => Event.actx_kick (actx j))) = [] := by
  induction l with
  | nil => rfl
  | cons p l ih => simp [reservedOn]

/-- C14: when every reservation succeeds, `arx_cache_flush` reserves one RX
slot per cached entry in cache order (entry `i` on the context `arx_ctx[i]`),
then writes `arx_cache[i]` into the slot reserved for entry `i`, in cache order,
then kicks the target context of every entry, and sets `arx_num` to 0; so for
every application context the slots reserved in its ring, in reservation
order, receive the records addressed to it in cache order.  When a reservation
fails the flush stops after the reservations made so far and no record has
been copied. -/
theorem arx_cache_flush_in_order {W : Type} (env : Env W) (ctx : dataplane_context W)
    (ts : Nat) :
    (∀ c, arx_cache_flush env ctx ts = Except.ok c →
      ∃ res : List (Int × Slot), res.length = ctx.sh.arx_num ∧ (∀ x ∈ res, x.1 = 0) ∧
        c.trace = ctx.trace ++
          (((List.range ctx.sh.arx_num).zip res).map
              (fun p => Event.fast_actx_rxq_alloc (ctx.sh.arx_ctx p.1) p.2.1 p.2.2) ++
            ((List.range ctx.sh.arx_num).zip res).map
              (fun p => Event.arx_store p.2.2 (ctx.sh.arx_cache p.1)) ++
            (List.range ctx.sh.arx_num).map (fun j => Event.actx_kick (ctx.sh.arx_ctx j))) ∧
        c.sh.arx_num = 0 ∧
        ∀ a, reservedOn a (c.trace.drop ctx.trace.length) =
            (((List.range ctx.sh.arx_num).zip res).filter
              (fun p => decide (ctx.sh.arx_ctx p.1 = a))).map (fun p => p.2.2) ∧
          List.Sublist
            ((((List.range ctx.sh.arx_num).zip res).filter
              (fun p => decide (ctx.sh.arx_ctx p.1 = a))).map
                (fun p => Event.arx_store p.2.2 (ctx.sh.arx_cache p.1)))
            (c.trace.drop ctx.trace.length)) ∧
    (∀ c, arx_cache_flush env ctx ts = Except.error c →
      ∃ res : List (Int × Slot), res.length ≤ ctx.sh.arx_num ∧ (∃ x ∈ res, x.1 ≠ 0) ∧
        c.trace = ctx.trace ++ ((List.range res.length).zip res).map
          (fun p => Event.fast_actx_rxq_alloc (ctx.sh.arx_ctx p.1) p.2.1 p.2.2)) ∧
    ((∀ w a, (env.fast_actx_rxq_alloc w a).1 = 0) →
      ∃ c, arx_cache_flush env ctx ts = Except.ok c) := by
  refine ⟨?_, ?_, ?_⟩
  · intro c h
    unfold arx_cache_flush at h
    cases hr : arx_reserve env ctx.sh.arx_num 0 ctx (fun _ => 0) with
    | error c' => rw [hr] at h; simp at h
    | ok r =>
      rw [hr] at h
      dsimp only at h
      injection h with h
      obtain ⟨res, r1, r2, r3, r4⟩ := arx_reserve_ok_spec env _ _ _ _ r hr
      have hsh := arx_reserve_sh env ctx.sh.arx_num 0 ctx (fun _ => 0)
      rw [hr] at hsh
      obtain ⟨s1, s2, s3⟩ := hsh
      change r.1.sh.arx_cache = _ at s1
      change r.1.sh.arx_ctx = _ at s2
      change r.1.sh.arx_num = _ at s3
      obtain ⟨k1, k2, k3⟩ := arx_copy_trace env r.2 r.1.sh.arx_num 0 r.1
      have k4 := arx_kick_trace env ts (arx_copy env r.2 r.1.sh.arx_num 0 r.1).sh.arx_num 0
        (arx_copy env r.2 r.1.sh.arx_num 0 r.1)
      have htr : c.trace = ctx.trace ++
          (((List.range ctx.sh.arx_num).zip res).map
              (fun p => Event.fast_actx_rxq_alloc (ctx.sh.arx_ctx p.1) p.2.1 p.2.2) ++
            ((List.range ctx.sh.arx_num).zip res).map
              (fun p => Event.arx_store p.2.2 (ctx.sh.arx_cache p.1)) ++
            (List.range ctx.sh.arx_num).map (fun j => Event.actx_kick (ctx.sh.arx_ctx j))) := by
        rw [← h]
        dsimp only
        rw [k4, k3, k2, k1, s3, s2, s1, r3,
          r4 (fun j s => Event.arx_store s (ctx.sh.arx_cache j)), ← List.range_eq_range']
        simp only [List.append_assoc]
      refine ⟨res, r1, r2, htr, by rw [← h], ?_⟩
      intro a
      rw [htr, List.drop_left]
      constructor
      · rw [reservedOn_append, reservedOn_append, reservedOn_reservations, reservedOn_stores,
          reservedOn_kicks]
        simp
      · refine List.Sublist.trans ?_ (List.sublist_append_left _ _)
        refine List.Sublist.trans ?_ (List.sublist_append_right _ _)
        exact List.Sublist.map _ (List.filter_sublist _)
  · intro c h
    unfold arx_cache_flush at h
    cases hr : arx_reserve env ctx.sh.arx_num 0 ctx (fun _ => 0) with
    | ok r => rw [hr] at h; simp at h
    | error c' =>
      rw [hr] at h
      dsimp only at h
      injection h with h
      subst h
      obtain ⟨res, r1, r2, r3⟩ := arx_reserve_error_spec env _ _ _ _ c' hr
      rw [← List.range_eq_range'] at r3
      exact ⟨res, r1, r2, r3⟩
  · intro hok
    obtain ⟨r, hr⟩ := arx_reserve_ok env hok ctx.sh.arx_num 0 ctx (fun _ => 0)
    unfold arx_cache_flush
    rw [hr]
    exact ⟨_, rfl⟩

/-- Witness of C14: two cached records, every reservation succeeds. -/
theorem arx_cache_flush_in_order_witness :
    (∀ w a, (quietEnv.fast_actx_rxq_alloc w a).1 = 0) ∧
    ∃ c, arx_cache_flush quietEnv arxCtx 0 = Except.ok c :=
  ⟨fun _ _ => rfl, (arx_cache_flush_in_order quietEnv arxCtx 0).2.2 (fun _ _ => rfl)⟩

theorem arx_cache_flush_example :
    (stopOr id (arx_cache_flush quietEnv arxCtx 0)).trace =
      [Event.fast_actx_rxq_alloc 1 0 0, Event.fast_actx_rxq_alloc 2 0 0,
        Event.arx_store 0 50, Event.arx_store 0 51, Event.actx_kick 1, Event.actx_kick 2] ∧
    (stopOr id (arx_cache_flush quietEnv arxCtx 0)).sh.arx_num = 0 := by
  decide

/-! ### Idle policy of the main loop -/

/-- Counterexample to C15: in a run of three consecutive idle iterations with
timestamps 100, 300, 500 and `POLL_CYCLE = 100`, interrupts enabled, the second
iteration waits and leaves `startwait = 0`; the third is a later idle
iteration of the same run with `fp_interrupts` set and
`ts - startwait = 500 >= POLL_CYCLE`, yet it requests no interrupt: it records
`startwait = 500`. -/
theorem idle_after_wait_requests_nothing :
    (dataplane_loop_tails waitEnv 7 [(0, 100), (0, 300)] (dataplane_loop_entry 0)).toOption =
      some
        { startwait := 0, was_idle := 1, world := 1,
          log := [LoopEvent.network_rx_interrupt_ctl 1 0, LoopEvent.qman_next_ts 300 5000,
            LoopEvent.rte_epoll_wait 5 1, LoopEvent.read 7 8,
            LoopEvent.network_rx_interrupt_ctl 0 0] } ∧
    (waitEnv.fp_interrupts ≠ 0 ∧ waitEnv.POLL_CYCLE ≤ u32 ((500 : Int) - (0 : Nat))) ∧
    (dataplane_loop_tails waitEnv 7 [(0, 100), (0, 300), (0, 500)]
        (dataplane_loop_entry 0)).toOption =
      some
        { startwait := 500, was_idle := 1, world := 1,
          log := [LoopEvent.network_rx_interrupt_ctl 1 0, LoopEvent.qman_next_ts 300 5000,
            LoopEvent.rte_epoll_wait 5 1, LoopEvent.read 7 8,
            LoopEvent.network_rx_interrupt_ctl 0 0] } := by
  decide

theorem dataplane_loop_wake_spec {W : Type} (env : LoopEnv W) (evfd : Int) (fds : Nat → Int) :
    ∀ (k i : Nat) (st : LoopState W),
      ∃ t : List LoopEvent, (∀ e ∈ t, ∃ r, e = LoopEvent.read evfd r) ∧
        (stopOr id (dataplane_loop_wake env evfd fds k i st)).log = st.log ++ t ∧
        ∀ c, dataplane_loop_wake env evfd fds k i st = Except.ok c →
          c.startwait = st.startwait ∧ c.was_idle = st.was_idle := by
  intro k
  induction k with
  | zero =>
    intro i st
    refine ⟨[], by simp, by simp [dataplane_loop_wake, stopOr], ?_⟩
    intro c h
    simp only [dataplane_loop_wake] at h
    injection h with h
    subst h
    exact ⟨rfl, rfl⟩
  | succ k ih =>
    intro i st
    unfold dataplane_loop_wake
    dsimp only
    by_cases hfd : fds i = evfd
    · rw [if_pos hfd]
      by_cases hr : (env.read st.world evfd).1 = 8
      · rw [if_pos hr]
        obtain ⟨t, h1, h2, h3⟩ := ih (i + 1)
          { st with world := (env.read st.world evfd).2,
                    log := st.log ++ [LoopEvent.read evfd (env.read st.world evfd).1] }
        refine ⟨LoopEvent.read evfd (env.read st.world evfd).1 :: t, ?_, ?_, ?_⟩
        · intro e he
          rcases List.mem_cons.1 he with he | he
          · exact ⟨_, he⟩
          · exact h1 e he
        · rw [h2]
          simp
        · intro c hc
          exact h3 c hc
      · rw [if_neg hr]
        refine ⟨[LoopEvent.read evfd (env.read st.world evfd).1], ?_, rfl, ?_⟩
        · intro e he
          exact ⟨_, List.mem_singleton.1 he⟩
        · intro c hc
          cases hc
    · rw [if_neg hfd]
      exact ih (i + 1) st

theorem enableRequests_reads (evfd : Int) (t : List LoopEvent)
    (h : ∀ e ∈ t, ∃ r, e = LoopEvent.read evfd r) : enableRequests t = [] := by
  induction t with
  | nil => rfl
  | cons e t ih =>
    obtain ⟨r, hr⟩ := h e (List.mem_cons_self _ _)
    subst hr
    have := ih (fun e he => h e (List.mem_cons_of_mem _ he))
    simpa [enableRequests] using this

theorem eventWaits_reads (evfd : Int) (t : List LoopEvent)
    (h : ∀ e ∈ t, ∃ r, e = LoopEvent.read evfd r) : eventWaits t = [] := by
  induction t with
  | nil => rfl
  | cons e t ih =>
    obtain ⟨r, hr⟩ := h e (List.mem_cons_self _ _)
    subst hr
    have := ih (fun e he => h e (List.mem_cons_of_mem _ he))
    simpa [eventWaits] using this

/-- C15 (amended): the tail of an iteration of `dataplane_loop` is keyed on
`startwait`.  An iteration with work (`n > 0`) makes no call and clears
`startwait`.  An idle iteration entered with `startwait == 0` (the first of a
run, the one after a wait or a refused request, or one after `ts == 0` was
recorded) records `startwait = ts` and makes no call.  An idle iteration
entered with `startwait != 0` requests the RX interrupt exactly when
`fp_interrupts` is set and the 32-bit difference `ts - startwait` is at least
`POLL_CYCLE`, and otherwise changes nothing; when it requests, it makes one
enable request, enters the event wait only if the request returned 0 (one
wait, after asking the queue manager for the deadline), and `startwait` is 0
when the iteration ends. -/
theorem dataplane_loop_idle_policy {W : Type} (env : LoopEnv W) (evfd : Int) (n ts : Nat)
    (st : LoopState W) :
    (n ≠ 0 →
      dataplane_loop_idle env evfd n ts st =
        Except.ok { st with was_idle := 0, startwait := 0 }) ∧
    (n = 0 → st.startwait = 0 →
      dataplane_loop_idle env evfd n ts st =
        Except.ok { st with was_idle := 1, startwait := ts }) ∧
    (n = 0 → st.startwait ≠ 0 →
      ¬ (env.fp_interrupts ≠ 0 ∧ env.POLL_CYCLE ≤ u32 ((ts : Int) - st.startwait)) →
      dataplane_loop_idle env evfd n ts st = Except.ok { st with was_idle := 1 }) ∧
    (n = 0 → st.startwait ≠ 0 →
      (env.fp_interrupts ≠ 0 ∧ env.POLL_CYCLE ≤ u32 ((ts : Int) - st.startwait)) →
      ∃ t : List LoopEvent,
        (stopOr id (dataplane_loop_idle env evfd n ts st)).log =
          st.log ++
            LoopEvent.network_rx_interrupt_ctl 1 (env.network_rx_interrupt_ctl st.world 1).1 :: t ∧
        enableRequests t = [] ∧
        ((env.network_rx_interrupt_ctl st.world 1).1 ≠ 0 → t = []) ∧
        ((env.network_rx_interrupt_ctl st.world 1).1 = 0 →
          ∃ (timeout ret : Int) (t2 : List LoopEvent),
            t = LoopEvent.qman_next_ts ts
                  (env.qman_next_ts (env.network_rx_interrupt_ctl st.world 1).2 ts).1 ::
                LoopEvent.rte_epoll_wait timeout ret :: t2 ∧
            eventWaits t2 = []) ∧
        ∀ c, dataplane_loop_idle env evfd n ts st = Except.ok c →
          c.startwait = 0 ∧ c.was_idle = 1) := by
  refine ⟨?_, ?_, ?_, ?_⟩
  · intro hn
    unfold dataplane_loop_idle
    rw [if_neg hn]
  · intro hn hs
    unfold dataplane_loop_idle
    dsimp only
    rw [if_pos hn, if_pos hs]
  · intro hn hs hc
    unfold dataplane_loop_idle
    dsimp only
    rw [if_pos hn, if_neg hs, if_neg hc]
  · intro hn hs hc
    unfold dataplane_loop_idle
    dsimp only
    rw [if_pos hn, if_neg hs, if_pos hc]
    by_cases hr : (env.network_rx_interrupt_ctl st.world 1).1 = 0
    · rw [if_pos hr]
      generalize hto : (if u32 ((env.qman_next_ts (env.network_rx_interrupt_ctl st.world 1).2 ts).1 : Int)
          = 4294967295 then (-1 : Int)
        else ((u32 ((env.qman_next_ts (env.network_rx_interrupt_ctl st.world 1).2 ts).1 : Int)
          / 1000 : Nat) : Int)) = timeout
      generalize hw : env.rte_epoll_wait
        (env.qman_next_ts (env.network_rx_interrupt_ctl st.world 1).2 ts).2 timeout = w
      by_cases hw1 : w.1 = -1
      · rw [if_pos hw1]
        refine ⟨[LoopEvent.qman_next_ts ts _, LoopEvent.rte_epoll_wait timeout w.1], ?_, rfl,
          fun h => absurd hr h, fun _ => ⟨timeout, w.1, [], rfl, rfl⟩, ?_⟩
        · simp [stopOr]
        · intro c h
          cases h
      · rw [if_neg hw1]
        obtain ⟨t, h1, h2, h3⟩ := dataplane_loop_wake_spec env evfd w.2.1 w.1.toNat 0
          { startwait := st.startwait, was_idle := 1, world := w.2.2,
            log := st.log ++ [LoopEvent.network_rx_interrupt_ctl 1
                (env.network_rx_interrupt_ctl st.world 1).1] ++
              [LoopEvent.qman_next_ts ts
                (env.qman_next_ts (env.network_rx_interrupt_ctl st.world 1).2 ts).1] ++
              [LoopEvent.rte_epoll_wait timeout w.1] }
        cases hk : dataplane_loop_wake env evfd w.2.1 w.1.toNat 0
          { startwait := st.startwait, was_idle := 1, world := w.2.2,
            log := st.log ++ [LoopEvent.network_rx_interrupt_ctl 1
                (env.network_rx_interrupt_ctl st.world 1).1] ++
              [LoopEvent.qman_next_ts ts
                (env.qman_next_ts (env.network_rx_interrupt_ctl st.world 1).2 ts).1] ++
              [LoopEvent.rte_epoll_wait timeout w.1] } with
        | error e =>
          rw [hk] at h2
          refine ⟨LoopEvent.qman_next_ts ts _ :: LoopEvent.rte_epoll_wait timeout w.1 :: t, ?_,
            ?_, fun h => absurd hr h, fun _ => ⟨timeout, w.1, t, rfl, eventWaits_reads evfd t h1⟩,
            ?_⟩
          · change e.log = _ at h2
            change e.log = _
            rw [h2]
            simp
          · have := enableRequests_reads evfd t h1
            simpa [enableRequests] using this
          · intro c h
            cases h
        | ok c4 =>
          rw [hk] at h2
          obtain ⟨h4, h5⟩ := h3 c4 hk
          refine ⟨LoopEvent.qman_next_ts ts _ :: LoopEvent.rte_epoll_wait timeout w.1 ::
              (t ++ [LoopEvent.network_rx_interrupt_ctl 0
                (env.network_rx_interrupt_ctl c4.world 0).1]), ?_,
            ?_, fun h => absurd hr h, fun _ => ⟨timeout, w.1, _, rfl, ?_⟩, ?_⟩
          · change c4.log = _ at h2
            change c4.log ++ _ = _
            rw [h2]
            simp
          · have := enableRequests_reads evfd t h1
            simp [enableRequests] at this ⊢
            exact this
          · have := eventWaits_reads evfd t h1
            simp [eventWaits] at this ⊢
            exact this
          · intro c h
            injection h with h
            subst h
            exact ⟨rfl, h5⟩
    · rw [if_neg hr]
      refine ⟨[], rfl, rfl, fun _ => rfl, fun h => absurd h hr, ?_⟩
      intro c h
      injection h with h
      subst h
      exact ⟨rfl, rfl⟩

/-- Witness of C15: an idle iteration at `ts = 300` entered with
`startwait = 100`, interrupts enabled and `POLL_CYCLE = 100`. -/
theorem dataplane_loop_idle_policy_witness :
    ((0 : Nat) = 0 ∧ (100 : Nat) ≠ 0 ∧
      (waitEnv.fp_interrupts ≠ 0 ∧ waitEnv.POLL_CYCLE ≤ u32 ((300 : Int) - (100 : Nat)))) ∧
    ∃ t : List LoopEvent,
      (stopOr id (dataplane_loop_idle waitEnv 7 0 300
          { startwait := 100, was_idle := 1, world := 0, log := [] })).log =
        [] ++ LoopEvent.network_rx_interrupt_ctl 1 0 :: t ∧ enableRequests t = [] :=
  ⟨by decide,
   match (dataplane_loop_idle_policy waitEnv 7 0 300
      { startwait := 100, was_idle := 1, world := 0, log := [] }).2.2.2 rfl (by decide)
      (by decide) with
   | ⟨t, h1, h2, _⟩ => ⟨t, h1, h2⟩⟩

/-- The first idle iteration after an iteration with work records its
timestamp, whatever `startwait` was before. -/
theorem dataplane_loop_first_idle {W : Type} (env : LoopEnv W) (evfd : Int) (n ts0 ts : Nat)
    (st : LoopState W) :
    dataplane_loop_tails env evfd [(n + 1, ts0), (0, ts)] st =
      Except.ok { st with was_idle := 1, startwait := ts } := by
  simp [dataplane_loop_tails, dataplane_loop_idle]

/-! ### The round-robin cursor -/

/-- A NIC that refuses the interrupt request: no wait, and `startwait` is
cleared all the same. -/
theorem dataplane_loop_refused_example :
    (dataplane_loop_tails refuseEnv 7 [(0, 100), (0, 300)] (dataplane_loop_entry 0)).toOption =
      some { startwait := 0, was_idle := 1, world := 0,
             log := [LoopEvent.network_rx_interrupt_ctl 1 (-1)] } := by
  decide

theorem bufcache_free_cursor {W : Type} (env : Env W) (cfg : Config)
    (ctx : dataplane_context W) (h : Handle) :
    (bufcache_free env cfg ctx h).poll_next_ctx = ctx.poll_next_ctx := by
  unfold bufcache_free
  dsimp only
  split <;> rfl

theorem tx_flush_cursor {W : Type} (env : Env W) (ctx : dataplane_context W) :
    (tx_flush env ctx).poll_next_ctx = ctx.poll_next_ctx := by
  unfold tx_flush
  dsimp only
  split
  · rfl
  · split
    · rfl
    · split <;> rfl

theorem arx_reserve_cursor {W : Type} (env : Env W) (k i : Nat) (ctx : dataplane_context W)
    (parx : Nat → Slot) :
    (stopOr (fun r => r.1) (arx_reserve env k i ctx parx)).poll_next_ctx =
      ctx.poll_next_ctx := by
  induction k generalizing i ctx parx with
  | zero => rfl
  | succ k ih =>
    unfold arx_reserve
    dsimp only
    split
    · rfl
    · rw [ih]

theorem arx_copy_cursor {W : Type} (env : Env W) (parx : Nat → Slot) (k i : Nat)
    (ctx : dataplane_context W) :
    (arx_copy env parx k i ctx).poll_next_ctx = ctx.poll_next_ctx := by
  induction k generalizing i ctx with
  | zero => rfl
  | succ k ih =>
    unfold arx_copy
    rw [ih]

theorem arx_kick_cursor {W : Type} (env : Env W) (ts : Nat) (k i : Nat)
    (ctx : dataplane_context W) :
    (arx_kick env ts k i ctx).poll_next_ctx = ctx.poll_next_ctx := by
  induction k generalizing i ctx with
  | zero => rfl
  | succ k ih =>
    unfold arx_kick
    rw [ih]

theorem arx_cache_flush_cursor {W : Type} (env : Env W) (ctx : dataplane_context W) (ts : Nat) :
    (stopOr id (arx_cache_flush env ctx ts)).poll_next_ctx = ctx.poll_next_ctx := by
  have h := arx_reserve_cursor env ctx.sh.arx_num 0 ctx (fun _ => 0)
  unfold arx_cache_flush
  cases hr : arx_reserve env ctx.sh.arx_num 0 ctx (fun _ => 0) with
  | error c =>
    rw [hr] at h
    exact h
  | ok r =>
    rw [hr] at h
    show (arx_kick env ts _ 0 (arx_copy env r.2 r.1.sh.arx_num 0 r.1)).poll_next_ctx = _
    rw [arx_kick_cursor, arx_copy_cursor]
    exact h

theorem poll_rx_fastpath_cursor {W : Type} (env : Env W) (ts : Nat) (bhs : Nat → Handle)
    (fss : Nat → Option FlowState) (tcpopts : Nat → TcpOpts) (i : Nat)
    (ctx : dataplane_context W) :
    (poll_rx_fastpath env ts bhs fss tcpopts i ctx).2.poll_next_ctx = ctx.poll_next_ctx := by
  unfold poll_rx_fastpath
  split <;> rfl

theorem poll_rx_dispatch_cursor {W : Type} (env : Env W) (ts : Nat) (bhs : Nat → Handle)
    (fss : Nat → Option FlowState) (tcpopts : Nat → TcpOpts) (k i : Nat)
    (ctx : dataplane_context W) (freebuf : Nat → Nat) :
    (poll_rx_dispatch env ts bhs fss tcpopts k i ctx freebuf).1.poll_next_ctx =
      ctx.poll_next_ctx := by
  induction k generalizing i ctx freebuf with
  | zero => rfl
  | succ k ih =>
    have h := poll_rx_fastpath_cursor env ts bhs fss tcpopts i ctx
    unfold poll_rx_dispatch
    dsimp only
    split
    · rw [ih, h]
    · split
      · rw [ih]
        exact h
      · rw [ih, h]

theorem poll_rx_free_cursor {W : Type} (env : Env W) (cfg : Config) (bhs : Nat → Handle)
    (freebuf : Nat → Nat) (k i : Nat) (ctx : dataplane_context W) :
    (poll_rx_free env cfg bhs freebuf k i ctx).poll_next_ctx = ctx.poll_next_ctx := by
  induction k generalizing i ctx with
  | zero => rfl
  | succ k ih =>
    unfold poll_rx_free
    rw [ih]
    split
    · exact bufcache_free_cursor env cfg ctx (bhs i)
    · rfl

theorem poll_rx_cursor {W : Type} (env : Env W) (cfg : Config) (ctx : dataplane_context W)
    (ts : Nat) : (finalCtx (poll_rx env cfg ctx ts)).poll_next_ctx = ctx.poll_next_ctx := by
  unfold poll_rx
  dsimp only
  split
  · rfl
  · have h1 := poll_rx_dispatch_cursor env ts (poll_rx_recv env cfg ctx).2.1
      (poll_rx_lookup env (poll_rx_recv env cfg ctx).2.1 (u32 (poll_rx_recv env cfg ctx).1)
        (poll_rx_recv env cfg ctx).2.2).1
      (poll_rx_lookup env (poll_rx_recv env cfg ctx).2.1 (u32 (poll_rx_recv env cfg ctx).1)
        (poll_rx_recv env cfg ctx).2.2).2.1
      (u32 (poll_rx_recv env cfg ctx).1) 0
      (poll_rx_lookup env (poll_rx_recv env cfg ctx).2.1 (u32 (poll_rx_recv env cfg ctx).1)
        (poll_rx_recv env cfg ctx).2.2).2.2 (fun _ => 0)
    generalize poll_rx_dispatch env ts (poll_rx_recv env cfg ctx).2.1
      (poll_rx_lookup env (poll_rx_recv env cfg ctx).2.1 (u32 (poll_rx_recv env cfg ctx).1)
        (poll_rx_recv env cfg ctx).2.2).1
      (poll_rx_lookup env (poll_rx_recv env cfg ctx).2.1 (u32 (poll_rx_recv env cfg ctx).1)
        (poll_rx_recv env cfg ctx).2.2).2.1
      (u32 (poll_rx_recv env cfg ctx).1) 0
      (poll_rx_lookup env (poll_rx_recv env cfg ctx).2.1 (u32 (poll_rx_recv env cfg ctx).1)
        (poll_rx_recv env cfg ctx).2.2).2.2 (fun _ => 0) = d at h1 ⊢
    have h2 := arx_cache_flush_cursor env d.1 ts
    cases hf : arx_cache_flush env d.1 ts with
    | error c =>
      rw [hf] at h2
      exact h2.trans h1
    | ok c =>
      rw [hf] at h2
      show (poll_rx_free env cfg _ d.2 _ 0 c).poll_next_ctx = _
      rw [poll_rx_free_cursor]
      exact h2.trans h1

theorem poll_qman_fwd_run_cursor {W : Type} (env : Env W) (flow_states : Nat → FlowState)
    (k i : Nat) (ctx : dataplane_context W) :
    (poll_qman_fwd_run env flow_states k i ctx).poll_next_ctx = ctx.poll_next_ctx := by
  induction k generalizing i ctx with
  | zero => rfl
  | succ k ih =>
    unfold poll_qman_fwd_run
    rw [ih]

theorem poll_qman_fwd_cursor {W : Type} (env : Env W) (cfg : Config)
    (ctx : dataplane_context W) :
    (poll_qman_fwd env cfg ctx).2.poll_next_ctx = ctx.poll_next_ctx := by
  unfold poll_qman_fwd
  dsimp only
  rw [poll_qman_fwd_run_cursor]

theorem poll_qman_send_cursor {W : Type} (env : Env W) (ts : Nat) (q_ids : Nat → Nat)
    (hoff : Nat) (k i : Nat) (ctx : dataplane_context W) (off : Nat) :
    (poll_qman_send env ts q_ids hoff k i ctx off).1.poll_next_ctx = ctx.poll_next_ctx := by
  induction k generalizing i ctx off with
  | zero => rfl
  | succ k ih =>
    unfold poll_qman_send
    dsimp only
    rw [ih]

theorem bufcache_alloc_cursor {W : Type} (cfg : Config) (ctx : dataplane_context W) (n : Nat)
    (r : Except (dataplane_context W) (dataplane_context W))
    (h : bufcache_alloc cfg ctx n = r) :
    (stopOr id r).poll_next_ctx = ctx.poll_next_ctx := by
  subst h
  exact (bufcache_alloc_sameFetch cfg ctx n).1

theorem poll_qman_cursor {W : Type} (env : Env W) (cfg : Config) (ctx : dataplane_context W)
    (ts : Nat) : (finalCtx (poll_qman env cfg ctx ts)).poll_next_ctx = ctx.poll_next_ctx := by
  have h1 := (bufcache_prealloc_sameFetch env cfg ctx (poll_max cfg ctx)).1
  unfold poll_qman
  dsimp only
  generalize bufcache_prealloc env cfg ctx (poll_max cfg ctx) = pre at h1 ⊢
  split
  · exact h1
  · split
    · next c hc =>
      have h3 := bufcache_alloc_cursor _ _ _ _ hc
      rw [poll_qman_send_cursor] at h3
      exact h3.trans h1
    · next c hc =>
      have h3 := bufcache_alloc_cursor _ _ _ _ hc
      rw [poll_qman_send_cursor] at h3
      exact h3.trans h1

theorem poll_kernel_loop_cursor {W : Type} (env : Env W) (ts off max : Nat) (fuel : Nat)
    (st st' : KernelState W) (h : poll_kernel_loop env ts off max fuel st = some st') :
    st'.ctx.poll_next_ctx = st.ctx.poll_next_ctx := by
  induction fuel generalizing st with
  | zero => simp [poll_kernel_loop] at h
  | succ fuel ih =>
    unfold poll_kernel_loop at h
    dsimp only at h
    split at h
    · split at h
      · have h2 := ih _ h
        exact h2
      · split at h
        · injection h with h
          subst h
          rfl
        · have h2 := ih _ h
          exact h2
    · injection h with h
      subst h
      rfl

theorem poll_kernel_cursor {W : Type} (env : Env W) (cfg : Config) (fuel : Nat)
    (ctx : dataplane_context W) (ts : Nat)
    (r : Except (dataplane_context W) (Nat × dataplane_context W))
    (h : poll_kernel env cfg fuel ctx ts = some r) :
    (finalCtx r).poll_next_ctx = ctx.poll_next_ctx := by
  unfold poll_kernel at h
  dsimp only at h
  generalize (if poll_max cfg ctx > 8 then 8 else poll_max cfg ctx) = max1 at h
  have h1 := (bufcache_prealloc_sameFetch env cfg ctx max1).1
  generalize bufcache_prealloc env cfg ctx max1 = pre at h h1
  split at h
  · cases h
  · next st hst =>
    have h2 := poll_kernel_loop_cursor env ts _ _ _ _ _ hst
    split at h
    · next c hc =>
      have h3 := bufcache_alloc_cursor _ _ _ _ hc
      injection h with h
      subst h
      exact (h3.trans h2).trans h1
    · next c hc =>
      have h3 := bufcache_alloc_cursor _ _ _ _ hc
      injection h with h
      subst h
      exact (h3.trans h2).trans h1

theorem poll_queues_cursor {W : Type} (env : Env W) (cfg : Config) (ctx : dataplane_context W)
    (ts : Nat) (hp : ctx.poll_next_ctx < cfg.FLEXNIC_PL_APPCTX_NUM) :
    (finalCtx (poll_queues env cfg ctx ts)).poll_next_ctx =
      (ctx.poll_next_ctx + poll_queues_scanned env cfg ctx) % cfg.FLEXNIC_PL_APPCTX_NUM := by
  have h1 := bufcache_prealloc_sameFetch env cfg ctx (poll_max cfg ctx)
  have h2 := poll_queues_pf_sameFetch env cfg cfg.FLEXNIC_PL_APPCTX_NUM 0
    (bufcache_prealloc env cfg ctx (poll_max cfg ctx)).2.2
  have h12 := sameFetch_trans h1 h2
  obtain ⟨calls, -, -, c3, -⟩ := poll_queues_fetch_calls env cfg
    (bufcache_prealloc env cfg ctx (poll_max cfg ctx)).1 cfg.FLEXNIC_PL_APPCTX_NUM
    { ctx := poll_queues_pf env cfg cfg.FLEXNIC_PL_APPCTX_NUM 0
        (bufcache_prealloc env cfg ctx (poll_max cfg ctx)).2.2
      aqes := fun _ => 0, k := 0, total := 0 }
    ctx.poll_next_ctx 0
    (by show (poll_queues_pf env cfg cfg.FLEXNIC_PL_APPCTX_NUM 0
          (bufcache_prealloc env cfg ctx (poll_max cfg ctx)).2.2).poll_next_ctx = _
        rw [h12.1, Nat.add_zero, Nat.mod_eq_of_lt hp])
  rw [Nat.add_zero] at c3
  unfold poll_queues_scanned
  rw [← c3]
  unfold poll_queues
  dsimp only
  split
  · next c hc =>
    have h3 := bufcache_alloc_cursor _ _ _ _ hc
    rw [(poll_queues_bump_sameFetch env ts _ _ _ _ _ _).1] at h3
    exact h3
  · next c hc =>
    have h3 := bufcache_alloc_cursor _ _ _ _ hc
    rw [(poll_queues_bump_sameFetch env ts _ _ _ _ _ _).1] at h3
    show (poll_queues_probe env cfg.FLEXNIC_PL_APPCTX_NUM 0 c).poll_next_ctx = _
    rw [(poll_queues_probe_sameFetch env _ _ _).1]
    exact h3

theorem poll_queues_scanned_zero {W : Type} (env : Env W) (cfg : Config)
    (ctx : dataplane_context W)
    (h : (bufcache_prealloc env cfg ctx (poll_max cfg ctx)).1 = 0) :
    poll_queues_scanned env cfg ctx = 0 := by
  unfold poll_queues_scanned
  rw [h, poll_queues_fetch_zero]

theorem dataplane_context_init_cursor {W : Type} (ienv : InitEnv W) (ctx : dataplane_context W)
    (evfd e : Int) (c : dataplane_context W)
    (h : dataplane_context_init ienv ctx evfd = Except.ok (0, e, c)) :
    c.poll_next_ctx = ctx.id := by
  unfold dataplane_context_init at h
  dsimp only at h
  split at h
  · simp at h
  · split at h
    · simp at h
    · split at h
      · simp at h
      · split at h
        · cases h
        · split at h
          · cases h
          · injection h with h
            injection h with h1 h2
            injection h2 with h2 h3
            subst h3
            rfl

theorem dataplane_init_cores (ic : InitConfig) (h : dataplane_init ic = 0) :
    ic.fp_cores_max ≤ ic.FLEXNIC_PL_APPST_CTX_MCS := by
  unfold dataplane_init at h
  split at h
  · simp at h
  · split at h
    · simp at h
    · omega

/-- C16: when `dataplane_init` accepted the configuration (so that
`fp_cores_max <= FLEXNIC_PL_APPST_CTX_MCS`) and that bound is within the number
of application contexts, `poll_next_ctx < FLEXNIC_PL_APPCTX_NUM` holds in every
reachable context state: `dataplane_context_init` sets the cursor to the worker
index, which is below `fp_cores_max`; `poll_queues` leaves a cursor in range,
also when the process stops in it, and leaves it unchanged when it
scans no context because no buffer could be reserved; the other polls and
`tx_flush` do not change it. -/
theorem poll_next_ctx_in_range {W : Type} (ic : InitConfig) (ienv : InitEnv W) (env : Env W)
    (cfg : Config) (hinit : dataplane_init ic = 0)
    (hmcs : ic.FLEXNIC_PL_APPST_CTX_MCS ≤ cfg.FLEXNIC_PL_APPCTX_NUM) :
    (∀ c, Reachable ic ienv env cfg c → c.poll_next_ctx < cfg.FLEXNIC_PL_APPCTX_NUM) ∧
    (∀ c0 evfd e c, c0.id < ic.fp_cores_max →
      dataplane_context_init ienv c0 evfd = Except.ok (0, e, c) →
      c.poll_next_ctx = c0.id ∧ c.poll_next_ctx < cfg.FLEXNIC_PL_APPCTX_NUM) ∧
    (∀ ctx ts, ctx.poll_next_ctx < cfg.FLEXNIC_PL_APPCTX_NUM →
      (finalCtx (poll_queues env cfg ctx ts)).poll_next_ctx < cfg.FLEXNIC_PL_APPCTX_NUM) ∧
    (∀ ctx ts, ctx.poll_next_ctx < cfg.FLEXNIC_PL_APPCTX_NUM →
      (bufcache_prealloc env cfg ctx (poll_max cfg ctx)).1 = 0 →
      (finalCtx (poll_queues env cfg ctx ts)).poll_next_ctx = ctx.poll_next_ctx) := by
  have hcores := dataplane_init_cores ic hinit
  have hq : ∀ (ctx : dataplane_context W) (ts : Nat),
      ctx.poll_next_ctx < cfg.FLEXNIC_PL_APPCTX_NUM →
      (finalCtx (poll_queues env cfg ctx ts)).poll_next_ctx < cfg.FLEXNIC_PL_APPCTX_NUM := by
    intro ctx ts hp
    rw [poll_queues_cursor env cfg ctx ts hp]
    exact Nat.mod_lt _ (by omega)
  have hi : ∀ (c0 : dataplane_context W) (evfd e : Int) (c : dataplane_context W),
      c0.id < ic.fp_cores_max →
      dataplane_context_init ienv c0 evfd = Except.ok (0, e, c) →
      c.poll_next_ctx = c0.id ∧ c.poll_next_ctx < cfg.FLEXNIC_PL_APPCTX_NUM := by
    intro c0 evfd e c hid h
    have := dataplane_context_init_cursor ienv c0 evfd e c h
    exact ⟨this, by omega⟩
  refine ⟨?_, hi, hq, ?_⟩
  · intro c hc
    induction hc with
    | init c0 evfd e c hid h => exact (hi c0 evfd e c hid h).2
    | poll_rx c ts r _ h ih =>
      have := poll_rx_cursor env cfg c ts
      rw [h] at this
      change r.2.poll_next_ctx = _ at this
      omega
    | tx_flush c _ ih =>
      rw [tx_flush_cursor]
      exact ih
    | poll_qman_fwd c _ ih =>
      rw [poll_qman_fwd_cursor]
      exact ih
    | poll_qman c ts r _ h ih =>
      have := poll_qman_cursor env cfg c ts
      rw [h] at this
      change r.2.poll_next_ctx = _ at this
      omega
    | poll_queues c ts r _ h ih =>
      have := hq c ts ih
      rw [h] at this
      exact this
    | poll_kernel c fuel ts r _ h ih =>
      have := poll_kernel_cursor env cfg fuel c ts _ h
      change r.2.poll_next_ctx = _ at this
      omega
  · intro ctx ts hp hz
    rw [poll_queues_cursor env cfg ctx ts hp, poll_queues_scanned_zero env cfg ctx hz,
      Nat.add_zero, Nat.mod_eq_of_lt hp]

/-- Witness of C16: four cores, four application contexts; the worker with
index 3 starts with the cursor at 3. -/
theorem poll_next_ctx_in_range_witness :
    (dataplane_init exampleInit = 0 ∧
      exampleInit.FLEXNIC_PL_APPST_CTX_MCS ≤ exampleCfg.FLEXNIC_PL_APPCTX_NUM) ∧
    ∀ c, Reachable exampleInit okInitEnv quietEnv exampleCfg c →
      c.poll_next_ctx < exampleCfg.FLEXNIC_PL_APPCTX_NUM :=
  ⟨by decide, (poll_next_ctx_in_range exampleInit okInitEnv quietEnv exampleCfg (by decide)
    (by decide)).1⟩

/-- The state after the initialisation of worker 3 and one round of
`poll_queues` is reachable, with the cursor at 3 after the initialisation. -/
theorem reachable_example :
    ∃ c r, dataplane_context_init okInitEnv { exampleCtx 0 0 0 with id := 3 } 0 =
        Except.ok (0, 7, c) ∧ c.poll_next_ctx = 3 ∧
      poll_queues quietEnv exampleCfg c 0 = Except.ok r ∧
      Reachable exampleInit okInitEnv quietEnv exampleCfg r.2 := by
  refine ⟨_, _, rfl, rfl, rfl, ?_⟩
  exact Reachable.poll_queues _ 0 _
    (Reachable.init { exampleCtx 0 0 0 with id := 3 } 0 7 _ (by decide) rfl) rfl

/-! ### Work counted by the application-queue poll -/

/-- Counterexample to C17: four contexts hold one descriptor each; the poll
makes eight fetch calls, four of which find the context empty and skip to the
next context, and returns 4, the number of descriptors fetched. -/
theorem poll_queues_skips_not_counted :
    pollCount (poll_queues rrEnv exampleCfg (rrCtx 0) 0) = some 4 ∧
    fetchCalls (finalCtx (poll_queues rrEnv exampleCfg (rrCtx 0) 0)).trace =
      [(2, 0), (2, -1), (3, 0), (3, -1), (0, 0), (0, -1), (1, 0), (1, -1)] ∧
    fetched (finalCtx (poll_queues rrEnv exampleCfg (rrCtx 0) 0)).trace = 4 ∧
    fetchMisses (finalCtx (poll_queues rrEnv exampleCfg (rrCtx 0) 0)).trace = 4 := by
  decide

theorem fetched_snoc (t : List Event) (a : Nat) (r : Int) :
    fetched (t ++ [Event.fast_appctx_poll_fetch a r]) =
      fetched t + (if r = 0 then 1 else 0) := by
  unfold fetched
  rw [fetchCalls_append]
  by_cases h : r = 0 <;> simp [fetchCalls, h]

theorem sameCache_refl {W : Type} (c : dataplane_context W) : SameCache c c := ⟨rfl, rfl, rfl⟩

theorem sameCache_trans {W : Type} {c d e : dataplane_context W} (h1 : SameCache c d)
    (h2 : SameCache d e) : SameCache c e :=
  ⟨h2.1.trans h1.1, h2.2.1.trans h1.2.1, h2.2.2.trans h1.2.2⟩

theorem poll_queues_fetch_ctx_count {W : Type} (env : Env W) (max : Nat) (hmax : max < 65536)
    (r : Nat) (st : FetchState W) (hk : st.k ≤ max) (ht : st.total = st.k) :
    (poll_queues_fetch_ctx env max r st).k ≤ max ∧
    (poll_queues_fetch_ctx env max r st).total = (poll_queues_fetch_ctx env max r st).k ∧
    fetched (poll_queues_fetch_ctx env max r st).ctx.trace + st.k =
      fetched st.ctx.trace + (poll_queues_fetch_ctx env max r st).k ∧
    SameCache st.ctx (poll_queues_fetch_ctx env max r st).ctx := by
  induction r generalizing st with
  | zero => exact ⟨hk, ht, rfl, sameCache_refl _⟩
  | succ r ih =>
    unfold poll_queues_fetch_ctx
    dsimp only
    by_cases hlt : st.k < max
    · rw [if_pos hlt]
      by_cases h0 : (env.fast_appctx_poll_fetch st.ctx.sh st.ctx.poll_next_ctx).1 = 0
      · rw [if_pos h0]
        have hu : u16 ((st.k + 1 : Nat) : Int) = st.k + 1 := u16_of_lt _ (by omega)
        have hv : u32 ((st.total + 1 : Nat) : Int) = st.k + 1 := by
          rw [ht]
          exact u32_of_lt _ (by omega)
        rw [hu, hv]
        obtain ⟨h1, h2, h3, h4⟩ := ih
          { ctx := { st.ctx with
              sh := (env.fast_appctx_poll_fetch st.ctx.sh st.ctx.poll_next_ctx).2.2
              trace := st.ctx.trace ++ [Event.fast_appctx_poll_fetch st.ctx.poll_next_ctx
                (env.fast_appctx_poll_fetch st.ctx.sh st.ctx.poll_next_ctx).1] }
            aqes := Function.update st.aqes st.k
              (env.fast_appctx_poll_fetch st.ctx.sh st.ctx.poll_next_ctx).2.1
            k := st.k + 1
            total := st.k + 1 } (by show st.k + 1 ≤ max; omega) rfl
        dsimp only at h3 h4
        rw [fetched_snoc, if_pos h0] at h3
        exact ⟨h1, h2, by omega, h4⟩
      · rw [if_neg h0]
        refine ⟨hk, ht, ?_, sameCache_refl _⟩
        dsimp only
        rw [fetched_snoc, if_neg h0]
        rfl
    · rw [if_neg hlt]
      exact ⟨hk, ht, rfl, sameCache_refl _⟩

theorem poll_queues_fetch_count {W : Type} (env : Env W) (cfg : Config) (max : Nat)
    (hmax : max < 65536) (r : Nat) (st : FetchState W) (hk : st.k ≤ max)
    (ht : st.total = st.k) :
    (poll_queues_fetch env cfg max r st).1.k ≤ max ∧
    (poll_queues_fetch env cfg max r st).1.total = (poll_queues_fetch env cfg max r st).1.k ∧
    fetched (poll_queues_fetch env cfg max r st).1.ctx.trace + st.k =
      fetched st.ctx.trace + (poll_queues_fetch env cfg max r st).1.k ∧
    SameCache st.ctx (poll_queues_fetch env cfg max r st).1.ctx := by
  induction r generalizing st with
  | zero => exact ⟨hk, ht, rfl, sameCache_refl _⟩
  | succ r ih =>
    unfold poll_queues_fetch
    dsimp only
    by_cases hlt : st.k < max
    · rw [if_pos hlt]
      obtain ⟨a1, a2, a3, a4⟩ :=
        poll_queues_fetch_ctx_count env max hmax (u32 cfg.BATCH_SIZE) st hk ht
      generalize poll_queues_fetch_ctx env max (u32 cfg.BATCH_SIZE) st = st1 at a1 a2 a3 a4 ⊢
      obtain ⟨h1, h2, h3, h4⟩ := ih
        { st1 with ctx := { st1.ctx with
            poll_next_ctx := (st1.ctx.poll_next_ctx + 1) % cfg.FLEXNIC_PL_APPCTX_NUM } } a1 a2
      dsimp only at h1 h2 h3 h4 ⊢
      exact ⟨h1, h2, by omega, sameCache_trans a4 h4⟩
    · rw [if_neg hlt]
      exact ⟨hk, ht, rfl, sameCache_refl _⟩

theorem poll_queues_bump_count {W : Type} (env : Env W) (ts : Nat) (aqes : Nat → Aqe)
    (off r j : Nat) (ctx : dataplane_context W) (nb : Nat) (h16 : nb + r < 65536) :
    (poll_queues_bump env ts aqes off r j ctx nb).2 ≤ nb + r ∧
    SameCache ctx (poll_queues_bump env ts aqes off r j ctx nb).1 := by
  induction r generalizing j ctx nb with
  | zero => exact ⟨Nat.le_refl _, sameCache_refl _⟩
  | succ r ih =>
    unfold poll_queues_bump
    dsimp only
    split
    · have hu : u16 ((nb + 1 : Nat) : Int) = nb + 1 := u16_of_lt _ (by omega)
      rw [hu]
      have h := ih (u16 ((j + 1 : Nat) : Int))
        { ctx with
          sh := (env.fast_appctx_poll_bump ctx.sh (aqes j) (ctx.bufcache_handles (off + nb)) ts).2
          trace := ctx.trace ++ [Event.fast_appctx_poll_bump (aqes j)
            (ctx.bufcache_handles (off + nb))
            (env.fast_appctx_poll_bump ctx.sh (aqes j) (ctx.bufcache_handles (off + nb)) ts).1] }
        (nb + 1) (by omega)
      exact ⟨by omega, h.2⟩
    · have h := ih (u16 ((j + 1 : Nat) : Int))
        { ctx with
          sh := (env.fast_appctx_poll_bump ctx.sh (aqes j) (ctx.bufcache_handles (off + nb)) ts).2
          trace := ctx.trace ++ [Event.fast_appctx_poll_bump (aqes j)
            (ctx.bufcache_handles (off + nb))
            (env.fast_appctx_poll_bump ctx.sh (aqes j) (ctx.bufcache_handles (off + nb)) ts).1] }
        nb (by omega)
      exact ⟨by omega, h.2⟩

theorem fetched_of_sameFetch {W : Type} {c d : dataplane_context W} (h : SameFetch c d) :
    fetched d.trace = fetched c.trace := by
  unfold fetched
  rw [h.2]

theorem poll_queues_returns {W : Type} (env : Env W) (cfg : Config)
    (ctx : dataplane_context W) (ts : Nat) (hhead : ctx.bufcache_head ≤ cfg.BUFCACHE_SIZE) :
    ∃ n c, poll_queues env cfg ctx ts = Except.ok (n, c) ∧
      fetched c.trace = fetched ctx.trace + n ∧
      n ≤ (bufcache_prealloc env cfg ctx (poll_max cfg ctx)).1 := by
  have hlt := bufcache_prealloc_lt_256 env cfg ctx (poll_max cfg ctx)
  have hnum := bufcache_prealloc_le_num env cfg ctx (poll_max cfg ctx) hhead
  have h1 := bufcache_prealloc_sameFetch env cfg ctx (poll_max cfg ctx)
  unfold poll_queues
  dsimp only
  generalize bufcache_prealloc env cfg ctx (poll_max cfg ctx) = pre at hlt hnum h1 ⊢
  have h2 := poll_queues_pf_sameFetch env cfg cfg.FLEXNIC_PL_APPCTX_NUM 0 pre.2.2
  have p2 := (poll_queues_pf_trace env cfg cfg.FLEXNIC_PL_APPCTX_NUM 0 pre.2.2).1
  generalize poll_queues_pf env cfg cfg.FLEXNIC_PL_APPCTX_NUM 0 pre.2.2 = c1 at h2 p2 ⊢
  obtain ⟨f1, f2, f3, f4⟩ := poll_queues_fetch_count env cfg pre.1 (by omega)
    cfg.FLEXNIC_PL_APPCTX_NUM { ctx := c1, aqes := fun _ => 0, k := 0, total := 0 }
    (Nat.zero_le _) rfl
  dsimp only at f3 f4
  generalize poll_queues_fetch env cfg pre.1 cfg.FLEXNIC_PL_APPCTX_NUM
    { ctx := c1, aqes := fun _ => 0, k := 0, total := 0 } = f at f1 f2 f3 f4 ⊢
  obtain ⟨b1, b2⟩ := poll_queues_bump_count env ts f.1.aqes pre.2.1 f.1.k 0 f.1.ctx 0 (by omega)
  have b3 := poll_queues_bump_sameFetch env ts f.1.aqes pre.2.1 f.1.k 0 f.1.ctx 0
  generalize poll_queues_bump env ts f.1.aqes pre.2.1 f.1.k 0 f.1.ctx 0 = b at b1 b2 b3 ⊢
  have hle : b.2 ≤ b.1.bufcache_num := by
    rw [b2.2.1, f4.2.1, p2.2.2.2.1]
    omega
  unfold bufcache_alloc
  rw [if_pos hle]
  dsimp only
  refine ⟨_, _, rfl, ?_, by omega⟩
  have h5 := poll_queues_probe_sameFetch env cfg.FLEXNIC_PL_APPCTX_NUM 0
    { b.1 with
      bufcache_head := (b.1.bufcache_head + b.2) &&& (cfg.BUFCACHE_SIZE - 1)
      bufcache_num := b.1.bufcache_num - b.2 }
  rw [fetched_of_sameFetch h5]
  show fetched b.1.trace = _
  rw [fetched_of_sameFetch b3, ← fetched_of_sameFetch h1, ← fetched_of_sameFetch h2, f2]
  omega

/-- C17 (amended): the count `poll_queues` returns is the number of TX
descriptors it fetched, that is the number of its fetch calls that returned 0;
a fetch that finds a context empty ends the scan of that context and is not
counted.  With the cache head inside the ring the poll returns, and the count
is at most the number of handles reserved. -/
theorem poll_queues_counts_fetched {W : Type} (env : Env W) (cfg : Config)
    (ctx : dataplane_context W) (ts : Nat) (hhead : ctx.bufcache_head ≤ cfg.BUFCACHE_SIZE) :
    ∃ n c, poll_queues env cfg ctx ts = Except.ok (n, c) ∧
      fetched c.trace = fetched ctx.trace + n ∧
      n ≤ (bufcache_prealloc env cfg ctx (poll_max cfg ctx)).1 :=
  poll_queues_returns env cfg ctx ts hhead

/-! ### Batch and order of the RX poll -/

/-- Witness of C17: the four contexts with one descriptor each. -/
theorem poll_queues_counts_fetched_witness :
    (rrCtx 0).bufcache_head ≤ exampleCfg.BUFCACHE_SIZE ∧
    ∃ n c, poll_queues rrEnv exampleCfg (rrCtx 0) 0 = Except.ok (n, c) ∧
      fetched c.trace = fetched (rrCtx 0).trace + n ∧
      n ≤ (bufcache_prealloc rrEnv exampleCfg (rrCtx 0) (poll_max exampleCfg (rrCtx 0))).1 :=
  ⟨by decide, poll_queues_counts_fetched rrEnv exampleCfg (rrCtx 0) 0 (by decide)⟩

theorem pollCalls_append (t u : List Event) :
    pollCalls (t ++ u) = pollCalls t ++ pollCalls u := by
  simp [pollCalls, List.filterMap_append]

theorem pollCalls_of_rxTail (t : List Event) (h : ∀ e ∈ t, rxTail e = true) :
    pollCalls t = [] := by
  induction t with
  | nil => rfl
  | cons e t ih =>
    have he := h e (List.mem_cons_self e t)
    have ht := ih (fun x hx => h x (List.mem_cons_of_mem e hx))
    cases e <;> simp [rxTail] at he <;> simpa [pollCalls] using ht

theorem poll_rx_bound_eq_min {W : Type} (cfg : Config) (ctx : dataplane_context W)
    (htx : ctx.sh.tx_num ≤ cfg.TXBUF_SIZE) (hb : cfg.BATCH_SIZE < 4294967296)
    (ht : cfg.TXBUF_SIZE < 4294967296) :
    poll_rx_bound cfg ctx = min cfg.BATCH_SIZE (cfg.TXBUF_SIZE - ctx.sh.tx_num) := by
  unfold poll_rx_bound u32
  split <;> omega

theorem filterMap_zip_fst {β : Type} (l : List Nat) (rets : List Int)
    (h : l.length = rets.length) (g : Nat → Option β) :
    (l.zip rets).filterMap (fun p => g p.1) = l.filterMap g := by
  have h1 : (l.zip rets).filterMap (fun p => g p.1) =
      ((l.zip rets).map Prod.fst).filterMap g := by
    rw [List.filterMap_map]
    rfl
  rw [h1, List.map_fst_zip _ _ (Nat.le_of_eq h)]

theorem poll_rx_flow_frames {W : Type} (env : Env W) (cfg : Config)
    (ctx : dataplane_context W) (ts : Nat) :
    flowFrames (finalCtx (poll_rx env cfg ctx ts)).trace =
      flowFrames ctx.trace ++
        (List.range (if (poll_rx_recv env cfg ctx).1 ≤ 0 then 0
            else u32 (poll_rx_recv env cfg ctx).1)).filterMap
          (fun i => (poll_rx_fss env cfg ctx i).map fun fs =>
            (poll_rx_bhs env cfg ctx i, fs)) := by
  have hrecv := poll_rx_recv_sameRx env cfg ctx
  unfold poll_rx flowFrames
  dsimp only
  by_cases hret : (poll_rx_recv env cfg ctx).1 ≤ 0
  · rw [if_pos hret, if_pos hret]
    show List.map _ (flowCalls (poll_rx_recv env cfg ctx).2.2.trace) = _
    rw [hrecv.1]
    simp
  · rw [if_neg hret, if_neg hret]
    have hlook := poll_rx_lookup_sameRx env (poll_rx_recv env cfg ctx).2.1
      (u32 (poll_rx_recv env cfg ctx).1) (poll_rx_recv env cfg ctx).2.2
    have h0 := sameRx_trans hrecv hlook
    obtain ⟨rets, hl, -, hflow, -, -, -⟩ :=
      poll_rx_dispatch_spec env ts (poll_rx_recv env cfg ctx).2.1
        (poll_rx_lookup env (poll_rx_recv env cfg ctx).2.1 (u32 (poll_rx_recv env cfg ctx).1)
          (poll_rx_recv env cfg ctx).2.2).1
        (poll_rx_lookup env (poll_rx_recv env cfg ctx).2.1 (u32 (poll_rx_recv env cfg ctx).1)
          (poll_rx_recv env cfg ctx).2.2).2.1
        (u32 (poll_rx_recv env cfg ctx).1) 0
        (poll_rx_lookup env (poll_rx_recv env cfg ctx).2.1 (u32 (poll_rx_recv env cfg ctx).1)
          (poll_rx_recv env cfg ctx).2.2).2.2
        (fun _ => 0) (fun _ _ => rfl)
    rw [← List.range_eq_range', h0.1] at hflow
    have hfin : flowCalls (finalCtx (poll_rx env cfg ctx ts)).trace =
        flowCalls ctx.trace ++ ((List.range (u32 (poll_rx_recv env cfg ctx).1)).zip rets).filterMap
          (fun p => (poll_rx_fss env cfg ctx p.1).map fun fs =>
            (poll_rx_bhs env cfg ctx p.1, fs, p.2)) := by
      unfold poll_rx
      dsimp only
      rw [if_neg hret]
      generalize poll_rx_dispatch env ts (poll_rx_recv env cfg ctx).2.1
        (poll_rx_lookup env (poll_rx_recv env cfg ctx).2.1 (u32 (poll_rx_recv env cfg ctx).1)
          (poll_rx_recv env cfg ctx).2.2).1
        (poll_rx_lookup env (poll_rx_recv env cfg ctx).2.1 (u32 (poll_rx_recv env cfg ctx).1)
          (poll_rx_recv env cfg ctx).2.2).2.1
        (u32 (poll_rx_recv env cfg ctx).1) 0
        (poll_rx_lookup env (poll_rx_recv env cfg ctx).2.1 (u32 (poll_rx_recv env cfg ctx).1)
          (poll_rx_recv env cfg ctx).2.2).2.2
        (fun _ => 0) = d at hflow ⊢
      have hflush := arx_cache_flush_sameRx env d.1 ts
      cases hfl : arx_cache_flush env d.1 ts with
      | error c =>
        rw [hfl] at hflush
        exact hflush.1.trans hflow
      | ok c4 =>
        rw [hfl] at hflush
        show flowCalls (poll_rx_free env cfg _ d.2 _ 0 c4).trace = _
        rw [(poll_rx_free_trace env cfg _ d.2 _ 0 c4).1]
        exact hflush.1.trans hflow
    unfold poll_rx at hfin
    dsimp only at hfin
    rw [if_neg hret] at hfin
    rw [hfin, List.map_append, List.map_filterMap]
    congr 1
    rw [← filterMap_zip_fst (List.range (u32 (poll_rx_recv env cfg ctx).1)) rets
      (by rw [List.length_range, hl])]
    congr 1
    funext p
    cases poll_rx_fss env cfg ctx p.1 <;> rfl

theorem poll_rx_count {W : Type} (env : Env W) (cfg : Config)
    (ctx : dataplane_context W) (ts : Nat) :
    ((poll_rx_recv env cfg ctx).1 ≤ 0 →
      poll_rx env cfg ctx ts = Except.ok (0, (poll_rx_recv env cfg ctx).2.2)) ∧
    (0 < (poll_rx_recv env cfg ctx).1 →
      (∀ n c, poll_rx env cfg ctx ts = Except.ok (n, c) → n = u32 (poll_rx_recv env cfg ctx).1) ∧
      ((∀ w a, (env.fast_actx_rxq_alloc w a).1 = 0) →
        ∃ c, poll_rx env cfg ctx ts = Except.ok (u32 (poll_rx_recv env cfg ctx).1, c))) := by
  constructor
  · intro hret
    unfold poll_rx
    dsimp only
    rw [if_pos hret]
  · intro hpos
    have hret : ¬ (poll_rx_recv env cfg ctx).1 ≤ 0 := by omega
    constructor
    · intro n c h
      unfold poll_rx at h
      dsimp only at h
      rw [if_neg hret] at h
      split at h
      · cases h
      · injection h with h
        injection h with h1 h2
        exact h1.symm
    · intro hok
      unfold poll_rx
      dsimp only
      rw [if_neg hret]
      generalize (poll_rx_dispatch env ts (poll_rx_recv env cfg ctx).2.1
        (poll_rx_lookup env (poll_rx_recv env cfg ctx).2.1 (u32 (poll_rx_recv env cfg ctx).1)
          (poll_rx_recv env cfg ctx).2.2).1
        (poll_rx_lookup env (poll_rx_recv env cfg ctx).2.1 (u32 (poll_rx_recv env cfg ctx).1)
          (poll_rx_recv env cfg ctx).2.2).2.1
        (u32 (poll_rx_recv env cfg ctx).1) 0
        (poll_rx_lookup env (poll_rx_recv env cfg ctx).2.1 (u32 (poll_rx_recv env cfg ctx).1)
          (poll_rx_recv env cfg ctx).2.2).2.2 fun _ => 0) = d
      obtain ⟨r, hr⟩ := arx_reserve_ok env hok d.1.sh.arx_num 0 d.1 (fun _ => 0)
      unfold arx_cache_flush
      rw [hr]
      exact ⟨_, rfl⟩

/-- C18: with `tx_num <= TXBUF_SIZE` (and sizes that fit an `unsigned`),
`poll_rx` calls `network_poll` exactly once, asking for
`min(BATCH_SIZE, TXBUF_SIZE - tx_num)` frames; when the NIC delivers none it
returns 0 without calling the fast path; when the NIC delivers `ret > 0` frames
it returns `ret` (it returns whenever every RX-slot reservation of the flush
succeeds), and the fast path has been called, in delivery order, on exactly the
frames `bhs[i]`, `i < ret`, that have a flow state, each with its flow state. -/
theorem poll_rx_batch {W : Type} (env : Env W) (cfg : Config) (ctx : dataplane_context W)
    (ts : Nat) (htx : ctx.sh.tx_num ≤ cfg.TXBUF_SIZE) (hb : cfg.BATCH_SIZE < 4294967296)
    (ht : cfg.TXBUF_SIZE < 4294967296) :
    pollCalls (finalCtx (poll_rx env cfg ctx ts)).trace =
      pollCalls ctx.trace ++
        [(min cfg.BATCH_SIZE (cfg.TXBUF_SIZE - ctx.sh.tx_num),
          (env.network_poll ctx.sh.world
            (min cfg.BATCH_SIZE (cfg.TXBUF_SIZE - ctx.sh.tx_num))).1)] ∧
    ((poll_rx_recv env cfg ctx).1 ≤ 0 →
      ∃ c, poll_rx env cfg ctx ts = Except.ok (0, c) ∧ flowFrames c.trace = flowFrames ctx.trace) ∧
    (0 < (poll_rx_recv env cfg ctx).1 → (poll_rx_recv env cfg ctx).1 < 4294967296 →
      (∀ n c, poll_rx env cfg ctx ts = Except.ok (n, c) →
        n = (poll_rx_recv env cfg ctx).1.toNat) ∧
      ((∀ w a, (env.fast_actx_rxq_alloc w a).1 = 0) →
        ∃ c, poll_rx env cfg ctx ts = Except.ok ((poll_rx_recv env cfg ctx).1.toNat, c)) ∧
      flowFrames (finalCtx (poll_rx env cfg ctx ts)).trace =
        flowFrames ctx.trace ++
          (List.range (poll_rx_recv env cfg ctx).1.toNat).filterMap
            (fun i => (poll_rx_fss env cfg ctx i).map fun fs =>
              (poll_rx_bhs env cfg ctx i, fs))) := by
  have hbound := poll_rx_bound_eq_min cfg ctx htx hb ht
  have hcount := poll_rx_count env cfg ctx ts
  have hframes := poll_rx_flow_frames env cfg ctx ts
  refine ⟨?_, ?_, ?_⟩
  · obtain ⟨t, h1, h2⟩ := poll_rx_trace env cfg ctx ts
    rw [h1, pollCalls_append]
    have h3 : pollCalls (Event.network_poll (poll_rx_bound cfg ctx) (poll_rx_recv env cfg ctx).1 :: t)
        = (poll_rx_bound cfg ctx, (poll_rx_recv env cfg ctx).1) :: pollCalls t := by
      simp [pollCalls]
    have h4 : (poll_rx_recv env cfg ctx).1 =
        (env.network_poll ctx.sh.world (poll_rx_bound cfg ctx)).1 := rfl
    rw [h3, pollCalls_of_rxTail t h2, h4, hbound]
  · intro hret
    refine ⟨_, hcount.1 hret, ?_⟩
    rw [hcount.1 hret, if_pos hret] at hframes
    simpa using hframes
  · intro hpos hlt
    have hu : u32 (poll_rx_recv env cfg ctx).1 = (poll_rx_recv env cfg ctx).1.toNat := by
      unfold u32
      omega
    rw [if_neg (by omega), hu] at hframes
    obtain ⟨c1, c2⟩ := hcount.2 hpos
    rw [hu] at c1 c2
    exact ⟨c1, c2, hframes⟩

/-- Witness of C18: three frames are delivered to a worker with an empty TX
staging area. -/
theorem poll_rx_batch_witness :
    (arxCtx.sh.tx_num ≤ exampleCfg.TXBUF_SIZE ∧ exampleCfg.BATCH_SIZE < 4294967296 ∧
      exampleCfg.TXBUF_SIZE < 4294967296) ∧
    pollCalls (finalCtx (poll_rx triageEnv exampleCfg arxCtx 0)).trace =
      pollCalls arxCtx.trace ++
        [(min exampleCfg.BATCH_SIZE (exampleCfg.TXBUF_SIZE - arxCtx.sh.tx_num),
          (triageEnv.network_poll arxCtx.sh.world
            (min exampleCfg.BATCH_SIZE (exampleCfg.TXBUF_SIZE - arxCtx.sh.tx_num))).1)] :=
  ⟨by decide, (poll_rx_batch triageEnv exampleCfg arxCtx 0 (by decide) (by decide) (by decide)).1⟩

/-! ### Forwarding ring -/

theorem poll_rx_batch_example :
    pollCalls (finalCtx (poll_rx mixedEnv exampleCfg arxCtx 0)).trace = [(16, 3)] ∧
    pollCount (poll_rx mixedEnv exampleCfg arxCtx 0) = some 3 ∧
    flowFrames (finalCtx (poll_rx mixedEnv exampleCfg arxCtx 0)).trace = [(1, 11), (3, 13)] ∧
    kernelPackets (finalCtx (poll_rx mixedEnv exampleCfg arxCtx 0)).trace = [2, 3] := by
  decide

theorem poll_qman_fwd_run_trace {W : Type} (env : Env W) (flow_states : Nat → FlowState)
    (ring : W → List FlowState)
    (hfwd : ∀ s fs, ring (env.fast_flows_qman_fwd s fs).world = ring s.world)
    (k i : Nat) (ctx : dataplane_context W) :
    (poll_qman_fwd_run env flow_states k i ctx).trace =
      ctx.trace ++ (List.range' i k).map (fun j => Event.fast_flows_qman_fwd (flow_states j)) ∧
    ring (poll_qman_fwd_run env flow_states k i ctx).sh.world = ring ctx.sh.world := by
  induction k generalizing i ctx with
  | zero => exact ⟨by simp [poll_qman_fwd_run], rfl⟩
  | succ k ih =>
    unfold poll_qman_fwd_run
    obtain ⟨h1, h2⟩ := ih (i + 1)
      { ctx with
        sh := env.fast_flows_qman_fwd ctx.sh (flow_states i)
        trace := ctx.trace ++ [Event.fast_flows_qman_fwd (flow_states i)] }
    dsimp only at h1 h2
    rw [h1, h2, hfwd]
    simp [List.range'_succ]

theorem ringEnv_fifo : FifoRing ringEnv id := by
  intro w n
  refine ⟨rfl, ?_, ?_⟩
  · apply List.ext_getElem
    · simp
    · intro j h1 h2
      simp at h1 h2 ⊢
      simp [ringEnv, List.getD_eq_getElem?_getD, List.getElem?_eq_getElem h1.1]
  · show w.drop n = w.drop (min w.length n)
    by_cases h : w.length ≤ n
    · rw [Nat.min_eq_left h, List.drop_of_length_le h, List.drop_of_length_le (Nat.le_refl _)]
    · rw [Nat.min_eq_right (by omega)]

/-- C19: when the burst dequeue is a FIFO dequeue of the forwarding ring and
the forward callback does not touch the ring, `poll_qman_fwd` dequeues the first
`min(ring length, 4 * BATCH_SIZE)` flow-state references, calls
`fast_flows_qman_fwd` on each of them once, in dequeue order, leaves the other
references in the ring and returns the number dequeued; a ring holding the
three references 7, 8, 9 is drained with exactly three calls. -/
theorem poll_qman_fwd_drains {W : Type} (env : Env W) (cfg : Config)
    (ctx : dataplane_context W) :
    (∀ ring : W → List FlowState, FifoRing env ring →
      (∀ s fs, ring (env.fast_flows_qman_fwd s fs).world = ring s.world) →
      4 * cfg.BATCH_SIZE < 4294967296 →
      (poll_qman_fwd env cfg ctx).1 = min (ring ctx.sh.world).length (4 * cfg.BATCH_SIZE) ∧
      (poll_qman_fwd env cfg ctx).2.trace =
        ctx.trace ++
          Event.rte_ring_dequeue_burst (4 * cfg.BATCH_SIZE)
              ((min (ring ctx.sh.world).length (4 * cfg.BATCH_SIZE) : Nat) : Int) ::
            ((ring ctx.sh.world).take (4 * cfg.BATCH_SIZE)).map Event.fast_flows_qman_fwd ∧
      ring (poll_qman_fwd env cfg ctx).2.sh.world =
        (ring ctx.sh.world).drop (4 * cfg.BATCH_SIZE)) ∧
    ((poll_qman_fwd ringEnv exampleCfg (ringCtx [7, 8, 9] 0)).1 = 3 ∧
      (poll_qman_fwd ringEnv exampleCfg (ringCtx [7, 8, 9] 0)).2.trace =
        [Event.rte_ring_dequeue_burst 64 3, Event.fast_flows_qman_fwd 7,
          Event.fast_flows_qman_fwd 8, Event.fast_flows_qman_fwd 9] ∧
      (poll_qman_fwd ringEnv exampleCfg (ringCtx [7, 8, 9] 0)).2.sh.world = []) := by
  refine ⟨?_, by decide⟩
  intro ring hfifo hfwd hb
  obtain ⟨d1, d2, d3⟩ := hfifo ctx.sh.world (4 * cfg.BATCH_SIZE)
  have htake : (ring ctx.sh.world).take (min (ring ctx.sh.world).length (4 * cfg.BATCH_SIZE)) =
      (ring ctx.sh.world).take (4 * cfg.BATCH_SIZE) := by
    by_cases h : (ring ctx.sh.world).length ≤ 4 * cfg.BATCH_SIZE
    · rw [Nat.min_eq_left h, List.take_of_length_le h, List.take_of_length_le (Nat.le_refl _)]
    · rw [Nat.min_eq_right (by omega)]
  have hdrop : (ring ctx.sh.world).drop (min (ring ctx.sh.world).length (4 * cfg.BATCH_SIZE)) =
      (ring ctx.sh.world).drop (4 * cfg.BATCH_SIZE) := by
    by_cases h : (ring ctx.sh.world).length ≤ 4 * cfg.BATCH_SIZE
    · rw [Nat.min_eq_left h, List.drop_of_length_le h, List.drop_of_length_le (Nat.le_refl _)]
    · rw [Nat.min_eq_right (by omega)]
  obtain ⟨r1, r2⟩ := poll_qman_fwd_run_trace env
    (env.rte_ring_dequeue_burst ctx.sh.world (4 * cfg.BATCH_SIZE)).2.1 ring hfwd
    (env.rte_ring_dequeue_burst ctx.sh.world (4 * cfg.BATCH_SIZE)).1.toNat 0
    { ctx with
      sh := { ctx.sh with
        world := (env.rte_ring_dequeue_burst ctx.sh.world (4 * cfg.BATCH_SIZE)).2.2 }
      trace := ctx.trace ++ [Event.rte_ring_dequeue_burst (4 * cfg.BATCH_SIZE)
        (env.rte_ring_dequeue_burst ctx.sh.world (4 * cfg.BATCH_SIZE)).1] }
  dsimp only at r1 r2
  unfold poll_qman_fwd
  dsimp only
  refine ⟨?_, ?_, ?_⟩
  · rw [d1]
    exact u32_of_lt _ (by omega)
  · rw [r1, d1, Int.toNat_ofNat, ← List.range_eq_range', ← htake, ← d2, List.map_map]
    simp [Function.comp_def]
  · rw [r2, d3, hdrop]

/-! ### Reads of the reserved handles -/

/-- Witness of C19: the ring of the example is a FIFO ring. -/
theorem poll_qman_fwd_drains_witness :
    (FifoRing ringEnv id ∧
      (∀ (s : Shared (List FlowState)) (fs : FlowState),
        id (ringEnv.fast_flows_qman_fwd s fs).world = id s.world) ∧
      4 * exampleCfg.BATCH_SIZE < 4294967296) ∧
    (poll_qman_fwd ringEnv exampleCfg (ringCtx [1, 2, 3, 4, 5] 0)).1 =
      min (id (ringCtx [1, 2, 3, 4, 5] 0).sh.world).length (4 * exampleCfg.BATCH_SIZE) :=
  ⟨⟨ringEnv_fifo, fun _ _ => rfl, by decide⟩,
   ((poll_qman_fwd_drains ringEnv exampleCfg (ringCtx [1, 2, 3, 4, 5] 0)).1 id ringEnv_fifo
      (fun _ _ => rfl) (by decide)).1⟩

theorem handleArgs_append (t u : List Event) :
    handleArgs (t ++ u) = handleArgs t ++ handleArgs u := by
  simp [handleArgs, List.filterMap_append]

theorem poll_queues_bump_reads_spec {W : Type} (env : Env W) (ts : Nat) (aqes : Nat → Aqe)
    (off r j : Nat) (ctx : dataplane_context W) (nb : Nat) (h16 : nb + r < 65536) :
    (∀ x ∈ poll_queues_bump_reads env ts aqes off r j ctx nb, x < nb + r) ∧
    handleArgs (poll_queues_bump env ts aqes off r j ctx nb).1.trace =
      handleArgs ctx.trace ++
        (poll_queues_bump_reads env ts aqes off r j ctx nb).map
          (fun x => ctx.bufcache_handles (off + x)) := by
  induction r generalizing j ctx nb with
  | zero => exact ⟨by simp [poll_queues_bump_reads], by simp [poll_queues_bump_reads, poll_queues_bump]⟩
  | succ r ih =>
    unfold poll_queues_bump poll_queues_bump_reads
    dsimp only
    generalize hp : env.fast_appctx_poll_bump ctx.sh (aqes j)
      (ctx.bufcache_handles (off + nb)) ts = p
    have hu : u16 ((nb + 1 : Nat) : Int) = nb + 1 := u16_of_lt _ (by omega)
    by_cases h0 : p.1 = 0
    · rw [if_pos h0, hu]
      obtain ⟨h1, h2⟩ := ih (u16 ((j + 1 : Nat) : Int))
        { ctx with
          sh := p.2
          trace := ctx.trace ++ [Event.fast_appctx_poll_bump (aqes j)
            (ctx.bufcache_handles (off + nb)) p.1] }
        (nb + 1) (by omega)
      dsimp only at h1 h2
      constructor
      · intro x hx
        rcases List.mem_cons.1 hx with hx | hx
        · omega
        · have := h1 x hx
          omega
      · rw [h2, handleArgs_append]
        simp [handleArgs]
    · rw [if_neg h0]
      obtain ⟨h1, h2⟩ := ih (u16 ((j + 1 : Nat) : Int))
        { ctx with
          sh := p.2
          trace := ctx.trace ++ [Event.fast_appctx_poll_bump (aqes j)
            (ctx.bufcache_handles (off + nb)) p.1] }
        nb (by omega)
      dsimp only at h1 h2
      constructor
      · intro x hx
        rcases List.mem_cons.1 hx with hx | hx
        · omega
        · have := h1 x hx
          omega
      · rw [h2, handleArgs_append]
        simp [handleArgs]

theorem poll_qman_send_reads_spec {W : Type} (env : Env W) (ts : Nat) (q_ids : Nat → Nat)
    (hoff r i : Nat) (ctx : dataplane_context W) (off : Nat) (h16 : off + r < 65536) :
    (∀ x ∈ poll_qman_send_reads env ts q_ids hoff r i ctx off, x < off + r) ∧
    (poll_qman_send env ts q_ids hoff r i ctx off).2 ≤ off + r ∧
    handleArgs (poll_qman_send env ts q_ids hoff r i ctx off).1.trace =
      handleArgs ctx.trace ++
        (poll_qman_send_reads env ts q_ids hoff r i ctx off).map
          (fun x => ctx.bufcache_handles (hoff + x)) := by
  induction r generalizing i ctx off with
  | zero =>
    exact ⟨by simp [poll_qman_send_reads], by simp [poll_qman_send],
      by simp [poll_qman_send_reads, poll_qman_send]⟩
  | succ r ih =>
    unfold poll_qman_send poll_qman_send_reads
    dsimp only
    generalize hp : env.fast_flows_qman ctx.sh (q_ids i) (ctx.bufcache_handles (hoff + off)) ts = p
    have hu : u16 ((off + 1 : Nat) : Int) = off + 1 := u16_of_lt _ (by omega)
    by_cases h0 : p.1 = 0
    · rw [if_pos h0, hu]
      obtain ⟨h1, h2, h3⟩ := ih (i + 1)
        { ctx with
          sh := p.2
          trace := ctx.trace ++ [Event.fast_flows_qman (q_ids i)
            (ctx.bufcache_handles (hoff + off)) p.1] }
        (off + 1) (by omega)
      dsimp only at h1 h2 h3
      refine ⟨?_, by omega, ?_⟩
      · intro x hx
        rcases List.mem_cons.1 hx with hx | hx
        · omega
        · have := h1 x hx
          omega
      · rw [h3, handleArgs_append]
        simp [handleArgs]
    · rw [if_neg h0]
      obtain ⟨h1, h2, h3⟩ := ih (i + 1)
        { ctx with
          sh := p.2
          trace := ctx.trace ++ [Event.fast_flows_qman (q_ids i)
            (ctx.bufcache_handles (hoff + off)) p.1] }
        off (by omega)
      dsimp only at h1 h2 h3
      refine ⟨?_, by omega, ?_⟩
      · intro x hx
        rcases List.mem_cons.1 hx with hx | hx
        · omega
        · have := h1 x hx
          omega
      · rw [h3, handleArgs_append]
        simp [handleArgs]

theorem poll_kernel_loop_reads_lt {W : Type} (env : Env W) (ts off max : Nat) (fuel : Nat)
    (st : KernelState W) :
    ∀ x ∈ poll_kernel_loop_reads env ts off max fuel st, x < max := by
  induction fuel generalizing st with
  | zero => simp [poll_kernel_loop_reads]
  | succ fuel ih =>
    unfold poll_kernel_loop_reads
    dsimp only
    intro x hx
    split at hx
    · next hlt =>
      split at hx
      · rcases List.mem_cons.1 hx with hx | hx
        · omega
        · exact ih _ x hx
      · split at hx
        · have := List.mem_singleton.1 hx
          omega
        · rcases List.mem_cons.1 hx with hx | hx
          · omega
          · exact ih _ x hx
    · simp at hx

theorem poll_kernel_loop_reads_spec {W : Type} (env : Env W) (ts off max : Nat)
    (hmax : max < 65536) (fuel : Nat) (st st' : KernelState W)
    (h : poll_kernel_loop env ts off max fuel st = some st') (hk : st.k ≤ max) :
    st'.k ≤ max ∧ SameCache st.ctx st'.ctx ∧
    handleArgs st'.ctx.trace =
      handleArgs st.ctx.trace ++
        (poll_kernel_loop_reads env ts off max fuel st).map
          (fun x => st.ctx.bufcache_handles (off + x)) := by
  induction fuel generalizing st with
  | zero => simp [poll_kernel_loop] at h
  | succ fuel ih =>
    unfold poll_kernel_loop at h
    unfold poll_kernel_loop_reads
    dsimp only at h ⊢
    by_cases hlt : st.k < max
    · rw [if_pos hlt] at h ⊢
      generalize hp : env.fast_kernel_poll st.ctx.sh (st.ctx.bufcache_handles (off + st.k)) ts = p
        at h ⊢
      by_cases h0 : p.1 = 0
      · rw [if_pos h0] at h ⊢
        have hu : u16 ((st.k + 1 : Nat) : Int) = st.k + 1 := u16_of_lt _ (by omega)
        rw [hu] at h ⊢
        obtain ⟨h1, h2, h3⟩ := ih _ h (by show st.k + 1 ≤ max; omega)
        dsimp only at h2 h3
        refine ⟨h1, h2, ?_⟩
        rw [h3, handleArgs_append]
        simp [handleArgs]
      · rw [if_neg h0] at h ⊢
        by_cases hneg : p.1 < 0
        · rw [if_pos hneg] at h ⊢
          injection h with h
          subst h
          refine ⟨hk, sameCache_refl _, ?_⟩
          dsimp only
          rw [handleArgs_append]
          simp [handleArgs]
        · rw [if_neg hneg] at h ⊢
          obtain ⟨h1, h2, h3⟩ := ih _ h hk
          dsimp only at h2 h3
          refine ⟨h1, h2, ?_⟩
          rw [h3, handleArgs_append]
          simp [handleArgs]
    · rw [if_neg hlt] at h ⊢
      injection h with h
      subst h
      exact ⟨hk, sameCache_refl _, by simp⟩

theorem poll_queues_reads_lt {W : Type} (env : Env W) (cfg : Config)
    (ctx : dataplane_context W) (ts : Nat) :
    ∀ x ∈ poll_queues_reads env cfg ctx ts,
      x < (bufcache_prealloc env cfg ctx (poll_max cfg ctx)).1 := by
  have hlt := bufcache_prealloc_lt_256 env cfg ctx (poll_max cfg ctx)
  unfold poll_queues_reads
  dsimp only
  generalize bufcache_prealloc env cfg ctx (poll_max cfg ctx) = pre at hlt ⊢
  obtain ⟨f1, -, -, -⟩ := poll_queues_fetch_count env cfg pre.1 (by omega)
    cfg.FLEXNIC_PL_APPCTX_NUM
    { ctx := poll_queues_pf env cfg cfg.FLEXNIC_PL_APPCTX_NUM 0 pre.2.2,
      aqes := fun _ => 0, k := 0, total := 0 }
    (Nat.zero_le _) rfl
  generalize poll_queues_fetch env cfg pre.1 cfg.FLEXNIC_PL_APPCTX_NUM
    { ctx := poll_queues_pf env cfg cfg.FLEXNIC_PL_APPCTX_NUM 0 pre.2.2,
      aqes := fun _ => 0, k := 0, total := 0 } = f at f1 ⊢
  intro x hx
  have := (poll_queues_bump_reads_spec env ts f.1.aqes pre.2.1 f.1.k 0 f.1.ctx 0 (by omega)).1 x hx
  omega

theorem poll_kernel_reserved_le {W : Type} (env : Env W) (cfg : Config)
    (ctx : dataplane_context W) (hhead : ctx.bufcache_head ≤ cfg.BUFCACHE_SIZE) :
    (poll_kernel_reserved env cfg ctx).1 ≤ 8 ∧
    (poll_kernel_reserved env cfg ctx).1 ≤ (poll_kernel_reserved env cfg ctx).2.2.bufcache_num := by
  unfold poll_kernel_reserved
  generalize hm : (if poll_max cfg ctx > 8 then 8 else poll_max cfg ctx) = max1
  have hm8 : max1 ≤ 8 := by rw [← hm]; split <;> omega
  exact ⟨Nat.le_trans (bufcache_prealloc_le env cfg ctx max1 (by omega) hhead) hm8,
    bufcache_prealloc_le_num env cfg ctx max1 hhead⟩

theorem poll_kernel_asserts {W : Type} (env : Env W) (cfg : Config)
    (ctx : dataplane_context W) (ts : Nat) (hhead : ctx.bufcache_head ≤ cfg.BUFCACHE_SIZE)
    (fuel : Nat) (r : Except (dataplane_context W) (Nat × dataplane_context W))
    (h : poll_kernel env cfg fuel ctx ts = some r) : ∃ x, r = Except.ok x := by
  obtain ⟨h8, hnum⟩ := poll_kernel_reserved_le env cfg ctx hhead
  unfold poll_kernel at h
  unfold poll_kernel_reserved at h8 hnum
  dsimp only at h
  generalize bufcache_prealloc env cfg ctx (if poll_max cfg ctx > 8 then 8 else poll_max cfg ctx)
    = pre at h h8 hnum
  cases hl : poll_kernel_loop env ts pre.2.1 pre.1 fuel { ctx := pre.2.2, k := 0, total := 0 } with
  | none => rw [hl] at h; simp at h
  | some st =>
    rw [hl] at h
    dsimp only at h
    obtain ⟨k1, k2, -⟩ := poll_kernel_loop_reads_spec env ts pre.2.1 pre.1 (by omega) fuel _ st hl
      (Nat.zero_le _)
    have hle : st.k ≤ st.ctx.bufcache_num := by
      rw [k2.2.1]
      show st.k ≤ pre.2.2.bufcache_num
      omega
    unfold bufcache_alloc at h
    rw [if_pos hle] at h
    dsimp only at h
    injection h with h
    exact ⟨_, h.symm⟩

theorem poll_kernel_returns {W : Type} (env : Env W) (cfg : Config)
    (ctx : dataplane_context W) (ts : Nat) (hhead : ctx.bufcache_head ≤ cfg.BUFCACHE_SIZE)
    (hns : ∀ s b t, (env.fast_kernel_poll s b t).1 ≤ 0) :
    ∃ x, poll_kernel env cfg 9 ctx ts = some (Except.ok x) := by
  obtain ⟨h8, -⟩ := poll_kernel_reserved_le env cfg ctx hhead
  have hsome : ∃ r, poll_kernel env cfg 9 ctx ts = some r := by
    unfold poll_kernel
    unfold poll_kernel_reserved at h8
    dsimp only
    generalize bufcache_prealloc env cfg ctx
      (if poll_max cfg ctx > 8 then 8 else poll_max cfg ctx) = pre at h8 ⊢
    obtain ⟨st, hst⟩ := poll_kernel_loop_total env ts pre.2.1 pre.1 (by omega) hns 9
      { ctx := pre.2.2, k := 0, total := 0 } (by show pre.1 - 0 < 9; omega)
    rw [hst]
    dsimp only
    split
    · exact ⟨_, rfl⟩
    · exact ⟨_, rfl⟩
  obtain ⟨r, hr⟩ := hsome
  obtain ⟨x, hx⟩ := poll_kernel_asserts env cfg ctx ts hhead 9 r hr
  exact ⟨x, by rw [hr, hx]⟩

theorem poll_qman_asserts {W : Type} (env : Env W) (cfg : Config)
    (ctx : dataplane_context W) (ts : Nat) (hhead : ctx.bufcache_head ≤ cfg.BUFCACHE_SIZE)
    (hle : (poll_qman_answer env cfg ctx).1 ≤ (poll_qman_reserved env cfg ctx).1) :
    (∀ x ∈ poll_qman_reads env cfg ctx ts, x < (poll_qman_reserved env cfg ctx).1) ∧
    ∃ r, poll_qman env cfg ctx ts = Except.ok r := by
  have hlt := bufcache_prealloc_lt_256 env cfg ctx (poll_max cfg ctx)
  have hnum := bufcache_prealloc_le_num env cfg ctx (poll_max cfg ctx) hhead
  unfold poll_qman_answer poll_qman_reserved at hle
  unfold poll_qman_reads poll_qman poll_qman_reserved
  dsimp only
  generalize bufcache_prealloc env cfg ctx (poll_max cfg ctx) = pre at hlt hnum hle ⊢
  generalize env.qman_poll pre.2.2.sh.world pre.1 = q at hle ⊢
  by_cases hret : q.1 ≤ 0
  · rw [if_pos hret, if_pos hret]
    exact ⟨by simp, ⟨_, rfl⟩⟩
  · rw [if_neg hret, if_neg hret]
    have hr : q.1.toNat ≤ pre.1 := by omega
    obtain ⟨s1, s2, -⟩ := poll_qman_send_reads_spec env ts q.2.1 pre.2.1 q.1.toNat 0
      { pre.2.2 with
        sh := env.fast_flows_qman_pfbufs
          (env.fast_flows_qman_pf { pre.2.2.sh with world := q.2.2.2 } q.2.1 q.1) q.2.1 q.1
        trace := pre.2.2.trace ++ [Event.qman_poll pre.1 q.1] } 0 (by omega)
    obtain ⟨_, -, -, -, -, -, s3⟩ := poll_qman_send_spec env ts q.2.1 pre.2.1 q.1.toNat 0
      { pre.2.2 with
        sh := env.fast_flows_qman_pfbufs
          (env.fast_flows_qman_pf { pre.2.2.sh with world := q.2.2.2 } q.2.1 q.1) q.2.1 q.1
        trace := pre.2.2.trace ++ [Event.qman_poll pre.1 q.1] } 0 (by omega)
    constructor
    · intro x hx
      simp only [List.mem_append, List.mem_range] at hx
      rcases hx with ((hx | hx) | hx) | hx
      · omega
      · omega
      · omega
      · have := s1 x hx
        omega
    · generalize poll_qman_send env ts q.2.1 pre.2.1 q.1.toNat 0
        { pre.2.2 with
          sh := env.fast_flows_qman_pfbufs
            (env.fast_flows_qman_pf { pre.2.2.sh with world := q.2.2.2 } q.2.1 q.1) q.2.1 q.1
          trace := pre.2.2.trace ++ [Event.qman_poll pre.1 q.1] } 0 = b at s2 s3 ⊢
      have hb : b.2 ≤ b.1.bufcache_num := by
        rw [s3.2.2.2.1]
        show b.2 ≤ pre.2.2.bufcache_num
        omega
      unfold bufcache_alloc
      rw [if_pos hb]
      exact ⟨_, rfl⟩

/-- C20: in a state satisfying the cache invariant, every index at which
`poll_queues`, `poll_kernel` and `poll_qman` read the reserved slice `handles`
is strictly below the count `bufcache_prealloc` returned, and the count they
pass to `bufcache_alloc` is at most `bufcache_num`, so that the assertion holds
and the polls return; for `poll_qman` this needs `qman_poll` to return no more
than the maximum it was given.  `poll_kernel` satisfies the assertion for every
number of loop rounds and returns within nine rounds when `fast_kernel_poll`
returns no positive value. -/
theorem handle_reads_in_range {W : Type} (env : Env W) (cfg : Config)
    (ctx : dataplane_context W) (ts : Nat) (hinv : CacheInv cfg ctx) :
    ((∀ x ∈ poll_queues_reads env cfg ctx ts,
        x < (bufcache_prealloc env cfg ctx (poll_max cfg ctx)).1) ∧
      ∃ r, poll_queues env cfg ctx ts = Except.ok r) ∧
    ((∀ fuel, ∀ x ∈ poll_kernel_reads env cfg fuel ctx ts,
        x < (poll_kernel_reserved env cfg ctx).1) ∧
      (∀ fuel r, poll_kernel env cfg fuel ctx ts = some r → ∃ x, r = Except.ok x) ∧
      ((∀ s b t, (env.fast_kernel_poll s b t).1 ≤ 0) →
        ∃ x, poll_kernel env cfg 9 ctx ts = some (Except.ok x))) ∧
    ((poll_qman_answer env cfg ctx).1 ≤ (poll_qman_reserved env cfg ctx).1 →
      (∀ x ∈ poll_qman_reads env cfg ctx ts, x < (poll_qman_reserved env cfg ctx).1) ∧
      ∃ r, poll_qman env cfg ctx ts = Except.ok r) := by
  have hhead : ctx.bufcache_head ≤ cfg.BUFCACHE_SIZE := Nat.le_of_lt hinv.2
  refine ⟨⟨poll_queues_reads_lt env cfg ctx ts, ?_⟩, ⟨?_, ?_, ?_⟩, ?_⟩
  · obtain ⟨n, c, h, -⟩ := poll_queues_returns env cfg ctx ts hhead
    exact ⟨_, h⟩
  · intro fuel x hx
    exact poll_kernel_loop_reads_lt env ts _ _ fuel _ x hx
  · intro fuel r h
    exact poll_kernel_asserts env cfg ctx ts hhead fuel r h
  · exact poll_kernel_returns env cfg ctx ts hhead
  · exact poll_qman_asserts env cfg ctx ts hhead

/-- Witness of C20: a cache of 32 handles with the head at slot 0. -/
theorem handle_reads_in_range_witness :
    CacheInv exampleCfg (exampleCtx 0 32 0) ∧
    ((∀ x ∈ poll_queues_reads qmanEnv exampleCfg (exampleCtx 0 32 0) 0,
        x < (bufcache_prealloc qmanEnv exampleCfg (exampleCtx 0 32 0)
          (poll_max exampleCfg (exampleCtx 0 32 0))).1) ∧
      ∃ r, poll_queues qmanEnv exampleCfg (exampleCtx 0 32 0) 0 = Except.ok r) :=
  ⟨⟨by decide, by decide⟩,
   (handle_reads_in_range qmanEnv exampleCfg (exampleCtx 0 32 0) 0 ⟨by decide, by decide⟩).1⟩

/-! ### Frame of the buffer reservation -/

theorem handle_reads_example :
    poll_qman_reads qmanEnv exampleCfg (exampleCtx 0 32 0) 0 =
      [0, 1, 2, 0, 1, 2, 0, 1, 2, 0, 1, 1] ∧
    (poll_qman_reserved qmanEnv exampleCfg (exampleCtx 0 32 0)).1 = 16 ∧
    poll_kernel_reads msgEnv exampleCfg 9 (exampleCtx 0 32 3) 0 = [0, 1, 2, 3] ∧
    (poll_kernel_reserved msgEnv exampleCfg (exampleCtx 0 32 3)).1 = 8 ∧
    handleArgs (finalCtx (poll_qman qmanEnv exampleCfg (exampleCtx 0 32 0) 0)).trace =
      [100, 101, 101] := by
  decide

theorem mod_cases (x N : Nat) (hx : x < 2 * N) :
    (x < N ∧ x % N = x) ∨ (N ≤ x ∧ x % N = x - N) := by
  by_cases h : x < N
  · exact Or.inl ⟨h, Nat.mod_eq_of_lt h⟩
  · refine Or.inr ⟨by omega, ?_⟩
    rw [Nat.mod_eq_sub_mod (by omega), Nat.mod_eq_of_lt (by omega)]

theorem bufcache_fill_outside {W : Type} (env : Env W) (ctx : dataplane_context W) (n off : Nat)
    (halloc : ∀ w m, (env.network_buf_alloc w m).1.length ≤ m) (s : Nat)
    (hs : s < off ∨ off + n ≤ s) :
    (bufcache_fill env ctx n off).2.bufcache_handles s = ctx.bufcache_handles s := by
  show writeAt ctx.bufcache_handles off (env.network_buf_alloc ctx.sh.world n).1 s = _
  have := halloc ctx.sh.world n
  unfold writeAt
  rw [if_neg (by omega)]

theorem bufcache_refill_frame {W : Type} (env : Env W) (cfg : Config)
    (ctx : dataplane_context W) (e : Nat) (hpow : cfg.BUFCACHE_SIZE = 2 ^ e)
    (hfit : cfg.BUFCACHE_SIZE < 65536)
    (halloc : ∀ w m, (env.network_buf_alloc w m).1.length ≤ m) (hinv : CacheInv cfg ctx)
    (s : Nat) (hs : CachedSlot cfg ctx s ∨ cfg.BUFCACHE_SIZE ≤ s) :
    (bufcache_refill env cfg ctx).bufcache_handles s = ctx.bufcache_handles s := by
  obtain ⟨hnum, hhead⟩ := hinv
  have hs' : (s < cfg.BUFCACHE_SIZE →
      (ctx.bufcache_head ≤ s ∧ s < ctx.bufcache_head + ctx.bufcache_num) ∨
      (s + cfg.BUFCACHE_SIZE < ctx.bufcache_head + ctx.bufcache_num)) := by
    intro hlt
    rcases hs with ⟨j, hj, rfl⟩ | hs
    · rcases mod_cases (ctx.bufcache_head + j) cfg.BUFCACHE_SIZE (by omega) with ⟨h1, h2⟩ | ⟨h1, h2⟩
      · rw [h2]
        omega
      · rw [h2]
        omega
    · omega
  have hg : u16 ((cfg.BUFCACHE_SIZE : Int) - ctx.bufcache_num) =
      cfg.BUFCACHE_SIZE - ctx.bufcache_num := by
    unfold u16
    omega
  have hh : u16 (((ctx.bufcache_head + ctx.bufcache_num) &&& (cfg.BUFCACHE_SIZE - 1) : Nat) : Int) =
      (ctx.bufcache_head + ctx.bufcache_num) % cfg.BUFCACHE_SIZE := by
    rw [land_mask _ _ e hpow]
    exact u16_of_lt _ (Nat.lt_trans (Nat.mod_lt _ (by omega)) hfit)
  have hm := mod_cases (ctx.bufcache_head + ctx.bufcache_num) cfg.BUFCACHE_SIZE (by omega)
  unfold bufcache_refill
  dsimp only
  rw [bufcache_retag_eq, hg, hh]
  generalize (ctx.bufcache_head + ctx.bufcache_num) % cfg.BUFCACHE_SIZE = hp at hm ⊢
  by_cases hc : hp + (cfg.BUFCACHE_SIZE - ctx.bufcache_num) ≤ cfg.BUFCACHE_SIZE
  · rw [if_pos hc]
    apply bufcache_fill_outside env ctx _ _ halloc
    by_cases hlt : s < cfg.BUFCACHE_SIZE
    · have := hs' hlt
      omega
    · omega
  · rw [if_neg hc]
    have hg2 : u16 ((cfg.BUFCACHE_SIZE : Int) - hp) = cfg.BUFCACHE_SIZE - hp := by
      unfold u16
      omega
    have hu : u32 (((cfg.BUFCACHE_SIZE - ctx.bufcache_num : Nat) : Int) -
        ((cfg.BUFCACHE_SIZE - hp : Nat) : Int)) = hp - ctx.bufcache_num := by
      unfold u32
      omega
    rw [hg2, hu]
    have h1 : (bufcache_fill env ctx (cfg.BUFCACHE_SIZE - hp) hp).2.bufcache_handles s =
        ctx.bufcache_handles s := by
      apply bufcache_fill_outside env ctx _ _ halloc
      by_cases hlt : s < cfg.BUFCACHE_SIZE
      · have := hs' hlt
        omega
      · omega
    split
    · show (bufcache_fill env _ (hp - ctx.bufcache_num) 0).2.bufcache_handles s = _
      rw [bufcache_fill_outside env _ _ _ halloc s, h1]
      by_cases hlt : s < cfg.BUFCACHE_SIZE
      · have := hs' hlt
        omega
      · omega
    · exact h1

/-- C21: in a cache satisfying the invariant, with `BUFCACHE_SIZE` a power of
two below 2^16 and an allocator that writes at most the count it is asked for,
`bufcache_prealloc(n)` leaves `bufcache_head` unchanged, leaves unchanged the
handle in every slot of the cached segment `[head, head + num)` modulo
`BUFCACHE_SIZE`, also when the refill wraps around the end of the array and is
split into two allocations, and writes no slot beyond the array; when
`bufcache_num >= n` on entry the context is unchanged, so that no allocation is
made. -/
theorem bufcache_prealloc_frame {W : Type} (env : Env W) (cfg : Config)
    (ctx : dataplane_context W) (n e : Nat) (hpow : cfg.BUFCACHE_SIZE = 2 ^ e)
    (hfit : cfg.BUFCACHE_SIZE < 65536)
    (halloc : ∀ w m, (env.network_buf_alloc w m).1.length ≤ m) (hinv : CacheInv cfg ctx) :
    (bufcache_prealloc env cfg ctx n).2.2.bufcache_head = ctx.bufcache_head ∧
    (∀ s, CachedSlot cfg ctx s ∨ cfg.BUFCACHE_SIZE ≤ s →
      (bufcache_prealloc env cfg ctx n).2.2.bufcache_handles s = ctx.bufcache_handles s) ∧
    (n ≤ ctx.bufcache_num →
      (bufcache_prealloc env cfg ctx n).2.2 = ctx ∧
      (bufcache_prealloc env cfg ctx n).2.2.trace = ctx.trace) := by
  refine ⟨bufcache_prealloc_head env cfg ctx n, ?_, ?_⟩
  · intro s hs
    unfold bufcache_prealloc
    dsimp only
    split
    · exact bufcache_refill_frame env cfg ctx e hpow hfit halloc hinv s hs
    · rfl
  · intro hn
    have h := bufcache_prealloc_no_refill env cfg ctx n hn
    exact ⟨h, by rw [h]⟩

/-- Witness of C21: three handles are cached in the slots 120, 121, 122 of 128
and the pool holds 20 buffers, so that the refill wraps. -/
theorem bufcache_prealloc_frame_witness :
    (exampleCfg.BUFCACHE_SIZE = 2 ^ 7 ∧ exampleCfg.BUFCACHE_SIZE < 65536 ∧
      (∀ w m, (poolEnv.network_buf_alloc w m).1.length ≤ m) ∧
      CacheInv exampleCfg (exampleCtx 120 3 20)) ∧
    (bufcache_prealloc poolEnv exampleCfg (exampleCtx 120 3 20) 16).2.2.bufcache_head =
      (exampleCtx 120 3 20).bufcache_head ∧
    (∀ s, CachedSlot exampleCfg (exampleCtx 120 3 20) s ∨ exampleCfg.BUFCACHE_SIZE ≤ s →
      (bufcache_prealloc poolEnv exampleCfg (exampleCtx 120 3 20) 16).2.2.bufcache_handles s =
        (exampleCtx 120 3 20).bufcache_handles s) :=
  ⟨⟨by decide, by decide, fun w m => by simp [poolEnv], ⟨by decide, by decide⟩⟩,
   (bufcache_prealloc_frame poolEnv exampleCfg (exampleCtx 120 3 20) 16 7 (by decide) (by decide)
      (fun w m => by simp [poolEnv]) ⟨by decide, by decide⟩).1,
   (bufcache_prealloc_frame poolEnv exampleCfg (exampleCtx 120 3 20) 16 7 (by decide) (by decide)
      (fun w m => by simp [poolEnv]) ⟨by decide, by decide⟩).2.1⟩

/-! ### Bounds of the TX staging flush -/

/-- The wrapping refill of the witness: five handles are written to the slots
123..127 and fifteen to the slots 0..14, in two allocations; the cached slots
120..122 keep their handles. -/
theorem bufcache_prealloc_wrap_example :
    (bufcache_prealloc poolEnv exampleCfg (exampleCtx 120 3 20) 16).2.2.trace =
      [Event.network_buf_alloc 5 5, Event.network_buf_alloc 120 15] ∧
    (bufcache_prealloc poolEnv exampleCfg (exampleCtx 120 3 20) 16).2.2.bufcache_num = 23 ∧
    (List.range 6).map
        (bufcache_prealloc poolEnv exampleCfg (exampleCtx 120 3 20) 16).2.2.bufcache_handles =
      [500, 501, 502, 503, 504, 505] ∧
    [119, 120, 121, 122, 123, 124, 127].map
        (bufcache_prealloc poolEnv exampleCfg (exampleCtx 120 3 20) 16).2.2.bufcache_handles =
      [219, 220, 221, 222, 500, 501, 504] ∧
    (bufcache_prealloc poolEnv exampleCfg (exampleCtx 120 3 20) 2).2.2.trace = [] := by
  decide

theorem tx_flush_empty {W : Type} (env : Env W) (ctx : dataplane_context W)
    (h0 : ctx.sh.tx_num = 0) : tx_flush env ctx = ctx := by
  unfold tx_flush
  rw [if_pos h0]

theorem tx_flush_trace {W : Type} (env : Env W) (ctx : dataplane_context W)
    (h0 : ctx.sh.tx_num ≠ 0) :
    (tx_flush env ctx).trace =
      ctx.trace ++ [Event.network_send ctx.sh.tx_num
        (env.network_send ctx.sh.world ctx.sh.tx_num ctx.sh.tx_handles).1] := by
  unfold tx_flush
  rw [if_neg h0]
  dsimp only
  split
  · rfl
  · split <;> rfl

theorem tx_flush_num {W : Type} (env : Env W) (ctx : dataplane_context W) (k : Nat)
    (h0 : ctx.sh.tx_num ≠ 0)
    (hk : (env.network_send ctx.sh.world ctx.sh.tx_num ctx.sh.tx_handles).1 = (k : Int))
    (hle : k ≤ ctx.sh.tx_num) :
    (tx_flush env ctx).sh.tx_num + k = ctx.sh.tx_num := by
  unfold tx_flush
  rw [if_neg h0]
  dsimp only
  rw [hk]
  by_cases h1 : (k : Int) = (ctx.sh.tx_num : Int)
  · rw [if_pos h1]
    show 0 + k = _
    omega
  · rw [if_neg h1]
    by_cases h2 : (k : Int) > 0
    · rw [if_pos h2]
      show ((ctx.sh.tx_num : Int) - k).toNat + k = _
      omega
    · rw [if_neg h2]
      show ctx.sh.tx_num + k = _
      omega

/-- C22: with `tx_num <= TXBUF_SIZE` and a NIC that accepts `k` frames,
`0 <= k <= tx_num`, `tx_flush` leaves `tx_num - k` frames staged: `tx_num` does
not grow and stays within `TXBUF_SIZE`, and the NIC is called exactly once,
with the `tx_num` staged frames.  With `tx_num == 0` the NIC is not called and
the context is unchanged. -/
theorem tx_flush_bounded {W : Type} (env : Env W) (cfg : Config) (ctx : dataplane_context W)
    (htx : ctx.sh.tx_num ≤ cfg.TXBUF_SIZE) :
    (ctx.sh.tx_num = 0 →
      tx_flush env ctx = ctx ∧ sendCalls (tx_flush env ctx).trace = sendCalls ctx.trace) ∧
    (ctx.sh.tx_num ≠ 0 →
      sendCalls (tx_flush env ctx).trace =
        sendCalls ctx.trace ++
          [(ctx.sh.tx_num, (env.network_send ctx.sh.world ctx.sh.tx_num ctx.sh.tx_handles).1)] ∧
      ∀ k : Nat,
        (env.network_send ctx.sh.world ctx.sh.tx_num ctx.sh.tx_handles).1 = (k : Int) →
        k ≤ ctx.sh.tx_num →
        (tx_flush env ctx).sh.tx_num = ctx.sh.tx_num - k ∧
        (tx_flush env ctx).sh.tx_num ≤ ctx.sh.tx_num ∧
        (tx_flush env ctx).sh.tx_num ≤ cfg.TXBUF_SIZE) := by
  constructor
  · intro h0
    rw [tx_flush_empty env ctx h0]
    exact ⟨rfl, rfl⟩
  · intro h0
    constructor
    · rw [tx_flush_trace env ctx h0]
      simp [sendCalls, List.filterMap_append]
    · intro k hk hle
      have := tx_flush_num env ctx k h0 hk hle
      omega

/-- Witness of C22: 32 of 32 slots are staged and the NIC accepts 16 frames. -/
theorem tx_flush_bounded_witness :
    (stagedCtx.sh.tx_num ≤ exampleCfg.TXBUF_SIZE ∧ stagedCtx.sh.tx_num ≠ 0 ∧
      (halfSendEnv.network_send stagedCtx.sh.world stagedCtx.sh.tx_num
        stagedCtx.sh.tx_handles).1 = ((16 : Nat) : Int) ∧ 16 ≤ stagedCtx.sh.tx_num) ∧
    ((tx_flush halfSendEnv stagedCtx).sh.tx_num = stagedCtx.sh.tx_num - 16 ∧
      (tx_flush halfSendEnv stagedCtx).sh.tx_num ≤ stagedCtx.sh.tx_num ∧
      (tx_flush halfSendEnv stagedCtx).sh.tx_num ≤ exampleCfg.TXBUF_SIZE) :=
  ⟨⟨by decide, by decide, rfl, by decide⟩,
   ((tx_flush_bounded halfSendEnv exampleCfg stagedCtx (by decide)).2 (by decide)).2 16 rfl
     (by decide)⟩

/-! ### Round-robin scan of the application contexts -/

theorem tx_flush_example :
    (tx_flush halfSendEnv stagedCtx).sh.tx_num = 16 ∧
    sendCalls (tx_flush halfSendEnv stagedCtx).trace = [(32, 16)] ∧
    sendCalls (tx_flush halfSendEnv (tx_flush halfSendEnv stagedCtx)).trace =
      [(32, 16), (16, 16)] ∧
    (tx_flush halfSendEnv (tx_flush halfSendEnv stagedCtx)).sh.tx_num = 0 ∧
    tx_flush halfSendEnv (tx_flush halfSendEnv (tx_flush halfSendEnv stagedCtx)) =
      tx_flush halfSendEnv (tx_flush halfSendEnv stagedCtx) := by
  refine ⟨by decide, by decide, by decide, by decide, ?_⟩
  exact tx_flush_empty _ _ (by decide)

theorem fetchGroup_length (g : Nat × Option Int) :
    (fetchGroup g).length = g.1 + g.2.toList.length := by
  simp [fetchGroup]

theorem poll_queues_fetch_ctx_run {W : Type} (env : Env W) (max : Nat) (hmax : max < 65536)
    (r : Nat) (st : FetchState W) (hk : st.k ≤ max) :
    ∃ (m : Nat) (stop : Option Int),
      (∀ x ∈ stop, x ≠ 0) ∧
      m + stop.toList.length ≤ r ∧
      (poll_queues_fetch_ctx env max r st).k = st.k + m ∧
      (poll_queues_fetch_ctx env max r st).k ≤ max ∧
      (poll_queues_fetch_ctx env max r st).ctx.poll_next_ctx = st.ctx.poll_next_ctx ∧
      fetchCalls (poll_queues_fetch_ctx env max r st).ctx.trace =
        fetchCalls st.ctx.trace ++
          (fetchGroup (m, stop)).map (fun x => (st.ctx.poll_next_ctx, x)) ∧
      (stop.isSome = true ∨ m = r ∨ (poll_queues_fetch_ctx env max r st).k = max) ∧
      (st.k < max → 0 < r → 0 < m + stop.toList.length) := by
  induction r generalizing st with
  | zero =>
    refine ⟨0, none, by simp, by simp, rfl, hk, rfl, by simp [poll_queues_fetch_ctx, fetchGroup],
      Or.inr (Or.inl rfl), ?_⟩
    intro _ h
    omega
  | succ r ih =>
    unfold poll_queues_fetch_ctx
    dsimp only
    by_cases hlt : st.k < max
    · rw [if_pos hlt]
      generalize hp : env.fast_appctx_poll_fetch st.ctx.sh st.ctx.poll_next_ctx = p
      by_cases h0 : p.1 = 0
      · rw [if_pos h0]
        have hu : u16 ((st.k + 1 : Nat) : Int) = st.k + 1 := u16_of_lt _ (by omega)
        rw [hu]
        obtain ⟨m, stop, i1, i2, i3, i4, i5, i6, i7, i8⟩ := ih
          { ctx := { st.ctx with
              sh := p.2.2
              trace := st.ctx.trace ++ [Event.fast_appctx_poll_fetch st.ctx.poll_next_ctx p.1] }
            aqes := Function.update st.aqes st.k p.2.1
            k := st.k + 1
            total := u32 (st.total + 1 : Nat) } (by show st.k + 1 ≤ max; omega)
        dsimp only at i3 i5 i6
        refine ⟨m + 1, stop, i1, by omega, by omega, i4, i5, ?_, ?_, fun _ _ => by omega⟩
        · rw [i6, fetchCalls_append]
          simp [fetchCalls, fetchGroup, List.replicate_succ, h0]
        · rcases i7 with h | h | h
          · exact Or.inl h
          · exact Or.inr (Or.inl (by omega))
          · exact Or.inr (Or.inr h)
      · rw [if_neg h0]
        refine ⟨0, some p.1, ?_, by simp, rfl, hk, rfl, ?_, Or.inl rfl, fun _ _ => by simp⟩
        · intro x hx
          cases hx
          exact h0
        · dsimp only
          rw [fetchCalls_append]
          simp [fetchCalls, fetchGroup]
    · rw [if_neg hlt]
      refine ⟨0, none, by simp, by simp, rfl, hk, rfl, by simp [fetchGroup],
        Or.inr (Or.inr (by omega)), fun h _ => absurd h hlt⟩

theorem poll_queues_fetch_run {W : Type} (env : Env W) (cfg : Config) (max : Nat)
    (hmax : max < 65536) (hb : 0 < u32 cfg.BATCH_SIZE) (r : Nat)
    (st : FetchState W) (p a : Nat)
    (hp : st.ctx.poll_next_ctx = (p + a) % cfg.FLEXNIC_PL_APPCTX_NUM) (hk : st.k ≤ max) :
    ∃ calls : List (Nat × Option Int),
      calls.length = (poll_queues_fetch env cfg max r st).2 ∧
      calls.length ≤ r ∧
      (∀ g ∈ calls, (∀ x ∈ g.2, x ≠ 0) ∧ 0 < (fetchGroup g).length ∧
        (fetchGroup g).length ≤ u32 cfg.BATCH_SIZE) ∧
      (poll_queues_fetch env cfg max r st).1.k = st.k + (calls.map Prod.fst).sum ∧
      (poll_queues_fetch env cfg max r st).1.k ≤ max ∧
      ((poll_queues_fetch env cfg max r st).1.k = max ∨ calls.length = r) ∧
      (∀ j g, calls[j]? = some g →
        (g.2.isSome = true ∨ g.1 = u32 cfg.BATCH_SIZE) ∨
        (j + 1 = calls.length ∧ (poll_queues_fetch env cfg max r st).1.k = max)) ∧
      (¬ st.k < max → calls = []) ∧
      (poll_queues_fetch env cfg max r st).1.ctx.poll_next_ctx =
        (p + a + calls.length) % cfg.FLEXNIC_PL_APPCTX_NUM ∧
      fetchCalls (poll_queues_fetch env cfg max r st).1.ctx.trace =
        fetchCalls st.ctx.trace ++
          ((List.range' a calls.length).zip calls).flatMap
            (fun x => (fetchGroup x.2).map
              (fun v => ((p + x.1) % cfg.FLEXNIC_PL_APPCTX_NUM, v))) := by
  induction r generalizing st a with
  | zero =>
    exact ⟨[], rfl, Nat.le_refl 0, by simp, by simp [poll_queues_fetch], hk, Or.inr rfl,
      by simp, fun _ => rfl, by simpa [poll_queues_fetch] using hp, by simp [poll_queues_fetch]⟩
  | succ r ih =>
    unfold poll_queues_fetch
    dsimp only
    by_cases hlt : st.k < max
    · rw [if_pos hlt]
      obtain ⟨m, stop, c1, c2, c3, c4, c5, c6, c7, c8⟩ :=
        poll_queues_fetch_ctx_run env max hmax (u32 cfg.BATCH_SIZE) st hk
      generalize poll_queues_fetch_ctx env max (u32 cfg.BATCH_SIZE) st = st1
        at c3 c4 c5 c6 c7
      obtain ⟨calls, d1, d2, d3, d4, d5, d6, d7, d8, d9, d10⟩ := ih
        { st1 with ctx := { st1.ctx with
            poll_next_ctx := (st1.ctx.poll_next_ctx + 1) % cfg.FLEXNIC_PL_APPCTX_NUM } }
        (a + 1) (by
          show (st1.ctx.poll_next_ctx + 1) % cfg.FLEXNIC_PL_APPCTX_NUM = _
          rw [c5, hp, Nat.mod_add_mod]; rfl) c4
      dsimp only at d1 d2 d4 d5 d6 d7 d8 d9 d10 ⊢
      refine ⟨(m, stop) :: calls, by simp [d1], by simp; omega, ?_, ?_, d5, ?_, ?_,
        fun h => absurd hlt h, ?_, ?_⟩
      · intro g hg
        rcases List.mem_cons.1 hg with hg | hg
        · subst hg
          rw [fetchGroup_length]
          exact ⟨c1, c8 hlt hb, c2⟩
        · exact d3 g hg
      · rw [d4, c3]
        simp only [List.map_cons, List.sum_cons]
        omega
      · rcases d6 with h | h
        · exact Or.inl h
        · exact Or.inr (by simp [h])
      · intro j g hj
        cases j with
        | zero =>
          simp only [List.getElem?_cons_zero, Option.some.injEq] at hj
          subst hj
          rcases c7 with h | h | h
          · exact Or.inl (Or.inl h)
          · exact Or.inl (Or.inr h)
          · have hc : calls = [] := d8 (by omega)
            subst hc
            refine Or.inr ⟨by simp, ?_⟩
            rw [d4]
            simp
            exact h
        | succ j =>
          simp only [List.getElem?_cons_succ] at hj
          rcases d7 j g hj with h | ⟨h1, h2⟩
          · exact Or.inl h
          · exact Or.inr ⟨by simp [h1], h2⟩
      · rw [d9]
        simp only [List.length_cons]
        congr 1
        omega
      · rw [d10]
        show fetchCalls st1.ctx.trace ++ _ = _
        rw [c6, hp]
        simp [List.range'_succ, List.append_assoc]
    · rw [if_neg hlt]
      exact ⟨[], rfl, Nat.zero_le _, by simp, by simp, hk, Or.inl (by show st.k = max; omega), by simp,
        fun _ => rfl, by simpa using hp, by simp⟩

/-- C9: `poll_queues` scans the application contexts in cyclic order starting
at the entry value `p` of `poll_next_ctx`.  Its fetch calls come in one group
per context scanned, group `j` on context `(p + j) mod FLEXNIC_PL_APPCTX_NUM`;
every group holds at least one call and at most `BATCH_SIZE`, all of its calls
but possibly the last return 0, and a group ends with a failed fetch or after
`BATCH_SIZE` calls, unless it is the last one and the reserved handles are used
up.  The scan stops only when all contexts have been scanned or as many
descriptors have been fetched as handles were reserved.  On return
`poll_next_ctx` is `(p + number of contexts scanned) mod
FLEXNIC_PL_APPCTX_NUM`.  With four contexts holding one descriptor each and
`p = 2`, the descriptors are fetched from contexts 2, 3, 0, 1 in this order and
`poll_next_ctx` ends at 2, with room for 16 descriptors and with room for
exactly 4. -/
theorem poll_queues_round_robin {W : Type} (env : Env W) (cfg : Config)
    (ctx : dataplane_context W) (ts : Nat)
    (hp : ctx.poll_next_ctx < cfg.FLEXNIC_PL_APPCTX_NUM)
    (hb0 : 0 < cfg.BATCH_SIZE) (hb : cfg.BATCH_SIZE < 4294967296) :
    (∃ calls : List (Nat × Option Int),
      calls.length = poll_queues_scanned env cfg ctx ∧
      calls.length ≤ cfg.FLEXNIC_PL_APPCTX_NUM ∧
      (∀ g ∈ calls, (∀ x ∈ g.2, x ≠ 0) ∧ 0 < (fetchGroup g).length ∧
        (fetchGroup g).length ≤ cfg.BATCH_SIZE) ∧
      (calls.map Prod.fst).sum ≤ (bufcache_prealloc env cfg ctx (poll_max cfg ctx)).1 ∧
      ((calls.map Prod.fst).sum = (bufcache_prealloc env cfg ctx (poll_max cfg ctx)).1 ∨
        calls.length = cfg.FLEXNIC_PL_APPCTX_NUM) ∧
      (∀ j g, calls[j]? = some g →
        (g.2.isSome = true ∨ g.1 = cfg.BATCH_SIZE) ∨
        (j + 1 = calls.length ∧
          (calls.map Prod.fst).sum = (bufcache_prealloc env cfg ctx (poll_max cfg ctx)).1)) ∧
      (finalCtx (poll_queues env cfg ctx ts)).poll_next_ctx =
        (ctx.poll_next_ctx + calls.length) % cfg.FLEXNIC_PL_APPCTX_NUM ∧
      fetchCalls (finalCtx (poll_queues env cfg ctx ts)).trace =
        fetchCalls ctx.trace ++ ((List.range calls.length).zip calls).flatMap
          (fun x => (fetchGroup x.2).map
            (fun v => ((ctx.poll_next_ctx + x.1) % cfg.FLEXNIC_PL_APPCTX_NUM, v)))) ∧
    (pollCount (poll_queues rrEnv exampleCfg (rrCtx 0) 0) = some 4 ∧
      fetchCalls (finalCtx (poll_queues rrEnv exampleCfg (rrCtx 0) 0)).trace =
        [(2, 0), (2, -1), (3, 0), (3, -1), (0, 0), (0, -1), (1, 0), (1, -1)] ∧
      (finalCtx (poll_queues rrEnv exampleCfg (rrCtx 0) 0)).poll_next_ctx = 2) ∧
    (pollCount (poll_queues rrEnv exampleCfg (rrCtx 28) 0) = some 4 ∧
      fetchCalls (finalCtx (poll_queues rrEnv exampleCfg (rrCtx 28) 0)).trace =
        [(2, 0), (2, -1), (3, 0), (3, -1), (0, 0), (0, -1), (1, 0)] ∧
      (finalCtx (poll_queues rrEnv exampleCfg (rrCtx 28) 0)).poll_next_ctx = 2) := by
  refine ⟨?_, by decide, by decide⟩
  have hu : u32 (cfg.BATCH_SIZE : Int) = cfg.BATCH_SIZE := u32_of_lt _ hb
  have hlt := bufcache_prealloc_lt_256 env cfg ctx (poll_max cfg ctx)
  have h1 := bufcache_prealloc_sameFetch env cfg ctx (poll_max cfg ctx)
  have h2 := poll_queues_pf_sameFetch env cfg cfg.FLEXNIC_PL_APPCTX_NUM 0
    (bufcache_prealloc env cfg ctx (poll_max cfg ctx)).2.2
  have h12 := sameFetch_trans h1 h2
  obtain ⟨calls, c1, c2, c3, c4, c5, c6, c7, -, c9, c10⟩ := poll_queues_fetch_run env cfg
    (bufcache_prealloc env cfg ctx (poll_max cfg ctx)).1 (by omega) (by rw [hu]; exact hb0)
    cfg.FLEXNIC_PL_APPCTX_NUM
    { ctx := poll_queues_pf env cfg cfg.FLEXNIC_PL_APPCTX_NUM 0
        (bufcache_prealloc env cfg ctx (poll_max cfg ctx)).2.2
      aqes := fun _ => 0, k := 0, total := 0 }
    ctx.poll_next_ctx 0
    (by show (poll_queues_pf env cfg cfg.FLEXNIC_PL_APPCTX_NUM 0
          (bufcache_prealloc env cfg ctx (poll_max cfg ctx)).2.2).poll_next_ctx = _
        rw [h12.1, Nat.add_zero, Nat.mod_eq_of_lt hp])
    (Nat.zero_le _)
  dsimp only at c4 c5 c6 c7 c9 c10
  rw [hu] at c3 c7
  rw [h12.2, ← List.range_eq_range'] at c10
  rw [Nat.add_zero] at c9
  rw [Nat.zero_add] at c4
  rw [c4] at c5 c6 c7
  refine ⟨calls, c1, c2, c3, c5, c6, c7, ?_, ?_⟩
  all_goals
    unfold poll_queues
    dsimp only
    generalize hf : poll_queues_fetch env cfg (bufcache_prealloc env cfg ctx (poll_max cfg ctx)).1
      cfg.FLEXNIC_PL_APPCTX_NUM
      { ctx := poll_queues_pf env cfg cfg.FLEXNIC_PL_APPCTX_NUM 0
          (bufcache_prealloc env cfg ctx (poll_max cfg ctx)).2.2
        aqes := fun _ => 0, k := 0, total := 0 } = f at c9 c10 ⊢
    have h3 := poll_queues_bump_sameFetch env ts f.1.aqes
      (bufcache_prealloc env cfg ctx (poll_max cfg ctx)).2.1 f.1.k 0 f.1.ctx 0
    generalize poll_queues_bump env ts f.1.aqes
      (bufcache_prealloc env cfg ctx (poll_max cfg ctx)).2.1 f.1.k 0 f.1.ctx 0 = b at h3 ⊢
    have h4 := bufcache_alloc_sameFetch cfg b.1 b.2
    cases ha : bufcache_alloc cfg b.1 b.2 with
    | error c =>
      rw [ha] at h4
      have h34 := sameFetch_trans h3 h4
      first
        | exact h34.1.trans c9
        | exact h34.2.trans c10
    | ok c =>
      rw [ha] at h4
      have h5 := poll_queues_probe_sameFetch env cfg.FLEXNIC_PL_APPCTX_NUM 0 c
      have h345 := sameFetch_trans (sameFetch_trans h3 h4) h5
      first
        | exact h345.1.trans c9
        | exact h345.2.trans c10

/-- Witness of C9: the cursor of the example is below the four contexts and
the batch size is 16. -/
theorem poll_queues_round_robin_witness :
    ((rrCtx 0).poll_next_ctx < exampleCfg.FLEXNIC_PL_APPCTX_NUM ∧ 0 < exampleCfg.BATCH_SIZE ∧
      exampleCfg.BATCH_SIZE < 4294967296) ∧
    ∃ calls : List (Nat × Option Int),
      calls.length = poll_queues_scanned rrEnv exampleCfg (rrCtx 0) ∧
      calls.length ≤ exampleCfg.FLEXNIC_PL_APPCTX_NUM ∧
      (∀ g ∈ calls, (∀ x ∈ g.2, x ≠ 0) ∧ 0 < (fetchGroup g).length ∧
        (fetchGroup g).length ≤ exampleCfg.BATCH_SIZE) ∧
      (finalCtx (poll_queues rrEnv exampleCfg (rrCtx 0) 0)).poll_next_ctx =
        ((rrCtx 0).poll_next_ctx + calls.length) % exampleCfg.FLEXNIC_PL_APPCTX_NUM :=
  ⟨by decide,
   match (poll_queues_round_robin rrEnv exampleCfg (rrCtx 0) 0 (by decide) (by decide)
      (by decide)).1 with
   | ⟨calls, h1, h2, h3, _, _, _, h7, _⟩ => ⟨calls, h1, h2, h3, h7⟩⟩

/-- The scan of the example with room for exactly four descriptors: four
contexts are scanned; the scan of the last one ends because the four reserved
handles are used up. -/
theorem poll_queues_scanned_example :
    poll_queues_scanned rrEnv exampleCfg (rrCtx 0) = 4 ∧
    poll_queues_scanned rrEnv exampleCfg (rrCtx 28) = 4 ∧
    poll_queues_scanned rrEnv exampleCfg (rrCtx 30) = 2 ∧
    fetchCalls (finalCtx (poll_queues rrEnv exampleCfg (rrCtx 30) 0)).trace =
      [(2, 0), (2, -1), (3, 0)] ∧
    (finalCtx (poll_queues rrEnv exampleCfg (rrCtx 30) 0)).poll_next_ctx = 0 ∧
    fetchCalls (finalCtx (poll_queues rrEnv exampleCfg (rrCtx 28) 0)).trace =
      ((List.range 4).zip [(1, some (-1)), (1, some (-1)), (1, some (-1)), (1, none)]).flatMap
        (fun x => (fetchGroup x.2).map (fun v => ((2 + x.1) % 4, v))) := by
  decide

end Fastemu
